import Mathlib

/-!
# The `populate` data generator (cmd/populate/main.go) and MessageService

A shallow embedding of the synthetic data generator, and of the two methods
CreateMessage and AddReaction of service/message.go, with proofs of the
properties their specification states.

Modelling conventions.

* Go `int` values are `Int`; where a 64-bit overflow could be reached the
  wrap-around is written out (`wrap64`, and `wrap32` for the int32 counter).
  The counters of PopulationStats wrap at every addition; `IsInt64` says that
  a number is a value of a Go int, and `Counted` that a counter has grown by
  an amount in this arithmetic.
* The Add methods of PopulationStats are whole calls where a generator calls
  them, and four steps (Lock, read, write, Unlock) in `StatsSystem`, where
  goroutines run them under an arbitrary schedule.
* `make` panics when its size is negative or the buffer is larger than the
  runtime allows (`makechanPanics`, `makeslicePanics`, for a 64-bit platform).
  A size that the runtime accepts is taken to be allocated: the memory of the
  machine, like its time, is not bounded here.
* `math/rand` is a stream of outcomes: the k-th call of `rand.Intn(n)` returns
  `ints k % n` (so every value of `[0,n)` can come out and nothing else), the
  k-th call of `rand.Float32()` returns the dyadic number
  `(floats k % 2^149) / 2^149` (every float32 of `[0,1)` has this form).
* The persistence Gateway (package `storage`) is a stream of answers: the
  k-th call of an operation receives the k-th answer, which may depend on the
  parameters of the call (for CreateUser: on the calls issued before).
  Quantifying over the answer functions covers every Gateway behaviour.
* A Go runtime panic is a result of its own (`Except.error`,
  `Outcome.panicked`), and loops whose termination depends on the input or on
  the Gateway carry a fuel argument; a run that never ends is `outOfFuel` for
  every fuel.
* The workers of the two pools are embedded as taking the batches one after
  the other.  With several workers the calls and draws of different batches
  interleave; since answers and draws are arbitrary streams, every such run is
  a run of the embedding up to the order of the result slice.
-/

namespace Populate

/-! ## Data model -/

/-- The type pgtype.UUID: the 16 bytes (read as one number) and the validity
flag.  Go compares two values with `==` field by field. -/
structure UUID where
  Bytes : Nat
  Valid : Bool
deriving DecidableEq, Repr, Inhabited

/-- Modelled from the spec: the row type storage.User (package storage is not
among the sources), with the columns of section 3 that the generator reads:
identifier, phone number and display name. -/
structure User where
  ID : UUID
  PhoneNumber : String
  DisplayName : String
deriving DecidableEq, Repr, Inhabited

/-- Modelled from the spec: the row returned by ListUserContacts (package
storage), one directed contact edge (owner, contact, cached display name). -/
structure Contact where
  UserID : UUID
  ContactID : UUID
  ContactName : String
deriving DecidableEq, Repr, Inhabited

/-- Modelled from the spec: the row type storage.Conversation (package
storage): identifier, is-group flag, optional title and creator. -/
structure Conversation where
  ID : UUID
  IsGroup : Bool
  Title : Option String
  CreatedBy : UUID
deriving DecidableEq, Repr, Inhabited

/-- Modelled from the spec: the type storage.AddContactParams, with the fields
the call site of main.go 273-277 sets. -/
structure AddContactParams where
  UserID : UUID
  ContactID : UUID
  ContactName : String
deriving DecidableEq, Repr, Inhabited

/-- Modelled from the spec: the type storage.CreateConversationParams, with the
fields the call sites of main.go 322-326 and 378-382 set. -/
structure CreateConversationParams where
  IsGroup : Bool
  Title : Option String
  CreatedBy : UUID
deriving DecidableEq, Repr, Inhabited

/-- Modelled from the spec: the type storage.AddConversationParticipantParams,
with the fields the call sites of main.go 332-341 and 394-398 set. -/
structure AddConversationParticipantParams where
  ConversationID : UUID
  UserID : UUID
  Role : String
deriving DecidableEq, Repr, Inhabited

/-- Reduction of an integer to the range of a signed 64-bit Go int. -/
def wrap64 (x : Int) : Int := (x + 2 ^ 63) % 2 ^ 64 - 2 ^ 63

/-- The values of a Go int on a 64-bit platform. -/
def IsInt64 (x : Int) : Prop := -2 ^ 63 ≤ x ∧ x < 2 ^ 63

instance (x : Int) : Decidable (IsInt64 x) := by
  unfold IsInt64
  exact inferInstance

/-- The counter `after` arose from `before` by additions of Go ints that
amount to k: it is congruent to `before + k` modulo 2^64, and it is an int64
value if `before` was one (every addition leaves an int64 value). -/
def Counted (before after k : Int) : Prop :=
  wrap64 after = wrap64 (before + k) ∧ (IsInt64 before → IsInt64 after)

/-- The fields of PopulationStats (main.go 28-36) other than the mutex: the
four counters, which are Go ints, and the two timestamps, kept as numbers.
The mutex is part of `StatsSystem` below, where the Add methods run step by
step; the functions AddUsers, ..., AddMessages are whole calls. -/
structure PopulationStats where
  UsersGenerated : Int
  ContactsGenerated : Int
  ConversationsGenerated : Int
  MessagesGenerated : Int
  StartTime : Nat
  EndTime : Nat
deriving DecidableEq, Repr, Inhabited

/-- PopulationStats.AddUsers (main.go 38-42) as a whole call: the addition
`+=` on a Go int wraps around at 64 bits. -/
def PopulationStats.AddUsers (s : PopulationStats) (count : Int) : PopulationStats :=
  { s with UsersGenerated := wrap64 (s.UsersGenerated + count) }

/-- PopulationStats.AddContacts (main.go 44-48) as a whole call: the addition
`+=` on a Go int wraps around at 64 bits. -/
def PopulationStats.AddContacts (s : PopulationStats) (count : Int) : PopulationStats :=
  { s with ContactsGenerated := wrap64 (s.ContactsGenerated + count) }

/-- PopulationStats.AddConversations (main.go 50-54) as a whole call: the addition
`+=` on a Go int wraps around at 64 bits. -/
def PopulationStats.AddConversations (s : PopulationStats) (count : Int) : PopulationStats :=
  { s with ConversationsGenerated := wrap64 (s.ConversationsGenerated + count) }

/-- PopulationStats.AddMessages (main.go 56-60) as a whole call: the addition
`+=` on a Go int wraps around at 64 bits. -/
def PopulationStats.AddMessages (s : PopulationStats) (count : Int) : PopulationStats :=
  { s with MessagesGenerated := wrap64 (s.MessagesGenerated + count) }

/-! ## The random source -/

/-- The state of the global math/rand source: the outcome streams and the
number of calls made so far of each kind. -/
structure Rand where
  ints : Nat → Nat
  floats : Nat → Nat
  intCalls : Nat
  floatCalls : Nat

/-- The call rand.Intn(n) for n > 0: a value of `[0,n)` and the advanced source.
(For n <= 0 Go panics; callers that can reach that case test it first.) -/
def Rand.Intn (g : Rand) (n : Nat) : Nat × Rand :=
  (g.ints g.intCalls % n, { g with intCalls := g.intCalls + 1 })

/-- The call rand.Float32(): the numerator k of the returned value `k / 2^149`,
which lies in `[0,1)`, and the advanced source. -/
def Rand.Float32 (g : Rand) : Nat × Rand :=
  (g.floats g.floatCalls % 2 ^ 149, { g with floatCalls := g.floatCalls + 1 })

/-- The float32 constant 0.1 (bit pattern 0x3DCCCCCD = 13421773 * 2^-27) as a
numerator over 2^149. -/
def f32_0_1 : Nat := 13421773 * 2 ^ 122

/-- The float32 constant 0.3 (bit pattern 0x3E99999A = 10066330 * 2^-25) as a
numerator over 2^149. -/
def f32_0_3 : Nat := 10066330 * 2 ^ 124

/-- The float32 constant 0.6 (bit pattern 0x3F19999A = 10066330 * 2^-24) as a
numerator over 2^149. -/
def f32_0_6 : Nat := 10066330 * 2 ^ 125

/-! ## The size limits of make -/

/-- The Go runtime (runtime.maxAlloc): the largest size in bytes of one
allocation, 2^48 on a 64-bit platform with 48 address bits such as
linux/amd64, the platform on which int has the 64 bits of `wrap64`. -/
def maxAlloc : Int := 2 ^ 48

/-- The Go runtime (runtime.hchanSize): the size in bytes of the header of a
channel on a 64-bit platform, 96 up to Go 1.22 (from Go 1.23 on the header
has one more word, which lowers the largest accepted size by one element). -/
def hchanSize : Int := 96

/-- The size in bytes of an int. -/
def sizeofInt : Int := 8

/-- The size in bytes of a slice value (pointer, length, capacity), the element
type of the channel messageBatches. -/
def sizeofSlice : Int := 24

/-- Modelled from the spec: the size in bytes of a storage.Conversation row
with the columns of section 3 of the specification in this order: the ID
(pgtype.UUID, 17 bytes), the is-group flag (1 byte), the title (pgtype.Text,
24 bytes at offset 24), the creator (pgtype.UUID at offset 48) and the
creation timestamp (pgtype.Timestamptz, 32 bytes at offset 72); these are the
fields that service/conversation.go 60-66 reads from the row. -/
def sizeofConversation : Int := 104

/-- Whether make(chan T, size) panics with "makechan: size out of range"
(runtime.makechan) for an element type of elemSize bytes: the size is
negative or the buffer does not fit below the allocation limit. -/
def makechanPanics (elemSize size : Int) : Bool :=
  decide (size < 0) || decide (elemSize * size > maxAlloc - hchanSize)

/-- Whether make([]T, 0, cap) panics with "makeslice: cap out of range"
(runtime.makeslice) for an element type of elemSize bytes: the capacity is
negative or the backing array exceeds the allocation limit. -/
def makeslicePanics (elemSize cap : Int) : Bool :=
  decide (cap < 0) || decide (elemSize * cap > maxAlloc)

/-! ## generateUsersBatch: the queueing loop (main.go 171-180) -/

/-- The queueing loop of generateUsersBatch: starting from `remaining`, the
batch sizes sent on the channel userBatches, in order.  One unit of fuel is
one loop iteration; `none` means the fuel ran out before the loop ended.
Every subtraction stays between 0 and `remaining` when batchSize >= 1, so no
64-bit overflow is reachable there. -/
def queueUserBatches : Nat → Int → Int → Option (List Int)
  | 0, remaining, _ => if remaining > 0 then none else some []
  | fuel + 1, remaining, batchSize =>
    if remaining > 0 then
      let currentBatch := if remaining < batchSize then remaining else batchSize
      (queueUserBatches fuel (remaining - currentBatch) batchSize).map
        (fun rest => currentBatch :: rest)
    else some []

/-! ## generateMessagesBatch: the dispatcher (main.go 632-662) -/

/-- The body of the dispatcher loop for the conversations from position i on:
`batch` is the batch under construction, `sent` the batches already sent on
the channel messageBatches.  The result is the list of batches sent, or the
panic of rand.Intn on a non-positive argument. -/
def dispatchLoop (messagesPerConv batchSize : Int) (total : Nat) :
    List Conversation → Nat → List Conversation → List (List Conversation) → Rand →
      Except String (List (List Conversation) × Rand)
  | [], _, _, sent, g => .ok (sent, g)
  | conv :: rest, i, batch, sent, g =>
    if Int.tdiv messagesPerConv 2 ≤ 0 then
      .error "invalid argument to Intn"
    else
      let (r, g) := g.Intn (Int.tdiv messagesPerConv 2).toNat
      let messageCount : Int :=
        if conv.IsGroup then wrap64 (messagesPerConv + r)
        else wrap64 (Int.tdiv messagesPerConv 2 + r)
      let g := if messageCount < 5 then (g.Intn 15).2 else g
      let batch := batch ++ [conv]
      if (batch.length : Int) ≥ batchSize ∨ (i : Int) = (total : Int) - 1 then
        dispatchLoop messagesPerConv batchSize total rest (i + 1) [] (sent ++ [batch]) g
      else
        dispatchLoop messagesPerConv batchSize total rest (i + 1) batch sent g

/-- The dispatcher of generateMessagesBatch (main.go 632-662): the batches of
conversations it sends to the workers, in order.  Runtime panics are errors:
make with a capacity that is negative or beyond the allocation limit, the
integer division by len(conversations) when that is zero, and rand.Intn on a
non-positive argument.  (The make of main.go 657 has the same capacity as the
one of main.go 633 and so does not panic after it.) -/
def dispatchBatches (conversations : List Conversation) (targetMessages batchSize : Int)
    (g : Rand) : Except String (List (List Conversation) × Rand) :=
  if makeslicePanics sizeofConversation batchSize then .error "makeslice: cap out of range"
  else if conversations.length = 0 then .error "integer divide by zero"
  else
    dispatchLoop (Int.tdiv targetMessages (conversations.length : Int)) batchSize
      conversations.length conversations 0 [] [] g

/-! ## The persistence Gateway -/

/-- Modelled from the spec: the persistence Gateway (type storage.Queries, not
among the sources), as the answers it gives to the calls of the contact and
conversation generators.  Nothing is assumed about the answers.  The first argument is the number of
earlier calls of the same operation.  AddContact answers whether the call
succeeded; the two others answer the returned row(s), or `none` for an error.
AddConversationParticipant has no entry: the generator discards its result. -/
structure Gateway where
  AddContact : Nat → AddContactParams → Bool
  ListUserContacts : Nat → UUID → Option (List Contact)
  CreateConversation : Nat → CreateConversationParams → Option Conversation

/-! ## generateContactsOptimized (main.go 231-291) -/

/-- The state threaded through generateContactsOptimized: the random source,
the number of AddContact calls issued so far and the statistics. -/
structure ContactState where
  rng : Rand
  addContactCalls : Nat
  stats : PopulationStats

/-- The tier draw and the contact count of one user (main.go 237-246). -/
def drawContactCount (g : Rand) : Nat × Rand :=
  let (userType, g) := g.Float32
  if userType < f32_0_1 then
    let (r, g) := g.Intn 50
    (r + 30, g)
  else if userType < f32_0_3 then
    let (r, g) := g.Intn 20
    (r + 10, g)
  else
    let (r, g) := g.Intn 10
    (r + 3, g)

/-- The candidate search of one contact slot (main.go 255-265): the loop
`for attempts < 10`, which draws an index into users and stops at the first
candidate that is not in usedContacts.  It returns the last candidate drawn
and the final value of attempts.  The fuel bounds the iterations; ten units
are enough because attempts grows in every iteration that does not stop.
The index is below len(users), so the default element is never read. -/
def findContact (users : List User) (usedContacts : List UUID) :
    Nat → Nat → User → Rand → User × Nat × Rand
  | 0, attempts, contact, g => (contact, attempts, g)
  | fuel + 1, attempts, contact, g =>
    if attempts < 10 then
      let (contactIdx, g) := g.Intn users.length
      let contact := users.getD contactIdx default
      if !usedContacts.contains contact.ID then (contact, attempts, g)
      else findContact users usedContacts fuel (attempts + 1) contact g
    else (contact, attempts, g)

/-- The loop over the contact slots of one user (main.go 253-283), for the
given number of remaining iterations: `calls` collects the AddContact calls
issued for this owner, in order. -/
def contactSlots (gw : Gateway) (users : List User) (user : User) :
    Nat → List UUID → List AddContactParams → ContactState →
      List AddContactParams × ContactState
  | 0, _, calls, s => (calls, s)
  | n + 1, usedContacts, calls, s =>
    let (contact, attempts, g) := findContact users usedContacts 10 0 default s.rng
    let s := { s with rng := g }
    if attempts ≥ 10 then contactSlots gw users user n usedContacts calls s
    else
      let usedContacts := contact.ID :: usedContacts
      let params : AddContactParams :=
        { UserID := user.ID, ContactID := contact.ID, ContactName := contact.DisplayName }
      let ok := gw.AddContact s.addContactCalls params
      let s := { s with addContactCalls := s.addContactCalls + 1 }
      if !ok then contactSlots gw users user n usedContacts (calls ++ [params]) s
      else
        contactSlots gw users user n usedContacts (calls ++ [params])
          { s with stats := s.stats.AddContacts 1 }

/-- One iteration of the loop over the users (main.go 235-288): the
AddContact calls issued for this owner and the state afterwards. -/
def contactsForUser (gw : Gateway) (users : List User) (user : User) (s : ContactState) :
    List AddContactParams × ContactState :=
  let (contactCount, g) := drawContactCount s.rng
  contactSlots gw users user contactCount [user.ID] [] { s with rng := g }

/-- The loop over the users: for every owner in turn, the owner together with
the AddContact calls issued in its iteration. -/
def contactsLoop (gw : Gateway) (users : List User) :
    List User → ContactState → List (User × List AddContactParams) × ContactState
  | [], s => ([], s)
  | user :: rest, s =>
    let (calls, s) := contactsForUser gw users user s
    let (others, s) := contactsLoop gw users rest s
    ((user, calls) :: others, s)

/-- The result of generateContactsOptimized: the returned error (always nil),
the AddContact calls per owner and the final state. -/
structure ContactsResult where
  err : Option String
  perOwner : List (User × List AddContactParams)
  state : ContactState

/-- The function generateContactsOptimized (main.go 231-291). -/
def generateContactsOptimized (gw : Gateway) (users : List User) (stats : PopulationStats)
    (g : Rand) : ContactsResult :=
  let (perOwner, s) := contactsLoop gw users users
    { rng := g, addContactCalls := 0, stats := stats }
  { err := none, perOwner := perOwner, state := s }

/-! ## generateConversationsOptimized (main.go 294-413) -/

/-- Number of binary digits of n, by repeated halving; the fuel bounds the
number of halvings and n units are always enough. -/
def bitLengthAux : Nat → Nat → Nat
  | 0, _ => 0
  | fuel + 1, n => if n = 0 then 0 else bitLengthAux fuel (n / 2) + 1

/-- Number of binary digits of n (0 for n = 0). -/
def bitLength (n : Nat) : Nat := bitLengthAux n n

/-- Rounding of a natural number to the nearest number with at most 53
significant binary digits, ties to the even significand: the rounding of
IEEE-754 binary64 arithmetic, applied to a significand that is scaled to an
integer. -/
def roundFloat64 (p : Nat) : Nat :=
  if bitLength p ≤ 53 then p
  else
    let s := bitLength p - 53
    let q := p / 2 ^ s
    let rem := p % 2 ^ s
    if rem * 2 > 2 ^ s ∨ (rem * 2 = 2 ^ s ∧ q % 2 = 1) then (q + 1) * 2 ^ s else q * 2 ^ s

/-- The float64 constant 0.8 (bit pattern 0x3FE999999999999A) is
7205759403792794 / 2^53. -/
def f64_0_8_num : Nat := 7205759403792794

/-- The expression `int(float64(n) * 0.8)` for n >= 0: the conversion of n to
float64 rounds to 53 digits, the product with the constant 0.8 is rounded
again, and the conversion to int drops the fraction. -/
def scaleByPoint8 (n : Nat) : Nat :=
  roundFloat64 (roundFloat64 n * f64_0_8_num) / 2 ^ 53

/-- The 1:1 target `oneOnOneCount := int(float64(targetConversations) * 0.8)`
(main.go 299).  IEEE rounding is symmetric in the sign and the conversion to
int truncates toward zero, so a negative argument gives the negated value of
its magnitude. -/
def oneOnOneTarget (targetConversations : Int) : Int :=
  if targetConversations < 0 then -((scaleByPoint8 targetConversations.natAbs : Nat) : Int)
  else ((scaleByPoint8 targetConversations.natAbs : Nat) : Int)

/-- One created conversation: the parameters of the CreateConversation call,
the row the Gateway returned, and the AddConversationParticipant calls issued
for it, in order. -/
structure ConvRecord where
  request : CreateConversationParams
  conv : Conversation
  adds : List AddConversationParticipantParams
deriving DecidableEq, Repr

/-- The state threaded through generateConversationsOptimized: the random
source, the number of ListUserContacts and CreateConversation calls issued so
far, the statistics, the slice `conversations` and the log of the created
conversations. -/
structure ConvState where
  rng : Rand
  listCalls : Nat
  createCalls : Nat
  stats : PopulationStats
  conversations : List Conversation
  created : List ConvRecord

/-- How a run ended: the function returned, a runtime panic, or the fuel of
the model ran out before the loop ended. -/
inductive Outcome where
  | returned : Outcome
  | panicked : String → Outcome
  | outOfFuel : Outcome
deriving DecidableEq, Repr

/-- The loop over the contacts of one user in the 1:1 phase (main.go 316-349);
`count` is the variable conversationCount. -/
def oneOnOneContacts (gw : Gateway) (user : User) (oneOnOneCount : Int) :
    List Contact → Int → ConvState → Int × ConvState
  | [], count, s => (count, s)
  | contact :: rest, count, s =>
    if count ≥ oneOnOneCount then (count, s)
    else
      let (p, g) := s.rng.Float32
      let s := { s with rng := g }
      if p < f32_0_6 then
        let params : CreateConversationParams :=
          { IsGroup := false, Title := none,
            CreatedBy := { Valid := true, Bytes := user.ID.Bytes } }
        let answer := gw.CreateConversation s.createCalls params
        let s := { s with createCalls := s.createCalls + 1 }
        match answer with
        | none => oneOnOneContacts gw user oneOnOneCount rest count s
        | some conv =>
          let adds : List AddConversationParticipantParams :=
            [{ ConversationID := conv.ID, UserID := user.ID, Role := "member" },
             { ConversationID := conv.ID, UserID := contact.ContactID, Role := "member" }]
          oneOnOneContacts gw user oneOnOneCount rest (count + 1)
            { s with
              conversations := s.conversations ++ [conv]
              stats := s.stats.AddConversations 1
              created := s.created ++ [{ request := params, conv := conv, adds := adds }] }
      else oneOnOneContacts gw user oneOnOneCount rest count s

/-- The loop over the users in the 1:1 phase (main.go 305-350). -/
def oneOnOneUsers (gw : Gateway) (oneOnOneCount : Int) :
    List User → Int → ConvState → Int × ConvState
  | [], count, s => (count, s)
  | user :: rest, count, s =>
    if count ≥ oneOnOneCount then (count, s)
    else
      let answer := gw.ListUserContacts s.listCalls user.ID
      let s := { s with listCalls := s.listCalls + 1 }
      match answer with
      | none => oneOnOneUsers gw oneOnOneCount rest count s
      | some contacts =>
        let (count, s) := oneOnOneContacts gw user oneOnOneCount contacts count s
        oneOnOneUsers gw oneOnOneCount rest count s

/-- The swap closure passed to rand.Shuffle (main.go 372-374):
`shuffled[i], shuffled[j] = shuffled[j], shuffled[i]`. -/
def swapUsers (shuffled : List User) (i j : Nat) : List User :=
  (shuffled.set i (shuffled.getD j default)).set j (shuffled.getD i default)

/-- The loop of rand.Shuffle (Fisher-Yates): for i going down to 1 it calls
swap(i, j) with j drawn from `[0, i]`. -/
def shuffleFrom : Nat → List User → Rand → List User × Rand
  | 0, shuffled, g => (shuffled, g)
  | i + 1, shuffled, g =>
    let (j, g) := g.Intn (i + 2)
    shuffleFrom i (swapUsers shuffled (i + 1) j) g

/-- The call rand.Shuffle(len(shuffled), swap) on a copy of users. -/
def shuffle (users : List User) (g : Rand) : List User × Rand :=
  shuffleFrom (users.length - 1) users g

/-- The pool groupNames (main.go 356-360). -/
def groupNames : List String :=
  ["Family Chat", "Work Team", "College Friends", "Book Club", "Gaming Squad",
   "Travel Buddies", "Fitness Group", "Cooking Club", "Tech Talk", "Movie Night",
   "Study Group", "Project Team", "Neighborhood Watch", "Parent Group", "Hobby Club"]

/-- The group phase (main.go 362-410): the loop `for groupsCreated < groupCount`.
One unit of fuel is one iteration.  The index expression groupMembers[0]
panics when the selected prefix is empty. -/
def groupLoop (gw : Gateway) (users : List User) (groupCount : Int) :
    Nat → Int → ConvState → Outcome × ConvState
  | 0, groupsCreated, s =>
    if groupsCreated < groupCount then (Outcome.outOfFuel, s) else (Outcome.returned, s)
  | fuel + 1, groupsCreated, s =>
    if groupsCreated < groupCount then
      let (r, g) := s.rng.Intn 8
      let groupSize := if r + 3 > users.length then users.length else r + 3
      let (shuffled, g) := shuffle users g
      let groupMembers := shuffled.take groupSize
      let (t, g) := g.Intn groupNames.length
      let s := { s with rng := g }
      match groupMembers with
      | [] => (Outcome.panicked "index out of range [0] with length 0", s)
      | first :: _ =>
        let params : CreateConversationParams :=
          { IsGroup := true, Title := some (groupNames.getD t ""),
            CreatedBy := { Valid := true, Bytes := first.ID.Bytes } }
        let answer := gw.CreateConversation s.createCalls params
        let s := { s with createCalls := s.createCalls + 1 }
        match answer with
        | none => groupLoop gw users groupCount fuel groupsCreated s
        | some conv =>
          let adds : List AddConversationParticipantParams :=
            groupMembers.map (fun member =>
              { ConversationID := conv.ID, UserID := member.ID,
                Role := if member.ID = conv.CreatedBy then "admin" else "member" })
          groupLoop gw users groupCount fuel (groupsCreated + 1)
            { s with
              conversations := s.conversations ++ [conv]
              stats := s.stats.AddConversations 1
              created := s.created ++ [{ request := params, conv := conv, adds := adds }] }
    else (Outcome.returned, s)

/-- The result of a run of generateConversationsOptimized: how it ended, the
final value of conversationCount, and the final state (whose field
`conversations` is the returned slice when the run returned). -/
structure ConversationsResult where
  outcome : Outcome
  oneOnOneCreated : Int
  state : ConvState

/-- The function generateConversationsOptimized (main.go 294-413), with fuel
for the group phase. -/
def generateConversationsOptimized (fuel : Nat) (gw : Gateway) (users : List User)
    (targetConversations : Int) (stats : PopulationStats) (g : Rand) : ConversationsResult :=
  let oneOnOneCount := oneOnOneTarget targetConversations
  let (count, s) := oneOnOneUsers gw oneOnOneCount users 0
    { rng := g, listCalls := 0, createCalls := 0, stats := stats,
      conversations := [], created := [] }
  let groupCount := targetConversations - oneOnOneCount
  let (outcome, s) := groupLoop gw users groupCount fuel 0 s
  { outcome := outcome, oneOnOneCreated := count, state := s }

/-! ### What the trace of a created conversation looks like -/

/-- The trace of one conversation of the 1:1 phase: the CreateConversation
call was issued for a listed contact of some user, with is_group false, no
title and that user as creator, and the two AddConversationParticipant calls
name the user and the contact, both as "member". -/
def OneOnOneRecord (gw : Gateway) (users : List User) (r : ConvRecord) : Prop :=
  ∃ (user : User) (contact : Contact) (contacts : List Contact) (j k : Nat),
    user ∈ users ∧ gw.ListUserContacts j user.ID = some contacts ∧ contact ∈ contacts ∧
    r.request = { IsGroup := false, Title := none,
                  CreatedBy := { Valid := true, Bytes := user.ID.Bytes } } ∧
    gw.CreateConversation k r.request = some r.conv ∧
    r.adds = [{ ConversationID := r.conv.ID, UserID := user.ID, Role := "member" },
              { ConversationID := r.conv.ID, UserID := contact.ContactID, Role := "member" }]

/-- The trace of one conversation of the group phase: for a drawn size d in
`[3,11)` the members are the first min(d, len(users)) elements of a
permutation of users, there is a first member, the CreateConversation call
has is_group true, a title of the pool and the first member as creator, and
one AddConversationParticipant call is issued per member, in order, with the
role "admin" exactly when the member's ID equals the CreatedBy column of the
returned row. -/
def GroupRecord (gw : Gateway) (users : List User) (r : ConvRecord) : Prop :=
  ∃ (shuffled : List User) (d : Nat) (first : User) (others : List User) (title : String)
    (k : Nat),
    shuffled.Perm users ∧ 3 ≤ d ∧ d < 11 ∧
    shuffled.take (min d users.length) = first :: others ∧
    title ∈ groupNames ∧
    r.request = { IsGroup := true, Title := some title,
                  CreatedBy := { Valid := true, Bytes := first.ID.Bytes } } ∧
    gw.CreateConversation k r.request = some r.conv ∧
    r.adds = (first :: others).map (fun member =>
      { ConversationID := r.conv.ID, UserID := member.ID,
        Role := if member.ID = r.conv.CreatedBy then "admin" else "member" })

/-- The state t arises from s by creating the conversations `new`, in order:
they are appended to the log and their rows to the slice `conversations`,
and ConversationsGenerated grew by their number in the 64-bit arithmetic of
a Go int: the counter is congruent to the old value plus that number, and it
is an int64 value if the old value was one. -/
def ConvState.Extends (s t : ConvState) (new : List ConvRecord) : Prop :=
  t.created = s.created ++ new ∧
  t.conversations = s.conversations ++ new.map (fun r => r.conv) ∧
  wrap64 t.stats.ConversationsGenerated =
    wrap64 (s.stats.ConversationsGenerated + (new.length : Int)) ∧
  (IsInt64 s.stats.ConversationsGenerated → IsInt64 t.stats.ConversationsGenerated)

/-! ## generateRealisticMessageContent (main.go 715-806) -/

/-- The pool templates (main.go 717-738). -/
def templates : List String :=
  ["Hey %s! How are you doing?",
   "Did you see %s?",
   "I'm running a bit late, be there %s!",
   "Thanks for your help with %s!",
   "What's everyone up to %s?",
   "Check out this %s I found!",
   "Happy %s! Hope you have an amazing day!",
   "Can't believe it's already been %s",
   "Just finished my %s, it was awesome!",
   "Anyone free to %s?",
   "Good morning! Ready for %s?",
   "That %s was incredible!",
   "Looking forward to %s",
   "Sorry I'm late to the %s",
   "Congratulations on %s!",
   "Let me know about %s",
   "Thinking about %s",
   "Excited for %s!",
   "Thanks again for %s",
   "How did %s go?"]

/-- The pool fillers (main.go 741-762). -/
def fillers : List String :=
  ["today", "yesterday", "tomorrow", "this week", "this weekend",
   "the news", "that movie", "the game", "the meeting", "the party",
   "soon", "in a few minutes", "later", "after work", "tomorrow",
   "the project", "the presentation", "the homework", "the cooking", "the planning",
   "this weekend", "tonight", "tomorrow", "next week", "for lunch",
   "cool thing", "awesome article", "funny video", "interesting post", "great deal",
   "birthday", "anniversary", "graduation", "promotion", "holiday",
   "a week", "a month", "a year", "so long", "forever",
   "project", "assignment", "workout", "meal", "trip",
   "chat", "hang out", "meet up", "call", "video call",
   "the day", "the presentation", "the interview", "the exam", "the workout",
   "experience", "concert", "show", "event", "performance",
   "the weekend", "vacation", "trip", "event", "celebration",
   "conversation", "discussion", "meeting", "party", "gathering",
   "achievement", "success", "win", "accomplishment", "milestone",
   "the details", "the plan", "the schedule", "the update", "the information",
   "you", "the future", "life", "everything", "the weekend",
   "the opportunity", "the adventure", "the challenge", "the experience", "the journey",
   "everything", "your help", "the support", "your time", "the opportunity",
   "the interview", "the exam", "the date", "the trip", "the meeting"]

/-- The pool simpleMessages (main.go 765-786). -/
def simpleMessages : List String :=
  ["Hey! 👋", "Good morning! ☀️", "Good night! 🌙", "How are you?", "What's up?",
   "LOL 😂", "Thanks! 😊", "You're welcome!", "See you later!", "Take care!",
   "Awesome! 🎉", "Sounds good!", "I agree", "Perfect!", "Great idea!",
   "Looking forward to it", "Can't wait!", "So excited!", "That's amazing!", "Wow! 😮"]

/-- The pool shortResponses (main.go 799-803). -/
def shortResponses : List String :=
  ["👍", "👎", "❤️", "😂", "😊", "😢", "😮", "🎉", "🔥", "💯",
   "ok", "yes", "no", "maybe", "sure", "yep", "nope", "definitely",
   "absolutely", "probably", "I think so", "I don't think so"]

/-- The end of a fmt.Sprintf call: an operand that no verb consumed is
reported with the EXTRA marker. -/
def sprintfEnd : Option String → List Char
  | none => []
  | some a => "%!(EXTRA string=".data ++ a.data ++ ")".data

/-- The call fmt.Sprintf(format, arg) with at most one string operand left
(`arg`), on the characters of the format.  Modelled: literal text, the verbs
`%s` and `%v` (the operand verbatim, or the MISSING marker when it is used up),
`%%`, a lone `%` at the end (NOVERB) and an unused operand (EXTRA).  Flags,
widths and the other verbs are outside the fragment: `none`. -/
def sprintfChars : List Char → Option String → Option (List Char)
  | [], arg => some (sprintfEnd arg)
  | c :: rest, arg =>
    if c = '%' then
      match rest with
      | [] => some ("%!(NOVERB)".data ++ sprintfEnd arg)
      | v :: rest2 =>
        if v = '%' then (sprintfChars rest2 arg).map (fun out => '%' :: out)
        else if v = 's' ∨ v = 'v' then
          match arg with
          | some a => (sprintfChars rest2 none).map (fun out => a.data ++ out)
          | none =>
            (sprintfChars rest2 none).map (fun out => ['%', '!', v] ++ "(MISSING)".data ++ out)
        else none
    else (sprintfChars rest arg).map (fun out => c :: out)

/-- The call fmt.Sprintf(format, arg) for one string operand. -/
def sprintf (format arg : String) : Option String :=
  (sprintfChars format.data (some arg)).map String.mk

/-- The function generateRealisticMessageContent (main.go 715-806): the
returned text (`none` only if a format left the modelled fragment of Sprintf)
and the advanced random source.  Every index is drawn below the length of its
pool, so the default of the lookups is never returned. -/
def generateRealisticMessageContent (g : Rand) : Option String × Rand :=
  let (messageType, g) := g.Intn 3
  if messageType = 0 then
    let (ti, g) := g.Intn templates.length
    let template := templates.getD ti ""
    let (fi, g) := g.Intn fillers.length
    let filler := fillers.getD fi ""
    (sprintf template filler, g)
  else if messageType = 1 then
    let (si, g) := g.Intn simpleMessages.length
    (some (simpleMessages.getD si ""), g)
  else
    let (ri, g) := g.Intn shortResponses.length
    (some (shortResponses.getD ri ""), g)

/-! ## Sample inputs for the concrete instances -/

/-- Users with the IDs 0, ..., n-1. -/
def sampleUsers (n : Nat) : List User :=
  (List.range n).map (fun i => { ID := { Bytes := i, Valid := true },
                                 PhoneNumber := "p", DisplayName := "n" })

/-- A Gateway on which every call succeeds: every user has the user with the
next ID as its one contact, and a created conversation has the columns it was
created with and the ID 1000 + k at the k-th creation. -/
def sampleGateway : Gateway :=
  { AddContact := fun _ _ => true
    ListUserContacts := fun _ u =>
      some [{ UserID := u, ContactID := { Bytes := u.Bytes + 1, Valid := true },
              ContactName := "n" }]
    CreateConversation := fun k p =>
      some { ID := { Bytes := 1000 + k, Valid := true }, IsGroup := p.IsGroup,
             Title := p.Title, CreatedBy := p.CreatedBy } }

/-- A random source: the k-th integer outcome is 7 k + 3 and the Float32
outcomes cycle through 0, 1/4, 1/2, 3/4. -/
def sampleRand : Rand :=
  { ints := fun k => k * 7 + 3, floats := fun k => k * 2 ^ 147, intCalls := 0, floatCalls := 0 }

/-- Statistics with all counters at 0. -/
def zeroStats : PopulationStats :=
  { UsersGenerated := 0, ContactsGenerated := 0, ConversationsGenerated := 0,
    MessagesGenerated := 0, StartTime := 0, EndTime := 0 }

/-! ## generateMessagesForConversation and generateMessagesBatch (main.go 603-713) -/

/-- Modelled from the spec: the row returned by ListConversationParticipants
(package storage is not among the sources): conversation, user and role. -/
structure Participant where
  ConversationID : UUID
  UserID : UUID
  Role : String
deriving DecidableEq, Repr, Inhabited

/-- Modelled from the spec: the type storage.CreateMessageParams, with the
fields the call site of main.go 698-704 sets (the content is the String of a
valid pgtype.Text). -/
structure CreateMessageParams where
  ConversationID : UUID
  SenderID : UUID
  Content : String
  MessageType : String
  ReplyToID : UUID
deriving DecidableEq, Repr, Inhabited

/-- Modelled from the spec: the persistence Gateway as seen by the message
generator, as the answers it gives.  The first argument is the number of
earlier calls of the same operation.  ListConversationParticipants answers
the rows, or `none` for an error; CreateMessage answers whether the call
succeeded (the generator discards the returned row).  Nothing is assumed
about the answers. -/
structure MessageGateway where
  ListConversationParticipants : Nat → UUID → Option (List Participant)
  CreateMessage : Nat → CreateMessageParams → Bool

/-- The state threaded through the message generator: the random source, the
number of calls of the two Gateway operations issued so far, the statistics,
and the log of the CreateMessage calls issued, each with the answer whether
it succeeded. -/
structure MessageState where
  rng : Rand
  listCalls : Nat
  createCalls : Nat
  stats : PopulationStats
  issued : List (CreateMessageParams × Bool)

/-- The loop `for i := 0; i < messageCount; i++` of
generateMessagesForConversation (main.go 689-710), for the given number of
remaining iterations.  The sender index is drawn below len(participants), so
the default of the lookup is never read, and the content generator returns a
text for every draw, so the default of the content is never used. -/
def messageLoop (gw : MessageGateway) (conv : Conversation) (participants : List Participant) :
    Nat → MessageState → MessageState
  | 0, s => s
  | n + 1, s =>
    let (senderIdx, g) := s.rng.Intn participants.length
    let sender := participants.getD senderIdx default
    let (content, g) := generateRealisticMessageContent g
    let params : CreateMessageParams :=
      { ConversationID := conv.ID,
        SenderID := { Valid := true, Bytes := sender.UserID.Bytes },
        Content := content.getD "",
        MessageType := "text",
        ReplyToID := { Valid := false, Bytes := 0 } }
    let ok := gw.CreateMessage s.createCalls params
    let s := { s with rng := g, createCalls := s.createCalls + 1,
                      issued := s.issued ++ [(params, ok)] }
    if !ok then messageLoop gw conv participants n s
    else messageLoop gw conv participants n { s with stats := s.stats.AddMessages 1 }

/-- The function generateMessagesForConversation (main.go 668-713): the
returned count, the returned error (`none` is nil) and the state afterwards. -/
def generateMessagesForConversation (gw : MessageGateway) (conv : Conversation)
    (s : MessageState) : (Int × Option String) × MessageState :=
  let answer := gw.ListConversationParticipants s.listCalls conv.ID
  let s := { s with listCalls := s.listCalls + 1 }
  match answer with
  | none => ((0, some "ListConversationParticipants failed"), s)
  | some participants =>
    if participants.length = 0 then ((0, none), s)
    else
      let (r, g) := if conv.IsGroup then s.rng.Intn 50 else s.rng.Intn 30
      let messageCount : Nat := if conv.IsGroup then r + 20 else r + 10
      (((messageCount : Int), none),
        messageLoop gw conv participants messageCount { s with rng := g })

/-- Reduction of an integer to the range of a signed 32-bit Go int32. -/
def wrap32 (x : Int) : Int := (x + 2 ^ 31) % 2 ^ 32 - 2 ^ 31

/-- The work of a worker on one batch (main.go 614-627): every conversation
of the batch in turn; `total` is the shared counter totalMessages, an int32
to which the returned count is added atomically. -/
def processConversations (gw : MessageGateway) :
    List Conversation → Int → MessageState → Int × MessageState
  | [], total, s => (total, s)
  | conv :: rest, total, s =>
    let ((messagesGenerated, err), s) := generateMessagesForConversation gw conv s
    match err with
    | some _ => processConversations gw rest total s
    | none => processConversations gw rest (wrap32 (total + wrap32 messagesGenerated)) s

/-- The work of the workers on the batches received from the channel
(main.go 613-628).  The batches are taken one after the other: with several
workers the Gateway calls and the draws of different batches interleave, which
changes which answer and which draw a call receives but not what a call does
with them, and the answers and draws are arbitrary here. -/
def processBatches (gw : MessageGateway) :
    List (List Conversation) → Int → MessageState → Int × MessageState
  | [], total, s => (total, s)
  | batch :: rest, total, s =>
    let (total, s) := processConversations gw batch total s
    processBatches gw rest total s

/-- The result of a run of generateMessagesBatch: how it ended, the returned
count and error (`none` is nil), the batches dispatched, and the final state. -/
structure MessagesResult where
  outcome : Outcome
  total : Int
  err : Option String
  batches : List (List Conversation)
  state : MessageState

/-- The function generateMessagesBatch (main.go 603-666).  A worker count that
is negative or beyond the allocation limit panics in make(chan); the panics
of the dispatcher are those of dispatchBatches and happen before anything is
sent; without any worker a dispatcher that has a batch to send blocks
forever, which is the outcome `outOfFuel`.  On return the error is nil. -/
def generateMessagesBatch (gw : MessageGateway) (conversations : List Conversation)
    (targetMessages batchSize workers : Int) (stats : PopulationStats) (g : Rand) :
    MessagesResult :=
  let s0 : MessageState :=
    { rng := g, listCalls := 0, createCalls := 0, stats := stats, issued := [] }
  if makechanPanics sizeofSlice workers then
    { outcome := Outcome.panicked "makechan: size out of range", total := 0, err := none,
      batches := [], state := s0 }
  else
    match dispatchBatches conversations targetMessages batchSize g with
    | .error msg =>
      { outcome := Outcome.panicked msg, total := 0, err := none, batches := [], state := s0 }
    | .ok (batches, g) =>
      if workers = 0 ∧ batches ≠ [] then
        { outcome := Outcome.outOfFuel, total := 0, err := none, batches := [],
          state := { s0 with rng := g } }
      else
        let (total, s) := processBatches gw batches 0 { s0 with rng := g }
        { outcome := Outcome.returned, total := total, err := none, batches := batches,
          state := s }

/-- A conversation row: the 1:1 conversation with the ID 1000. -/
def sampleConversation : Conversation :=
  { ID := { Bytes := 1000, Valid := true }, IsGroup := false, Title := none,
    CreatedBy := { Bytes := 1, Valid := true } }

/-- A Gateway for the message generator on which every call succeeds and
every conversation has the participants 1 and 2. -/
def sampleMessageGateway : MessageGateway :=
  { ListConversationParticipants := fun _ c =>
      some [{ ConversationID := c, UserID := { Bytes := 1, Valid := true }, Role := "member" },
            { ConversationID := c, UserID := { Bytes := 2, Valid := true }, Role := "member" }]
    CreateMessage := fun _ _ => true }

/-- A Gateway for the message generator that lists the participants 1 and 2
and rejects every CreateMessage call. -/
def rejectingMessageGateway : MessageGateway :=
  { ListConversationParticipants := sampleMessageGateway.ListConversationParticipants
    CreateMessage := fun _ _ => false }

/-- The state of the message generator at the start of a run on the sample
random source. -/
def sampleMessageState : MessageState :=
  { rng := sampleRand, listCalls := 0, createCalls := 0, stats := zeroStats, issued := [] }

/-! ## generateUserBatch and generateUsersBatch (main.go 140-228) -/

/-- Modelled from the spec: the type storage.CreateUserParams, with the fields
the call site of main.go 215-219 sets (the two texts are the Strings of
valid pgtype.Text values). -/
structure CreateUserParams where
  PhoneNumber : String
  DisplayName : String
  About : String
deriving DecidableEq, Repr, Inhabited

/-- Modelled from the spec: the persistence Gateway as seen by the user
generator.  CreateUser answers the created row, or `none` for an error
(duplicate phone number, connectivity); the answer may depend on the
parameters of the call and on the calls issued before it, which are the first
argument, in order.  Nothing is assumed about the answers. -/
structure UserGateway where
  CreateUser : List CreateUserParams → CreateUserParams → Option User

/-- The pool professions (main.go 189). -/
def professions : List String :=
  ["Software Engineer", "Teacher", "Photographer", "Student", "Doctor", "Nurse", "Lawyer",
   "Accountant", "Designer", "Manager", "Sales Rep", "Consultant", "Writer", "Artist", "Chef"]

/-- The pool interests (main.go 190). -/
def interests : List String :=
  ["technology", "travel", "photography", "cooking", "reading", "sports", "music", "movies",
   "gaming", "hiking", "art", "science", "politics", "fashion", "fitness"]

/-- The decimal digits of n, most significant first, in front of `acc`; the
fuel bounds the number of digits. -/
def decimalDigitsAux : Nat → Nat → List Char → List Char
  | 0, _, acc => acc
  | fuel + 1, n, acc =>
    if n / 10 = 0 then Char.ofNat (48 + n % 10) :: acc
    else decimalDigitsAux fuel (n / 10) (Char.ofNat (48 + n % 10) :: acc)

/-- The verb `%0wd` of fmt.Sprintf on a number n >= 0: its decimal digits,
padded with zeros on the left to the width w. -/
def zeroPad (w n : Nat) : String :=
  let digits := decimalDigitsAux (n + 1) n []
  String.mk (List.replicate (w - digits.length) '0' ++ digits)

/-- The state threaded through the user generator: the random source of
math/rand, the outcomes of gofakeit.Name() (a source of its own) with the
number of names drawn so far, and the CreateUser calls issued so far. -/
structure UserGenState where
  rng : Rand
  names : Nat → String
  nameCalls : Nat
  createUserCalls : List CreateUserParams

/-- The phone number drawn in one iteration (main.go 197-210): the country
draw and the digits of the format of that country. -/
def drawPhone (g : Rand) : String × Rand :=
  let (country, g) := g.Intn 5
  if country = 1 then
    let (a, g) := g.Intn 1000000000
    ("+447" ++ zeroPad 9 a, g)
  else if country = 2 then
    let (a, g) := g.Intn 100000000
    ("+4917" ++ zeroPad 8 a, g)
  else if country = 3 then
    let (a, g) := g.Intn 100000000
    ("+336" ++ zeroPad 8 a, g)
  else
    let (a, g) := g.Intn 900
    let (b, g) := g.Intn 900
    let (c, g) := g.Intn 9000
    ("+1" ++ zeroPad 3 (a + 100) ++ zeroPad 3 (b + 100) ++ zeroPad 4 (c + 1000), g)

/-- The loop of generateUserBatch (main.go 192-225), for the given number of
remaining iterations: `users` is the slice built so far.  The result is
`none` when a CreateUser call failed (`return nil, err`). -/
def userBatchLoop (gw : UserGateway) :
    Nat → List User → UserGenState → Option (List User) × UserGenState
  | 0, users, s => (some users, s)
  | n + 1, users, s =>
    let (pi, g) := s.rng.Intn professions.length
    let profession := professions.getD pi ""
    let (ii, g) := g.Intn interests.length
    let interest := interests.getD ii ""
    let (phone, g) := drawPhone g
    let displayName := s.names s.nameCalls
    let about := profession ++ " passionate about " ++ interest
    let params : CreateUserParams :=
      { PhoneNumber := phone, DisplayName := displayName, About := about }
    let answer := gw.CreateUser s.createUserCalls params
    let s := { s with rng := g, nameCalls := s.nameCalls + 1,
                      createUserCalls := s.createUserCalls ++ [params] }
    match answer with
    | none => (none, s)
    | some user => userBatchLoop gw n (users ++ [user]) s

/-- The function generateUserBatch (main.go 187-228); a count that is not
positive gives no iteration. -/
def generateUserBatch (gw : UserGateway) (count : Int) (s : UserGenState) :
    Option (List User) × UserGenState :=
  userBatchLoop gw count.toNat [] s

/-- One batch received by a worker: its size and what generateUserBatch
returned for it (`none` is the error). -/
structure BatchRecord where
  size : Int
  result : Option (List User)
deriving DecidableEq, Repr

/-- The state of a run of generateUsersBatch: the slice allUsers, the
statistics, the batches processed so far and the state of the generator. -/
structure UsersState where
  allUsers : List User
  stats : PopulationStats
  processed : List BatchRecord
  gen : UserGenState

/-- The work of the workers on the batch sizes received from the channel
(main.go 152-167): a failed batch is logged and skipped, the users of another
batch are appended to allUsers and counted.  The batches are taken one after
the other: with several workers the calls and draws of different batches
interleave and the batches are appended in the order in which they finish,
which changes which answer and which draw a call receives and the order of
allUsers, but not what a batch does with its answers; the answers and draws
are arbitrary here. -/
def processUserBatches (gw : UserGateway) : List Int → UsersState → UsersState
  | [], s => s
  | batchSize :: rest, s =>
    let (result, gen) := generateUserBatch gw batchSize s.gen
    match result with
    | none =>
      processUserBatches gw rest
        { s with gen := gen, processed := s.processed ++ [{ size := batchSize, result := none }] }
    | some users =>
      processUserBatches gw rest
        { allUsers := s.allUsers ++ users,
          stats := s.stats.AddUsers (users.length : Int),
          processed := s.processed ++ [{ size := batchSize, result := some users }],
          gen := gen }

/-- The result of a run of generateUsersBatch: how it ended, the returned
error (`none` is nil) and the final state, whose allUsers is the returned
slice. -/
structure UsersResult where
  outcome : Outcome
  err : Option String
  state : UsersState

/-- The function generateUsersBatch (main.go 140-185), with fuel for the
queueing loop.  A worker count that is negative or beyond the allocation
limit panics in make(chan); without any worker a producer that has a batch to
send blocks forever, which is the outcome `outOfFuel` like a queueing loop
that does not end.  On return the error is nil. -/
def generateUsersBatch (fuel : Nat) (gw : UserGateway) (totalUsers batchSize workers : Int)
    (stats : PopulationStats) (g : Rand) (names : Nat → String) : UsersResult :=
  let s0 : UsersState :=
    { allUsers := [], stats := stats, processed := [],
      gen := { rng := g, names := names, nameCalls := 0, createUserCalls := [] } }
  if makechanPanics sizeofInt workers then
    { outcome := Outcome.panicked "makechan: size out of range", err := none, state := s0 }
  else
    match queueUserBatches fuel totalUsers batchSize with
    | none => { outcome := Outcome.outOfFuel, err := none, state := s0 }
    | some sent =>
      if workers = 0 ∧ sent ≠ [] then { outcome := Outcome.outOfFuel, err := none, state := s0 }
      else { outcome := Outcome.returned, err := none, state := processUserBatches gw sent s0 }

/-- Modelled from the spec: a Gateway that enforces unique phone numbers
(CreateUser gives a User or the error duplicate phone).  A call is rejected
exactly when its phone number was already submitted by an earlier call;
otherwise the created row has the submitted phone number and display name
and a fresh identifier. -/
def uniquePhoneGateway : UserGateway :=
  { CreateUser := fun earlier p =>
      if p.PhoneNumber ∈ earlier.map (fun q => q.PhoneNumber) then none
      else some { ID := { Bytes := earlier.length, Valid := true },
                  PhoneNumber := p.PhoneNumber, DisplayName := p.DisplayName } }

/-- The outcomes of gofakeit.Name() used in the concrete instances. -/
def sampleNames : Nat → String := fun _ => "Ada Lovelace"

/-- The calls `calls`, issued in this order after the calls `earlier`, were
all answered by the Gateway with a row, and `rows` are these rows in order. -/
def UserGateway.Answers (gw : UserGateway) :
    List CreateUserParams → List CreateUserParams → List User → Prop
  | _, [], [] => True
  | earlier, p :: calls, u :: rows =>
    gw.CreateUser earlier p = some u ∧ UserGateway.Answers gw (earlier ++ [p]) calls rows
  | _, _, _ => False

/-- A Gateway that rejects every call of the contact and conversation
generators. -/
def rejectingGateway : Gateway :=
  { AddContact := fun _ _ => false
    ListUserContacts := fun _ _ => none
    CreateConversation := fun _ _ => none }

/-- A Gateway like sampleGateway on which the first two CreateConversation
calls fail. -/
def flakyGateway : Gateway :=
  { AddContact := sampleGateway.AddContact
    ListUserContacts := sampleGateway.ListUserContacts
    CreateConversation := fun k p => if k < 2 then none else sampleGateway.CreateConversation k p }

/-! ## The Stats Aggregator as a sequence of calls (main.go 38-60) -/

/-- One call of a mutation operation of PopulationStats, with its argument. -/
inductive StatsOp where
  | AddUsers : Int → StatsOp
  | AddContacts : Int → StatsOp
  | AddConversations : Int → StatsOp
  | AddMessages : Int → StatsOp
deriving DecidableEq, Repr

/-- The effect of one call on the statistics. -/
def PopulationStats.apply (s : PopulationStats) : StatsOp → PopulationStats
  | StatsOp.AddUsers n => s.AddUsers n
  | StatsOp.AddContacts n => s.AddContacts n
  | StatsOp.AddConversations n => s.AddConversations n
  | StatsOp.AddMessages n => s.AddMessages n

/-- The effect of a sequence of calls, applied in order. -/
def PopulationStats.applyAll (s : PopulationStats) (ops : List StatsOp) : PopulationStats :=
  ops.foldl PopulationStats.apply s

/-- The argument of a call if it is an AddUsers call, else 0. -/
def StatsOp.users : StatsOp → Int
  | StatsOp.AddUsers n => n
  | _ => 0

/-- The argument of a call if it is an AddContacts call, else 0. -/
def StatsOp.contacts : StatsOp → Int
  | StatsOp.AddContacts n => n
  | _ => 0

/-- The argument of a call if it is an AddConversations call, else 0. -/
def StatsOp.conversations : StatsOp → Int
  | StatsOp.AddConversations n => n
  | _ => 0

/-- The argument of a call if it is an AddMessages call, else 0. -/
def StatsOp.messages : StatsOp → Int
  | StatsOp.AddMessages n => n
  | _ => 0

/-! ## MessageService (service/message.go) -/

/-- The type CreateMessageRequest (message.go 20-26). -/
structure CreateMessageRequest where
  ConversationID : UUID
  SenderID : UUID
  Content : String
  MessageType : String
  ReplyToID : UUID
deriving DecidableEq, Repr, Inhabited

/-- Modelled from the spec: the row type storage.Message (package storage is
not among the sources), with the columns MessageService reads; the content is
the String of a pgtype.Text and the timestamp a number. -/
structure Message where
  ID : UUID
  ConversationID : UUID
  SenderID : UUID
  Content : String
  MessageType : String
  ReplyToID : UUID
  CreatedAt : Nat
deriving DecidableEq, Repr, Inhabited

/-- The type MessageResponse (message.go 28-36). -/
structure MessageResponse where
  ID : UUID
  ConversationID : UUID
  SenderID : UUID
  Content : String
  MessageType : String
  ReplyToID : UUID
  CreatedAt : Nat
deriving DecidableEq, Repr, Inhabited

/-- Modelled from the spec: the persistence Gateway as seen by
MessageService.CreateMessage, as the answers it gives: a result or an error
message.  Nothing is assumed about the answers. -/
structure ServiceGateway where
  IsUserInConversation : UUID → UUID → Except String Bool
  CreateMessage : CreateMessageParams → Except String Message

/-- A Gateway call issued by MessageService.CreateMessage. -/
inductive ServiceCall where
  | IsUserInConversation : UUID → UUID → ServiceCall
  | CreateMessage : CreateMessageParams → ServiceCall
deriving DecidableEq, Repr

/-- The method MessageService.CreateMessage (message.go 38-86): the returned
response or error, and the Gateway calls issued, in order. -/
def MessageService.CreateMessage (gw : ServiceGateway) (req : CreateMessageRequest) :
    Except String MessageResponse × List ServiceCall :=
  if !req.ConversationID.Valid then (.error "conversation ID is required", [])
  else if !req.SenderID.Valid then (.error "sender ID is required", [])
  else if req.Content = "" then (.error "message content is required", [])
  else
    let messageType := if req.MessageType = "" then "text" else req.MessageType
    let call1 := ServiceCall.IsUserInConversation req.ConversationID req.SenderID
    match gw.IsUserInConversation req.ConversationID req.SenderID with
    | .error err => (.error ("failed to check if user is participant: " ++ err), [call1])
    | .ok isParticipant =>
      if !isParticipant then
        (.error "sender is not a participant in this conversation", [call1])
      else
        let params : CreateMessageParams :=
          { ConversationID := req.ConversationID, SenderID := req.SenderID,
            Content := req.Content, MessageType := messageType, ReplyToID := req.ReplyToID }
        match gw.CreateMessage params with
        | .error err =>
          (.error ("failed to create message: " ++ err), [call1, ServiceCall.CreateMessage params])
        | .ok message =>
          (.ok { ID := message.ID, ConversationID := message.ConversationID,
                 SenderID := message.SenderID, Content := message.Content,
                 MessageType := message.MessageType, ReplyToID := message.ReplyToID,
                 CreatedAt := message.CreatedAt },
            [call1, ServiceCall.CreateMessage params])

/-- Modelled from the spec: one row of the reaction store (message id, user
id, reaction token). -/
structure ReactionRow where
  MessageID : UUID
  UserID : UUID
  Reaction : String
deriving DecidableEq, Repr, Inhabited

/-- Modelled from the spec: the persistence Gateway as seen by
MessageService.AddReaction, over a store of type σ: the check answers a
truth value or an error, the two writes answer the store afterwards or an
error that leaves the store as it was.  Nothing is assumed about the
answers. -/
structure ReactionGateway (σ : Type) where
  HasUserReactedToMessage : σ → UUID → UUID → Except String Bool
  UpdateMessageReaction : σ → UUID → UUID → String → Except String σ
  AddMessageReaction : σ → UUID → UUID → String → Except String σ

/-- A Gateway call issued by MessageService.AddReaction. -/
inductive ReactionCall where
  | HasUserReactedToMessage : UUID → UUID → ReactionCall
  | UpdateMessageReaction : UUID → UUID → String → ReactionCall
  | AddMessageReaction : UUID → UUID → String → ReactionCall
deriving DecidableEq, Repr

/-- The method MessageService.AddReaction (message.go 195-238): the returned
error (`none` is nil), the Gateway calls issued, in order, and the store
afterwards. -/
def MessageService.AddReaction {σ : Type} (gw : ReactionGateway σ) (store : σ)
    (messageID userID : UUID) (reaction : String) : Option String × List ReactionCall × σ :=
  if !messageID.Valid || !userID.Valid then
    (some "message ID and user ID are required", [], store)
  else if reaction = "" then (some "reaction is required", [], store)
  else
    let call1 := ReactionCall.HasUserReactedToMessage messageID userID
    match gw.HasUserReactedToMessage store messageID userID with
    | .error err => (some ("failed to check existing reaction: " ++ err), [call1], store)
    | .ok hasReacted =>
      if hasReacted then
        let call2 := ReactionCall.UpdateMessageReaction messageID userID reaction
        match gw.UpdateMessageReaction store messageID userID reaction with
        | .error err => (some ("failed to update reaction: " ++ err), [call1, call2], store)
        | .ok store2 => (none, [call1, call2], store2)
      else
        let call2 := ReactionCall.AddMessageReaction messageID userID reaction
        match gw.AddMessageReaction store messageID userID reaction with
        | .error err => (some ("failed to add reaction: " ++ err), [call1, call2], store)
        | .ok store2 => (none, [call1, call2], store2)

/-- Modelled from the spec: a reaction store (section 3, Reaction).  The
store is the list of its rows.  The check is truthful, the update rewrites
the token of the rows of the pair (message, user), and the insertion appends
a row without any check of its own; each operation fails when its flag is
set and then leaves the store as it was. -/
def storeReactionGateway (checkFails updateFails addFails : Bool) :
    ReactionGateway (List ReactionRow) :=
  { HasUserReactedToMessage := fun store m u =>
      if checkFails then .error "connection lost"
      else .ok (store.any (fun r => r.MessageID = m ∧ r.UserID = u))
    UpdateMessageReaction := fun store m u token =>
      if updateFails then .error "connection lost"
      else .ok (store.map (fun r =>
        if r.MessageID = m ∧ r.UserID = u then { r with Reaction := token } else r))
    AddMessageReaction := fun store m u token =>
      if addFails then .error "connection lost"
      else .ok (store ++ [{ MessageID := m, UserID := u, Reaction := token }]) }

/-- A Gateway for MessageService.CreateMessage on which the sender is a
participant and the message is created with the ID 7. -/
def sampleServiceGateway : ServiceGateway :=
  { IsUserInConversation := fun _ _ => .ok true
    CreateMessage := fun p =>
      .ok { ID := { Bytes := 7, Valid := true }, ConversationID := p.ConversationID,
            SenderID := p.SenderID, Content := p.Content, MessageType := p.MessageType,
            ReplyToID := p.ReplyToID, CreatedAt := 0 } }

/-- A request to MessageService.CreateMessage with all required fields. -/
def sampleRequest : CreateMessageRequest :=
  { ConversationID := { Bytes := 1000, Valid := true }, SenderID := { Bytes := 1, Valid := true },
    Content := "Hey!", MessageType := "", ReplyToID := { Bytes := 0, Valid := false } }

/-- Whether the numerator k of a value `k / 2^149` has at most 24 significant
binary digits, which is to say that the value is a float32, the type of the
result of rand.Float32. -/
def isFloat32 (k : Nat) : Bool := k % 2 ^ (bitLength k - 24) == 0

/-- A Gateway like sampleGateway whose CreateConversation stores the user 999
as creator, whatever creator the call names. -/
def foreignCreatorGateway : Gateway :=
  { AddContact := sampleGateway.AddContact
    ListUserContacts := sampleGateway.ListUserContacts
    CreateConversation := fun k p =>
      some { ID := { Bytes := 1000 + k, Valid := true }, IsGroup := p.IsGroup, Title := p.Title,
             CreatedBy := { Bytes := 999, Valid := true } } }

/-- Two user rows with the same ID 0. -/
def twinUsers : List User :=
  [{ ID := { Bytes := 0, Valid := true }, PhoneNumber := "p", DisplayName := "n" },
   { ID := { Bytes := 0, Valid := true }, PhoneNumber := "q", DisplayName := "m" }]

/-- Three user rows whose IDs are not valid. -/
def invalidUsers : List User :=
  (List.range 3).map (fun i => { ID := { Bytes := i, Valid := false },
                                 PhoneNumber := "p", DisplayName := "n" })

/-! ## The Stats Aggregator under concurrent calls (main.go 28-60) -/

/-- The argument of a call. -/
def StatsOp.arg : StatsOp → Int
  | StatsOp.AddUsers n => n
  | StatsOp.AddContacts n => n
  | StatsOp.AddConversations n => n
  | StatsOp.AddMessages n => n

/-- The read of the counter in the statement `s.Counter += count` of a call. -/
def StatsOp.read : StatsOp → PopulationStats → Int
  | StatsOp.AddUsers _, s => s.UsersGenerated
  | StatsOp.AddContacts _, s => s.ContactsGenerated
  | StatsOp.AddConversations _, s => s.ConversationsGenerated
  | StatsOp.AddMessages _, s => s.MessagesGenerated

/-- The write of the counter in the statement `s.Counter += count` of a call. -/
def StatsOp.write : StatsOp → PopulationStats → Int → PopulationStats
  | StatsOp.AddUsers _, s, v => { s with UsersGenerated := v }
  | StatsOp.AddContacts _, s, v => { s with ContactsGenerated := v }
  | StatsOp.AddConversations _, s, v => { s with ConversationsGenerated := v }
  | StatsOp.AddMessages _, s, v => { s with MessagesGenerated := v }

/-- A goroutine that makes Add calls one after the other: the calls still to
make, of which the first is in progress when pc > 0; the position in that
call (0 before `s.mu.Lock()`, 1 after it, 2 after the read of the counter, 3
after the write and before the deferred `s.mu.Unlock()`); and the value
read. -/
structure StatsThread where
  calls : List StatsOp
  pc : Nat
  tmp : Int
deriving DecidableEq, Repr

/-- The shared PopulationStats value with its mutex `mu`, and the goroutines
that call its Add methods. -/
structure StatsSystem where
  stats : PopulationStats
  locked : Bool
  threads : List StatsThread
deriving DecidableEq, Repr

/-- One step of the goroutine i, if it can take one: Lock succeeds only while
the mutex is free (otherwise the goroutine stays blocked), then the counter
is read, then the sum, which wraps at 64 bits, is written, then the mutex is
released and the call is over.  The statement `+=` is a read followed by a
write; nothing but the mutex keeps another goroutine from running between
the two. -/
def StatsSystem.step (sys : StatsSystem) (i : Nat) : StatsSystem :=
  match sys.threads[i]? with
  | none => sys
  | some t =>
    match t.calls with
    | [] => sys
    | op :: rest =>
      if t.pc = 0 then
        if sys.locked then sys
        else { sys with locked := true, threads := sys.threads.set i { t with pc := 1 } }
      else if t.pc = 1 then
        { sys with threads := sys.threads.set i { t with pc := 2, tmp := op.read sys.stats } }
      else if t.pc = 2 then
        { sys with stats := op.write sys.stats (wrap64 (t.tmp + op.arg))
                   threads := sys.threads.set i { t with pc := 3 } }
      else
        { sys with locked := false
                   threads := sys.threads.set i { calls := rest, pc := 0, tmp := t.tmp } }

/-- A run under a schedule: the goroutines named by the schedule take a step
each, in this order. -/
def StatsSystem.run (sys : StatsSystem) : List Nat → StatsSystem
  | [] => sys
  | i :: schedule => (sys.step i).run schedule

/-- The start of a run: the mutex is free and every goroutine is before its
first call. -/
def StatsSystem.init (s : PopulationStats) (programs : List (List StatsOp)) : StatsSystem :=
  { stats := s, locked := false,
    threads := programs.map (fun calls => { calls := calls, pc := 0, tmp := 0 }) }

/-- Whether every goroutine has completed all its calls. -/
def StatsSystem.finished (sys : StatsSystem) : Bool :=
  sys.threads.all (fun t => t.calls.isEmpty)

/-- The calls of a goroutine that have not written yet: the calls still to
make, without the one in progress once its write is done. -/
def StatsThread.pending (t : StatsThread) : List StatsOp :=
  if t.pc = 3 then t.calls.tail else t.calls

/-- The invariant of the runs from the statistics s0 with the calls `all`:
`done` are the calls that have written, in the order of their writes.  The
statistics are those of the whole calls `done` applied in order; `done` and
the pending calls make up `all`; a goroutine inside a call holds the mutex,
at most one goroutine is inside a call, and the value it has read is still
the value of the counter. -/
structure StatsSystem.Inv (s0 : PopulationStats) (all : List StatsOp) (sys : StatsSystem)
    (done : List StatsOp) : Prop where
  stats_eq : sys.stats = s0.applyAll done
  perm : (done ++ (sys.threads.map StatsThread.pending).flatten).Perm all
  pc_le : ∀ (i : Nat) (t : StatsThread), sys.threads[i]? = some t → t.pc ≤ 3
  active : ∀ (i : Nat) (t : StatsThread), sys.threads[i]? = some t → t.pc ≠ 0 →
    t.calls ≠ [] ∧ sys.locked = true
  loaded : ∀ (i : Nat) (t : StatsThread) (op : StatsOp) (rest : List StatsOp),
    sys.threads[i]? = some t → t.pc = 2 → t.calls = op :: rest → t.tmp = op.read sys.stats
  excl : ∀ (i j : Nat) (ti tj : StatsThread), sys.threads[i]? = some ti →
    sys.threads[j]? = some tj → ti.pc ≠ 0 → tj.pc ≠ 0 → i = j
  held : sys.locked = true → ∃ (i : Nat) (t : StatsThread), sys.threads[i]? = some t ∧ t.pc ≠ 0

/-- Whether all four counters hold int64 values, as the fields of a Go struct
do. -/
def PopulationStats.InRange (s : PopulationStats) : Prop :=
  IsInt64 s.UsersGenerated ∧ IsInt64 s.ContactsGenerated ∧
  IsInt64 s.ConversationsGenerated ∧ IsInt64 s.MessagesGenerated

instance (s : PopulationStats) : Decidable s.InRange := by
  unfold PopulationStats.InRange
  exact inferInstance

/-- The number of steps that a goroutine still has to take. -/
def StatsThread.remaining (t : StatsThread) : Nat := 4 * t.calls.length - t.pc

/-- Statistics whose counter UsersGenerated holds the largest int. -/
def fullStats : PopulationStats := { zeroStats with UsersGenerated := 2 ^ 63 - 1 }

/-! # Theorems -/

/-! ## The size limits of make -/

/-- A channel size between 0 and the allocation limit is accepted. -/
theorem makechanPanics_false (elemSize size : Int) (h0 : 0 ≤ size)
    (h : elemSize * size ≤ maxAlloc - hchanSize) : makechanPanics elemSize size = false := by
  simp only [makechanPanics, Bool.or_eq_false_iff, decide_eq_false_iff_not, not_lt]
  exact ⟨h0, h⟩

/-- A slice capacity between 0 and the allocation limit is accepted. -/
theorem makeslicePanics_false (elemSize cap : Int) (h0 : 0 ≤ cap)
    (h : elemSize * cap ≤ maxAlloc) : makeslicePanics elemSize cap = false := by
  simp only [makeslicePanics, Bool.or_eq_false_iff, decide_eq_false_iff_not, not_lt]
  exact ⟨h0, h⟩

/-! ## The 64-bit arithmetic of Go ints -/

/-- Adding in 64-bit arithmetic step by step gives the 64-bit reduction of the
exact sum, so the wrap-around of the machine counters loses no update either. -/
theorem wrap64_add (a b : Int) : wrap64 (wrap64 a + b) = wrap64 (a + b) := by
  simp only [wrap64]
  omega

/-- The reduction is an int64 value. -/
theorem wrap64_isInt64 (x : Int) : IsInt64 (wrap64 x) := by
  simp only [wrap64, IsInt64]
  omega

/-- An int64 value is its own reduction. -/
theorem wrap64_of_isInt64 (x : Int) (h : IsInt64 x) : wrap64 x = x := by
  simp only [wrap64, IsInt64] at h ⊢
  omega

/-- Congruent counters stay congruent when the same amount is added. -/
theorem wrap64_congr_add (a b c : Int) (h : wrap64 a = wrap64 b) :
    wrap64 (a + c) = wrap64 (b + c) := by
  rw [← wrap64_add a c, ← wrap64_add b c, h]

/-- A counter is counted from itself by 0. -/
theorem counted_refl (x : Int) : Counted x x 0 := by
  simp [Counted]

/-- One wrapping addition before counted additions. -/
theorem counted_cons (x y z a k : Int) (h1 : y = wrap64 (x + a)) (h2 : Counted y z k) :
    Counted x z (a + k) := by
  obtain ⟨c1, c2⟩ := h2
  refine ⟨?_, fun _ => c2 (by rw [h1]; exact wrap64_isInt64 _)⟩
  rw [c1, h1, wrap64_add, add_assoc]

/-- Counted additions compose. -/
theorem counted_trans (x y z k m : Int) (h1 : Counted x y k) (h2 : Counted y z m) :
    Counted x z (k + m) := by
  obtain ⟨a1, a2⟩ := h1
  obtain ⟨b1, b2⟩ := h2
  refine ⟨?_, fun h => b2 (a2 h)⟩
  rw [b1, ← wrap64_add, a1, wrap64_add, add_assoc]

/-- Without overflow the counter has grown by exactly k. -/
theorem counted_exact (x y k : Int) (h : Counted x y k) (hx : IsInt64 x)
    (hk : IsInt64 (x + k)) : y = x + k := by
  obtain ⟨c1, c2⟩ := h
  rw [wrap64_of_isInt64 _ (c2 hx), wrap64_of_isInt64 _ hk] at c1
  exact c1

/-- A counter that is congruent to an int64 value and is itself an int64 value
equals it. -/
theorem eq_of_wrap64_eq (x y : Int) (h : wrap64 x = wrap64 y) (hx : IsInt64 x)
    (hy : IsInt64 y) : x = y := by
  rw [wrap64_of_isInt64 x hx, wrap64_of_isInt64 y hy] at h
  exact h

/-! ## C1: the queueing loop of generateUsersBatch -/

/-- With nothing remaining the loop sends nothing, whatever the fuel. -/
theorem queueUserBatches_nonpos (fuel : Nat) (r B : Int) (h : r ≤ 0) :
    queueUserBatches fuel r B = some [] := by
  cases fuel with
  | zero => simp [queueUserBatches, not_lt.mpr h]
  | succ n => simp [queueUserBatches, not_lt.mpr h]

/-- The batch sizes sent with enough fuel, the count written with integer division. -/
theorem queueUserBatches_props (B : Int) (hB : 1 ≤ B) :
    ∀ (fuel : Nat) (r : Int), 0 ≤ r → r.toNat ≤ fuel →
      ∃ sent, queueUserBatches fuel r B = some sent ∧
        (sent.length : Int) = (r + B - 1) / B ∧
        (∀ x ∈ sent, 1 ≤ x ∧ x ≤ B) ∧ (∀ x ∈ sent.dropLast, x = B) ∧ sent.sum = r := by
  intro fuel
  induction fuel with
  | zero =>
    intro r h0 hf
    have hr : r = 0 := by omega
    subst hr
    refine ⟨[], by simp [queueUserBatches], ?_, by simp, by simp, by simp⟩
    have : (0 + B - 1) / B = 0 := Int.ediv_eq_zero_of_lt (by omega) (by omega)
    rw [this]; rfl
  | succ n ih =>
    intro r h0 hf
    by_cases hr : r ≤ 0
    · have hr0 : r = 0 := by omega
      subst hr0
      refine ⟨[], queueUserBatches_nonpos _ _ _ (le_refl _), ?_, by simp, by simp, by simp⟩
      have : (0 + B - 1) / B = 0 := Int.ediv_eq_zero_of_lt (by omega) (by omega)
      rw [this]; rfl
    · have hpos : r > 0 := by omega
      by_cases hlt : r < B
      · -- last, short batch
        refine ⟨[r], ?_, ?_, ?_, by simp, by simp⟩
        · simp [queueUserBatches, hpos, hlt, queueUserBatches_nonpos]
        · have h1 : (r + B - 1) / B = 1 := by
            have : r + B - 1 = (r - 1) + B * 1 := by ring
            rw [this, Int.add_mul_ediv_left _ _ (by omega : B ≠ 0)]
            rw [Int.ediv_eq_zero_of_lt (by omega) (by omega)]
            simp
          simp [h1]
        · intro x hx
          simp at hx
          subst hx
          omega
      · obtain ⟨rest, hrest, hlen, hmem, hdrop, hsum⟩ := ih (r - B) (by omega) (by omega)
        refine ⟨B :: rest, ?_, ?_, ?_, ?_, ?_⟩
        · simp [queueUserBatches, hpos, hlt, hrest]
        · have h1 : (r + B - 1) / B = (r - B + B - 1) / B + 1 := by
            have : r + B - 1 = (r - B + B - 1) + B * 1 := by ring
            rw [this, Int.add_mul_ediv_left _ _ (by omega : B ≠ 0)]
          rw [h1, ← hlen]
          simp
        · intro x hx
          rcases List.mem_cons.mp hx with h | h
          · subst h; omega
          · exact hmem x h
        · intro x hx
          cases rest with
          | nil => simp at hx
          | cons y ys =>
            rw [List.dropLast_cons₂] at hx
            rcases List.mem_cons.mp hx with h | h
            · exact h
            · exact hdrop x h
        · simp [hsum]

/-- A run that ended keeps its result under more fuel. -/
theorem queueUserBatches_mono (B : Int) :
    ∀ (fuel : Nat) (r : Int) (sent : List Int), queueUserBatches fuel r B = some sent →
      ∀ fuel2, fuel ≤ fuel2 → queueUserBatches fuel2 r B = some sent := by
  intro fuel
  induction fuel with
  | zero =>
    intro r sent h fuel2 _
    by_cases hr : r > 0
    · simp [queueUserBatches, hr] at h
    · simp [queueUserBatches, hr] at h
      rw [queueUserBatches_nonpos _ _ _ (by omega), h]
  | succ n ih =>
    intro r sent h fuel2 hle
    obtain ⟨m, rfl⟩ : ∃ m, fuel2 = m + 1 := ⟨fuel2 - 1, by omega⟩
    by_cases hr : r > 0
    · simp only [queueUserBatches, hr, if_true] at h ⊢
      cases hq : queueUserBatches n (r - if r < B then r else B) B with
      | none => simp [hq] at h
      | some rest =>
        rw [ih _ _ hq m (by omega)]
        rw [hq] at h
        exact h
    · rw [queueUserBatches_nonpos _ _ _ (by omega)] at h
      rw [queueUserBatches_nonpos _ _ _ (by omega), h]

/-- The ceiling of a quotient with a positive divisor, by integer division. -/
theorem ceil_div_eq (N B : Int) (hB : 1 ≤ B) : ⌈(N : ℚ) / (B : ℚ)⌉ = (N + B - 1) / B := by
  have hBq : (0 : ℚ) < (B : ℚ) := by exact_mod_cast (by omega : (0:Int) < B)
  rw [Int.ceil_eq_iff]
  constructor
  · rw [lt_div_iff₀ hBq]
    have h1 : ((N + B - 1) / B - 1) * B < N := by
      have := Int.emod_add_ediv (N + B - 1) B
      have h2 := Int.emod_nonneg (N + B - 1) (by omega : B ≠ 0)
      nlinarith
    exact_mod_cast h1
  · rw [div_le_iff₀ hBq]
    have h1 : N ≤ ((N + B - 1) / B) * B := by
      have := Int.emod_add_ediv (N + B - 1) B
      have h2 := Int.emod_lt_of_pos (N + B - 1) (by omega : 0 < B)
      nlinarith
    exact_mod_cast h1

/-- C1: for every total N >= 0 and batch size B >= 1 the queueing loop of
generateUsersBatch terminates (every fuel of at least N iterations gives the
same list), and the batch sizes it sends are ceil(N/B) many, each between 1
and B, all but possibly the last equal to B, and they sum to N. -/
theorem generateUsersBatch_queue_partition (N B : Int) (hN : 0 ≤ N) (hB : 1 ≤ B) :
    ∃ sent : List Int,
      (∀ fuel, N.toNat ≤ fuel → queueUserBatches fuel N B = some sent) ∧
      (sent.length : Int) = ⌈(N : ℚ) / (B : ℚ)⌉ ∧
      (∀ x ∈ sent, 1 ≤ x ∧ x ≤ B) ∧
      (∀ x ∈ sent.dropLast, x = B) ∧
      sent.sum = N := by
  obtain ⟨sent, h1, h2, h3, h4, h5⟩ := queueUserBatches_props B hB N.toNat N hN (le_refl _)
  refine ⟨sent, ?_, ?_, h3, h4, h5⟩
  · intro fuel hf
    exact queueUserBatches_mono B _ _ _ h1 fuel hf
  · rw [ceil_div_eq N B hB, h2]

/-- Instance of the partition theorem at N = 10, B = 3. -/
theorem generateUsersBatch_queue_partition_witness :
    ∃ sent : List Int,
      (∀ fuel, (10 : Int).toNat ≤ fuel → queueUserBatches fuel 10 3 = some sent) ∧
      (sent.length : Int) = ⌈((10 : Int) : ℚ) / ((3 : Int) : ℚ)⌉ ∧
      (∀ x ∈ sent, 1 ≤ x ∧ x ≤ 3) ∧
      (∀ x ∈ sent.dropLast, x = 3) ∧
      sent.sum = 10 :=
  generateUsersBatch_queue_partition 10 3 (by decide) (by decide)

/-! ## C2: the dispatcher of generateMessagesBatch -/


/-- Invariant of the dispatcher loop when rand.Intn gets a positive argument:
the batches sent so far, the batch under construction and the conversations
still to come always concatenate to the same list, and every batch sent has
between 1 and B conversations. -/
theorem dispatchLoop_chunks (mpc B : Int) (total : Nat) (hB : 1 ≤ B)
    (hm : 0 < Int.tdiv mpc 2) :
    ∀ (rest : List Conversation) (i : Nat) (batch : List Conversation)
      (sent : List (List Conversation)) (g : Rand),
      i + rest.length = total → (batch.length : Int) < B → (rest = [] → batch = []) →
      (∀ b ∈ sent, 1 ≤ b.length ∧ (b.length : Int) ≤ B) →
      ∃ out g2, dispatchLoop mpc B total rest i batch sent g = .ok (out, g2) ∧
        out.flatten = sent.flatten ++ batch ++ rest ∧
        (∀ b ∈ out, 1 ≤ b.length ∧ (b.length : Int) ≤ B) := by
  intro rest
  induction rest with
  | nil =>
    intro i batch sent g _ _ hnil hs
    refine ⟨sent, g, by simp [dispatchLoop], ?_, hs⟩
    simp [hnil rfl]
  | cons conv rest ih =>
    intro i batch sent g hi hb _ hs
    have hm2 : ¬ Int.tdiv mpc 2 ≤ 0 := by omega
    simp only [dispatchLoop, hm2, if_false]
    by_cases hc : ((batch ++ [conv]).length : Int) ≥ B ∨ (i : Int) = (total : Int) - 1
    · simp only [hc, if_true]
      have hlen : ((batch ++ [conv]).length : Int) ≤ B := by
        simp only [List.length_append, List.length_singleton]; push_cast; omega
      obtain ⟨out, g2, h1, h2, h3⟩ := ih (i + 1) [] (sent ++ [batch ++ [conv]]) _
        (by simp only [List.length_cons] at hi; omega) (by simp; omega) (fun _ => rfl)
        (by
          intro b hb2
          rcases List.mem_append.mp hb2 with h | h
          · exact hs b h
          · simp only [List.mem_singleton] at h
            subst h
            exact ⟨by simp, hlen⟩)
      exact ⟨out, g2, h1, by simp [h2], h3⟩
    · simp only [hc, if_false]
      have hc1 : ¬ ((batch ++ [conv]).length : Int) ≥ B := fun h => hc (Or.inl h)
      have hc2 : ¬ (i : Int) = (total : Int) - 1 := fun h => hc (Or.inr h)
      have hrest : rest ≠ [] := by
        intro h
        subst h
        simp only [List.length_cons, List.length_nil] at hi
        omega
      obtain ⟨out, g2, h1, h2, h3⟩ := ih (i + 1) (batch ++ [conv]) sent _
        (by simp only [List.length_cons] at hi; omega) (by omega)
        (fun h => absurd h hrest) hs
      exact ⟨out, g2, h1, by simp [h2], h3⟩

/-- When the list is non-empty, B >= 1 is a capacity that make accepts and
targetMessages is at least twice the number of conversations, the dispatcher
completes and sends consecutive chunks of 1 to B conversations whose
concatenation is the input list. -/
theorem dispatchBatches_chunks (conversations : List Conversation) (targetMessages B : Int)
    (g : Rand) (hne : conversations ≠ []) (hB : 1 ≤ B)
    (hBm : sizeofConversation * B ≤ maxAlloc)
    (hT : 0 < Int.tdiv (Int.tdiv targetMessages (conversations.length : Int)) 2) :
    ∃ out g2, dispatchBatches conversations targetMessages B g = .ok (out, g2) ∧
      out.flatten = conversations ∧
      (∀ b ∈ out, 1 ≤ b.length ∧ (b.length : Int) ≤ B) := by
  have h1 := makeslicePanics_false sizeofConversation B (by omega) hBm
  have h2 : ¬ conversations.length = 0 := by
    intro h; exact hne (List.length_eq_zero.mp h)
  obtain ⟨out, g2, h3, h4, h5⟩ := dispatchLoop_chunks _ B conversations.length hB hT
    conversations 0 [] [] g (by simp) (by simp; omega) (fun _ => rfl) (by simp)
  refine ⟨out, g2, ?_, by simpa using h4, h5⟩
  simp only [dispatchBatches, h1, h2, if_false, Bool.false_eq_true]
  exact h3

/-- C2 (the code fails the claim): the dispatcher of generateMessagesBatch does
not complete for every input.  On the empty conversation list it panics for
every targetMessages and batch size (integer division by len(conversations),
or make with a capacity out of range), and on a one-element list with
targetMessages = 1 it panics in rand.Intn(messagesPerConv/2), whose argument
is 0, before anything is sent. -/
theorem dispatchBatches_runtime_failures :
    (∀ (targetMessages batchSize : Int) (g : Rand),
      ∃ msg, dispatchBatches [] targetMessages batchSize g = .error msg) ∧
    (∀ (conv : Conversation) (g : Rand),
      dispatchBatches [conv] 1 1000 g = .error "invalid argument to Intn") := by
  constructor
  · intro T B g
    cases h : makeslicePanics sizeofConversation B with
    | true => exact ⟨"makeslice: cap out of range", by simp [dispatchBatches, h]⟩
    | false => exact ⟨"integer divide by zero", by simp [dispatchBatches, h]⟩
  · intro conv g
    have h : makeslicePanics sizeofConversation 1000 = false := by decide
    have h2 : Int.tdiv (Int.tdiv 1 ((1 : Nat) : Int)) 2 ≤ 0 := by decide
    simp only [dispatchBatches, h, Bool.false_eq_true, if_false, List.length_singleton,
      Nat.succ_ne_zero, dispatchLoop, h2, if_true]

/-! ## C3, C4: generateContactsOptimized -/

/-- A candidate that the search reports as found (attempts below 10) is not in
usedContacts. -/
theorem findContact_fresh (users : List User) (used : List UUID) :
    ∀ (fuel attempts : Nat) (contact : User) (g : Rand), 10 ≤ fuel + attempts →
      (findContact users used fuel attempts contact g).2.1 < 10 →
      (findContact users used fuel attempts contact g).1.ID ∉ used := by
  intro fuel
  induction fuel with
  | zero =>
    intro attempts contact g h hlt
    simp only [findContact] at hlt
    omega
  | succ n ih =>
    intro attempts contact g h hlt
    by_cases ha : attempts < 10
    · simp only [findContact, ha, if_true] at hlt ⊢
      by_cases hu : used.contains (users.getD (g.Intn users.length).1 default).ID = true
      · simp only [hu, Bool.not_true, Bool.false_eq_true, if_false] at hlt ⊢
        exact ih _ _ _ (by omega) hlt
      · simp only [hu, Bool.not_false, if_true] at hlt ⊢
        simpa using hu
    · simp only [findContact, ha, if_false] at hlt

/-- The invariant of the slot loop of one owner: the owner is in usedContacts,
every call issued so far is for this owner and names a used contact other
than the owner, and the contacts named are pairwise distinct. -/
theorem contactSlots_inv (gw : Gateway) (users : List User) (user : User) :
    ∀ (n : Nat) (used : List UUID) (calls : List AddContactParams) (s : ContactState),
      user.ID ∈ used →
      (∀ c ∈ calls, c.UserID = user.ID ∧ c.ContactID ∈ used ∧ c.ContactID ≠ user.ID) →
      (calls.map (fun c => c.ContactID)).Nodup →
      (∀ c ∈ (contactSlots gw users user n used calls s).1,
          c.UserID = user.ID ∧ c.ContactID ≠ user.ID) ∧
        ((contactSlots gw users user n used calls s).1.map (fun c => c.ContactID)).Nodup := by
  intro n
  induction n with
  | zero =>
    intro used calls s hu hc hnd
    simp only [contactSlots]
    exact ⟨fun c hcm => ⟨(hc c hcm).1, (hc c hcm).2.2⟩, hnd⟩
  | succ n ih =>
    intro used calls s hu hc hnd
    have hfresh := findContact_fresh users used 10 0 default s.rng (by omega)
    rcases hfc : findContact users used 10 0 default s.rng with ⟨contact, attempts, g⟩
    rw [hfc] at hfresh
    simp only at hfresh
    simp only [contactSlots, hfc]
    by_cases ha : attempts ≥ 10
    · simp only [ha, if_true]
      exact ih used calls _ hu hc hnd
    · simp only [ha, if_false]
      have hnew : contact.ID ∉ used := hfresh (by omega)
      have hne : contact.ID ≠ user.ID := fun h => hnew (h ▸ hu)
      have hu2 : user.ID ∈ contact.ID :: used := List.mem_cons_of_mem _ hu
      obtain ⟨p, hp⟩ : ∃ p : AddContactParams, p = ⟨user.ID, contact.ID, contact.DisplayName⟩ :=
        ⟨_, rfl⟩
      have hp1 : p.UserID = user.ID := by rw [hp]
      have hp2 : p.ContactID = contact.ID := by rw [hp]
      rw [← hp]
      have hc2 : ∀ c ∈ calls ++ [p],
          c.UserID = user.ID ∧ c.ContactID ∈ contact.ID :: used ∧ c.ContactID ≠ user.ID := by
        intro c hcm
        rcases List.mem_append.mp hcm with h | h
        · exact ⟨(hc c h).1, List.mem_cons_of_mem _ (hc c h).2.1, (hc c h).2.2⟩
        · simp only [List.mem_singleton] at h
          subst h
          exact ⟨hp1, by rw [hp2]; exact List.mem_cons_self _ _, by rw [hp2]; exact hne⟩
      have hnd2 : ((calls ++ [p]).map (fun c => c.ContactID)).Nodup := by
        rw [List.map_append, List.nodup_append]
        refine ⟨hnd, by simp, ?_⟩
        intro a ha1 ha2
        simp only [List.map_cons, List.map_nil, List.mem_singleton] at ha2
        subst ha2
        obtain ⟨c, hcm, hce⟩ := List.mem_map.mp ha1
        rw [hp2] at hce
        exact hnew (hce ▸ (hc c hcm).2.1)
      by_cases hok : gw.AddContact s.addContactCalls p = true
      · simp only [hok, Bool.not_true, Bool.false_eq_true, if_false]
        exact ih _ _ _ hu2 hc2 hnd2
      · simp only [hok, Bool.not_false, if_true]
        exact ih _ _ _ hu2 hc2 hnd2

/-- Every owner iteration of the loop over the users issues calls for that
owner only, never for the owner as contact, and never twice for one contact. -/
theorem contactsLoop_inv (gw : Gateway) (users : List User) :
    ∀ (rest : List User) (s : ContactState),
      ∀ p ∈ (contactsLoop gw users rest s).1,
        (∀ c ∈ p.2, c.UserID = p.1.ID ∧ c.ContactID ≠ p.1.ID) ∧
          (p.2.map (fun c => c.ContactID)).Nodup := by
  intro rest
  induction rest with
  | nil =>
    intro s p hp
    simp [contactsLoop] at hp
  | cons user rest ih =>
    intro s p hp
    simp only [contactsLoop] at hp
    rcases List.mem_cons.mp hp with h | h
    · subst h
      simp only [contactsForUser]
      exact contactSlots_inv gw users user _ [user.ID] [] _ (List.mem_singleton.mpr rfl)
        (by simp) (by simp)
    · exact ih _ p h

/-- The owners of the recorded iterations are the users, in order. -/
theorem contactsLoop_owners (gw : Gateway) (users : List User) :
    ∀ (rest : List User) (s : ContactState),
      (contactsLoop gw users rest s).1.map Prod.fst = rest := by
  intro rest
  induction rest with
  | nil => intro s; simp [contactsLoop]
  | cons user rest ih =>
    intro s
    simp only [contactsLoop, List.map_cons]
    rw [ih]

/-- C3: generateContactsOptimized never requests a self-edge.  For every user
list, every Gateway and every stream of random draws, the owner iterations
recorded are exactly the users in order, and every AddContact call issued in
an iteration has the iteration's user as UserID and a ContactID different
from its UserID. -/
theorem generateContactsOptimized_no_self_edge (gw : Gateway) (users : List User)
    (stats : PopulationStats) (g : Rand) :
    (generateContactsOptimized gw users stats g).perOwner.map Prod.fst = users ∧
    ∀ p ∈ (generateContactsOptimized gw users stats g).perOwner,
      ∀ c ∈ p.2, c.UserID = p.1.ID ∧ c.ContactID ≠ c.UserID := by
  refine ⟨contactsLoop_owners gw users users _, ?_⟩
  intro p hp c hc
  have h := (contactsLoop_inv gw users users _ p hp).1 c hc
  exact ⟨h.1, by rw [h.1]; exact h.2⟩

/-- C4: generateContactsOptimized never requests the same contact twice for one
owner.  For every user list, every Gateway and every stream of random draws,
the ContactIDs of the AddContact calls issued during one owner's iteration
are pairwise distinct. -/
theorem generateContactsOptimized_no_duplicate_edge (gw : Gateway) (users : List User)
    (stats : PopulationStats) (g : Rand) :
    ∀ p ∈ (generateContactsOptimized gw users stats g).perOwner,
      (p.2.map (fun c => c.ContactID)).Nodup := by
  intro p hp
  exact (contactsLoop_inv gw users users _ p hp).2

/-- Instance of C4 on three sample users: the iteration of the first user
issues the calls for the contacts 1 and 2, which are distinct. -/
theorem generateContactsOptimized_no_duplicate_edge_witness :
    ((({ ID := ⟨0, true⟩, PhoneNumber := "p", DisplayName := "n" } : User),
      [(⟨⟨0, true⟩, ⟨1, true⟩, "n"⟩ : AddContactParams), ⟨⟨0, true⟩, ⟨2, true⟩, "n"⟩]) ∈
      (generateContactsOptimized sampleGateway (sampleUsers 3) zeroStats
        ⟨fun k => k * 7 + 3, fun _ => 2 ^ 148, 0, 0⟩).perOwner) ∧
    (([(⟨⟨0, true⟩, ⟨1, true⟩, "n"⟩ : AddContactParams), ⟨⟨0, true⟩, ⟨2, true⟩, "n"⟩].map
      (fun c => c.ContactID)).Nodup) :=
  ⟨by decide,
    generateContactsOptimized_no_duplicate_edge sampleGateway (sampleUsers 3) zeroStats
      ⟨fun k => k * 7 + 3, fun _ => 2 ^ 148, 0, 0⟩
      (({ ID := ⟨0, true⟩, PhoneNumber := "p", DisplayName := "n" } : User),
        [(⟨⟨0, true⟩, ⟨1, true⟩, "n"⟩ : AddContactParams), ⟨⟨0, true⟩, ⟨2, true⟩, "n"⟩])
      (by decide)⟩

/-- A run on three users in which calls are issued: the generator is not
silent, so the two properties above are not vacuous. -/
theorem generateContactsOptimized_example :
    ((generateContactsOptimized
        ⟨fun _ _ => true, fun _ _ => some [], fun _ _ => none⟩
        ((List.range 3).map (fun n => (⟨⟨n, true⟩, "p", "n"⟩ : User)))
        ⟨0, 0, 0, 0, 0, 0⟩
        ⟨fun k => k * 7 + 3, fun _ => 2 ^ 148, 0, 0⟩).perOwner.map
      (fun p => (p.1.ID.Bytes, p.2.map (fun c => c.ContactID.Bytes)))) =
      [(0, [1, 2]), (1, [2, 0]), (2, [1, 0])] := by
  decide

/-! ## C9: the 1:1 target `int(float64(targetConversations) * 0.8)` -/

/-- The digit count of 0 is 0, whatever the fuel. -/
theorem bitLengthAux_zero (fuel : Nat) : bitLengthAux fuel 0 = 0 := by
  cases fuel <;> simp [bitLengthAux]

/-- With enough fuel the digit count L of n satisfies n < 2^L, and
2^(L-1) <= n when n is not 0. -/
theorem bitLengthAux_spec : ∀ (fuel n : Nat), n ≤ fuel →
    n < 2 ^ bitLengthAux fuel n ∧ (n ≠ 0 → 2 ^ (bitLengthAux fuel n - 1) ≤ n) := by
  intro fuel
  induction fuel with
  | zero =>
    intro n hn
    have : n = 0 := by omega
    subst this
    simp [bitLengthAux]
  | succ f ih =>
    intro n hn
    by_cases h0 : n = 0
    · subst h0
      simp [bitLengthAux]
    · simp only [bitLengthAux, h0, if_false]
      obtain ⟨h1, h2⟩ := ih (n / 2) (by omega)
      refine ⟨?_, fun _ => ?_⟩
      · rw [pow_succ]
        omega
      · simp only [Nat.add_sub_cancel]
        by_cases hh : n / 2 = 0
        · rw [hh, bitLengthAux_zero]
          simp
          omega
        · have h3 := h2 hh
          have hk : 1 ≤ bitLengthAux f (n / 2) := by
            by_contra hc
            have : bitLengthAux f (n / 2) = 0 := by omega
            rw [this] at h1
            simp at h1
            exact hh h1
          have h4 : 2 ^ bitLengthAux f (n / 2) = 2 * 2 ^ (bitLengthAux f (n / 2) - 1) := by
            rw [← pow_succ']
            congr 1
            omega
          rw [h4]
          omega

/-- The number n is below 2 to its digit count. -/
theorem lt_two_pow_bitLength (n : Nat) : n < 2 ^ bitLength n :=
  (bitLengthAux_spec n n (le_refl _)).1

/-- A non-zero n is at least 2 to its digit count less one. -/
theorem two_pow_bitLength_le (n : Nat) (h : n ≠ 0) : 2 ^ (bitLength n - 1) ≤ n :=
  (bitLengthAux_spec n n (le_refl _)).2 h

/-- A number below 2^k has at most k digits. -/
theorem bitLength_le_of_lt (n k : Nat) (h : n < 2 ^ k) : bitLength n ≤ k := by
  by_contra hc
  have h0 : n ≠ 0 := by
    intro h0
    subst h0
    simp [bitLength, bitLengthAux_zero] at hc
  have h1 := two_pow_bitLength_le n h0
  have h2 : 2 ^ k ≤ 2 ^ (bitLength n - 1) := Nat.pow_le_pow_right (by decide) (by omega)
  omega

/-- Rounding to 53 digits moves a number p by at most p / 2^53 upward, and
never below a multiple of 2^53 that is at most p, provided p < 2^106. -/
theorem roundFloat64_bounds (p : Nat) :
    (∃ x, roundFloat64 p ≤ p + x ∧ x * 2 ^ 53 ≤ p) ∧
    (∀ k, p < 2 ^ 106 → k * 2 ^ 53 ≤ p → k * 2 ^ 53 ≤ roundFloat64 p) := by
  by_cases hL : bitLength p ≤ 53
  · simp only [roundFloat64, hL, if_true]
    exact ⟨⟨0, by simp, by simp⟩, fun k _ h => h⟩
  · have hp0 : p ≠ 0 := by
      intro h0
      subst h0
      simp [bitLength, bitLengthAux_zero] at hL
    obtain ⟨s, hs⟩ : ∃ s, bitLength p - 53 = s + 1 := ⟨bitLength p - 54, by omega⟩
    have hge := two_pow_bitLength_le p hp0
    have hL1 : bitLength p - 1 = s + 53 := by omega
    rw [hL1] at hge
    have hdm := Nat.div_add_mod p (2 ^ (s + 1))
    have hpow : 2 ^ (s + 1) = 2 * 2 ^ s := by rw [pow_succ']
    have hpow2 : 2 ^ (s + 53) = 2 ^ s * 2 ^ 53 := by rw [pow_add]
    have hq : roundFloat64 p = (p / 2 ^ (s + 1) + 1) * 2 ^ (s + 1) ∨
        roundFloat64 p = (p / 2 ^ (s + 1)) * 2 ^ (s + 1) := by
      simp only [roundFloat64, hL, if_false, hs]
      split
      · exact Or.inl rfl
      · exact Or.inr rfl
    have hup : (roundFloat64 p = (p / 2 ^ (s + 1) + 1) * 2 ^ (s + 1)) →
        2 ^ (s + 1) ≤ p % 2 ^ (s + 1) * 2 := by
      intro h
      by_contra hc
      have hc1 : ¬ (p % 2 ^ (s + 1) * 2 > 2 ^ (s + 1) ∨
          (p % 2 ^ (s + 1) * 2 = 2 ^ (s + 1) ∧ p / 2 ^ (s + 1) % 2 = 1)) := by
        intro hh
        rcases hh with hh | hh
        · omega
        · omega
      simp only [roundFloat64, hL, if_false, hs, hc1] at h
      have hpos : 0 < 2 ^ (s + 1) := Nat.two_pow_pos _
      have : p / 2 ^ (s + 1) * 2 ^ (s + 1) < (p / 2 ^ (s + 1) + 1) * 2 ^ (s + 1) := by
        rw [Nat.add_mul]
        omega
      omega
    constructor
    · refine ⟨2 ^ s, ?_, by rw [← hpow2]; exact hge⟩
      rcases hq with h | h
      · have h2 := hup h
        rw [h, Nat.add_mul]
        rw [Nat.mul_comm] at hdm
        omega
      · rw [h]
        rw [Nat.mul_comm] at hdm
        omega
    · intro k hlt hk
      have hs53 : s + 1 ≤ 53 := by
        by_contra hc
        have : 2 ^ 106 ≤ 2 ^ (s + 53) := Nat.pow_le_pow_right (by decide) (by omega)
        omega
      have hsplit : (2 : Nat) ^ (53 - (s + 1)) * 2 ^ (s + 1) = 2 ^ 53 := by
        rw [← pow_add, Nat.sub_add_cancel hs53]
      have hle : k * 2 ^ (53 - (s + 1)) ≤ p / 2 ^ (s + 1) := by
        rw [Nat.le_div_iff_mul_le (Nat.two_pow_pos _)]
        rw [Nat.mul_assoc, hsplit]
        exact hk
      have hle2 : k * 2 ^ 53 ≤ p / 2 ^ (s + 1) * 2 ^ (s + 1) := by
        rw [← hsplit, ← Nat.mul_assoc]
        exact Nat.mul_le_mul_right _ hle
      rcases hq with h | h
      · rw [h, Nat.add_mul]
        omega
      · rw [h]
        exact hle2
/-- For n up to 2^50 the expression int(float64(n) * 0.8) is the integer
quotient of 4 n by 5. -/
theorem scaleByPoint8_eq (n : Nat) (h : n ≤ 2 ^ 50) : scaleByPoint8 n = 4 * n / 5 := by
  have h1 : roundFloat64 n = n := by
    have : bitLength n ≤ 53 := bitLength_le_of_lt n 53 (by omega)
    simp [roundFloat64, this]
  have hF := Nat.div_add_mod (4 * n) 5
  have hr := Nat.mod_lt (4 * n) (by decide : 5 > 0)
  obtain ⟨⟨x, hx1, hx2⟩, hlow⟩ := roundFloat64_bounds (n * f64_0_8_num)
  have hlow2 := hlow (4 * n / 5) (by simp only [f64_0_8_num]; omega)
    (by simp only [f64_0_8_num]; omega)
  simp only [scaleByPoint8, h1]
  apply Nat.div_eq_of_lt_le
  · exact hlow2
  · simp only [f64_0_8_num] at hx1 hx2 ⊢
    omega

/-- The expression int(float64(n) * 0.8) never exceeds n. -/
theorem scaleByPoint8_le (n : Nat) : scaleByPoint8 n ≤ n := by
  obtain ⟨⟨x, hx1, hx2⟩, _⟩ := roundFloat64_bounds n
  obtain ⟨⟨y, hy1, hy2⟩, _⟩ := roundFloat64_bounds (roundFloat64 n * f64_0_8_num)
  simp only [scaleByPoint8]
  apply Nat.le_of_lt_succ
  rw [Nat.div_lt_iff_lt_mul (Nat.two_pow_pos _)]
  simp only [f64_0_8_num] at hy1 hy2 ⊢
  omega

/-- For a non-negative request the 1:1 target lies between 0 and the request. -/
theorem oneOnOneTarget_bounds (T : Int) (h : 0 ≤ T) :
    0 ≤ oneOnOneTarget T ∧ oneOnOneTarget T ≤ T := by
  have h1 : ¬ T < 0 := by omega
  simp only [oneOnOneTarget, h1, if_false]
  have h2 := scaleByPoint8_le T.natAbs
  omega

/-- C9 (the claim as stated fails): for the requested total 1 the code computes
the 1:1 target int(float64(1) * 0.8) = 0, while 0.8 rounded to the nearest
integer is 1. -/
theorem oneOnOneTarget_not_round :
    oneOnOneTarget 1 = 0 ∧ round ((4 / 5 : ℚ) * ((1 : Int) : ℚ)) = (1 : Int) ∧
      oneOnOneTarget 1 ≠ round ((4 / 5 : ℚ) * ((1 : Int) : ℚ)) := by
  have h1 : oneOnOneTarget 1 = 0 := by decide
  have h2 : round ((4 / 5 : ℚ) * ((1 : Int) : ℚ)) = (1 : Int) := by
    rw [round_eq, Int.floor_eq_iff]
    constructor <;> norm_num
  refine ⟨h1, h2, ?_⟩
  rw [h1, h2]
  decide

/-- C9 (amended): for every requested total T with 0 <= T <= 2^50 the 1:1
target equals 0.8 T with the fraction dropped, that is the floor of 4 T / 5. -/
theorem oneOnOneTarget_eq_floor (T : Int) (h0 : 0 ≤ T) (h1 : T ≤ 2 ^ 50) :
    oneOnOneTarget T = ⌊(4 / 5 : ℚ) * (T : ℚ)⌋ := by
  obtain ⟨n, rfl⟩ := Int.eq_ofNat_of_zero_le h0
  have hneg : ¬ ((n : Int) < 0) := by omega
  have hn : n ≤ 2 ^ 50 := by exact_mod_cast h1
  simp only [oneOnOneTarget, hneg, if_false, Int.natAbs_ofNat, scaleByPoint8_eq _ hn]
  have hdm := Nat.div_add_mod (4 * n) 5
  have hr := Nat.mod_lt (4 * n) (by decide : 5 > 0)
  have e1 : (5 : ℚ) * ((4 * n / 5 : Nat) : ℚ) + ((4 * n % 5 : Nat) : ℚ) = 4 * (n : ℚ) := by
    exact_mod_cast congrArg (fun k : Nat => (k : ℚ)) hdm
  have e2 : (0 : ℚ) ≤ ((4 * n % 5 : Nat) : ℚ) := Nat.cast_nonneg _
  have e3 : ((4 * n % 5 : Nat) : ℚ) < 5 := by exact_mod_cast hr
  symm
  rw [Int.floor_eq_iff]
  simp only [Int.cast_natCast]
  constructor
  · linarith
  · linarith

/-- Instance of the amended C9 at the default request of 100000 conversations:
the target is 80000. -/
theorem oneOnOneTarget_eq_floor_witness :
    oneOnOneTarget 100000 = ⌊(4 / 5 : ℚ) * ((100000 : Int) : ℚ)⌋ :=
  oneOnOneTarget_eq_floor 100000 (by decide) (by decide)

/-! ## C5 - C8: generateConversationsOptimized -/

/-- Swapping two positions of a list gives a permutation of it. -/
theorem swapUsers_perm (xs : List User) (i j : Nat) (hi : i < xs.length) (hj : j < xs.length) :
    (swapUsers xs i j).Perm xs := by
  rw [List.perm_iff_count]
  intro c
  have e1 : xs.getD j default = xs[j] := by simp [List.getD_eq_getElem?_getD, hj]
  have e2 : xs.getD i default = xs[i] := by simp [List.getD_eq_getElem?_getD, hi]
  simp only [swapUsers, e1, e2]
  have hj2 : j < (xs.set i xs[j]).length := by simpa using hj
  rw [List.count_set _ _ _ _ hj2, List.count_set _ _ _ _ hi]
  have h3 : (xs.set i xs[j])[j] = xs[j] := by
    rw [List.getElem_set]
    split <;> rfl
  rw [h3]
  have h4 : (xs[i] == c) = true → 1 ≤ xs.count c := by
    intro h
    have : xs[i] = c := by simpa using h
    rw [← this]
    exact List.count_pos_iff.mpr (List.getElem_mem _)
  cases ha : (xs[i] == c) <;> cases hb : (xs[j] == c) <;> simp
  · have h5 := h4 ha
    omega
  · have h5 := h4 ha
    omega

/-- The loop of rand.Shuffle keeps a permutation of its input. -/
theorem shuffleFrom_perm : ∀ (i : Nat) (xs : List User) (g : Rand), i < xs.length →
    (shuffleFrom i xs g).1.Perm xs := by
  intro i
  induction i with
  | zero => intro xs g _; simp [shuffleFrom]
  | succ i ih =>
    intro xs g hi
    simp only [shuffleFrom]
    have hj : (g.Intn (i + 2)).1 < xs.length := by
      have : (g.Intn (i + 2)).1 < i + 2 := Nat.mod_lt _ (by omega)
      omega
    have hp := swapUsers_perm xs (i + 1) (g.Intn (i + 2)).1 hi hj
    exact (ih _ _ (by rw [hp.length_eq]; omega)).trans hp

/-- The call rand.Shuffle returns a permutation of users. -/
theorem shuffle_perm (users : List User) (g : Rand) : (shuffle users g).1.Perm users := by
  cases users with
  | nil => simp [shuffle, shuffleFrom]
  | cons u us =>
    simp only [shuffle]
    exact shuffleFrom_perm _ _ _ (by simp)
/-- A state extends itself by nothing. -/
theorem ConvState.Extends.refl (s : ConvState) : s.Extends s [] := by
  simp [ConvState.Extends]

/-- Extensions compose. -/
theorem ConvState.Extends.trans {s t u : ConvState} {a b : List ConvRecord}
    (h1 : s.Extends t a) (h2 : t.Extends u b) : s.Extends u (a ++ b) := by
  obtain ⟨a1, a2, a3, a4⟩ := h1
  obtain ⟨b1, b2, b3, b4⟩ := h2
  refine ⟨?_, ?_, ?_, fun h => b4 (a4 h)⟩
  · rw [b1, a1, List.append_assoc]
  · rw [b2, a2, List.map_append, List.append_assoc]
  · rw [b3, ← wrap64_add, a3, wrap64_add, List.length_append]
    push_cast
    rw [add_assoc]

/-- Creating one more conversation first extends the extension by it. -/
theorem ConvState.Extends.cons {s t u : ConvState} {rec : ConvRecord} {new : List ConvRecord}
    (h0 : t.created = s.created ++ [rec]) (h1 : t.conversations = s.conversations ++ [rec.conv])
    (h2 : t.stats.ConversationsGenerated = wrap64 (s.stats.ConversationsGenerated + 1))
    (h : t.Extends u new) : s.Extends u (rec :: new) := by
  obtain ⟨b1, b2, b3, b4⟩ := h
  refine ⟨?_, ?_, ?_, fun _ => b4 (by rw [h2]; exact wrap64_isInt64 _)⟩
  · rw [b1, h0]; simp
  · rw [b2, h1]; simp
  · rw [b3, h2, wrap64_add, List.length_cons]
    push_cast
    congr 1
    ring

/-- The loop over the contacts of one user creates 1:1 conversations only,
counts each of them, and does not pass the target. -/
theorem oneOnOneContacts_trace (gw : Gateway) (users : List User) (user : User)
    (target : Int) (contacts : List Contact) (j : Nat) (hu : user ∈ users)
    (hl : gw.ListUserContacts j user.ID = some contacts) :
    ∀ (rest : List Contact) (count : Int) (s : ConvState), (∀ c ∈ rest, c ∈ contacts) →
      ∃ new, s.Extends (oneOnOneContacts gw user target rest count s).2 new ∧
        (oneOnOneContacts gw user target rest count s).1 = count + (new.length : Int) ∧
        (count ≤ target → (oneOnOneContacts gw user target rest count s).1 ≤ target) ∧
        ∀ r ∈ new, OneOnOneRecord gw users r := by
  intro rest
  induction rest with
  | nil =>
    intro count s _
    exact ⟨[], by simp [oneOnOneContacts, ConvState.Extends.refl], by simp [oneOnOneContacts],
      by simp [oneOnOneContacts], by simp⟩
  | cons contact rest ih =>
    intro count s hsub
    have hsub2 : ∀ c ∈ rest, c ∈ contacts := fun c hc => hsub c (List.mem_cons_of_mem _ hc)
    by_cases hc : count ≥ target
    · refine ⟨[], ?_, ?_, ?_, by simp⟩
      · simp [oneOnOneContacts, hc, ConvState.Extends.refl]
      · simp [oneOnOneContacts, hc]
      · simp [oneOnOneContacts, hc]
    · simp only [oneOnOneContacts, hc, if_false]
      by_cases hp : (s.rng.Float32).1 < f32_0_6
      · simp only [hp, if_true]
        cases ha : gw.CreateConversation s.createCalls
            { IsGroup := false, Title := none,
              CreatedBy := { Valid := true, Bytes := user.ID.Bytes } } with
        | none =>
          simp only
          obtain ⟨new, h1, h2, h3, h4⟩ := ih count
            { s with rng := (s.rng.Float32).2, createCalls := s.createCalls + 1 } hsub2
          exact ⟨new, ⟨h1.1, h1.2.1, h1.2.2⟩, h2, h3, h4⟩
        | some conv =>
          simp only
          obtain ⟨new, h1, h2, h3, h4⟩ := ih (count + 1)
            { rng := (s.rng.Float32).2, listCalls := s.listCalls,
              createCalls := s.createCalls + 1,
              stats := s.stats.AddConversations 1,
              conversations := s.conversations ++ [conv],
              created := s.created ++
                [{ request := { IsGroup := false, Title := none,
                                CreatedBy := { Valid := true, Bytes := user.ID.Bytes } },
                   conv := conv,
                   adds := [{ ConversationID := conv.ID, UserID := user.ID, Role := "member" },
                            { ConversationID := conv.ID, UserID := contact.ContactID,
                              Role := "member" }] }] } hsub2
          refine ⟨(⟨⟨false, none, ⟨user.ID.Bytes, true⟩⟩, conv,
            [⟨conv.ID, user.ID, "member"⟩, ⟨conv.ID, contact.ContactID, "member"⟩]⟩ :
              ConvRecord) :: new,
            ConvState.Extends.cons rfl rfl rfl h1, ?_, ?_, ?_⟩
          · rw [h2]
            simp only [List.length_cons]
            push_cast
            ring
          · intro _
            exact h3 (by omega)
          · intro r hr
            rcases List.mem_cons.mp hr with h | h
            · subst h
              exact ⟨user, contact, contacts, j, s.createCalls, hu, hl,
                hsub contact (List.mem_cons_self _ _), rfl, ha, rfl⟩
            · exact h4 r h
      · simp only [hp, if_false]
        obtain ⟨new, h1, h2, h3, h4⟩ := ih count { s with rng := (s.rng.Float32).2 } hsub2
        exact ⟨new, ⟨h1.1, h1.2.1, h1.2.2⟩, h2, h3, h4⟩

/-- The loop over the users of the 1:1 phase creates 1:1 conversations only,
counts each of them, and does not pass the target. -/
theorem oneOnOneUsers_trace (gw : Gateway) (users : List User) (target : Int) :
    ∀ (rest : List User) (count : Int) (s : ConvState), (∀ u ∈ rest, u ∈ users) →
      ∃ new, s.Extends (oneOnOneUsers gw target rest count s).2 new ∧
        (oneOnOneUsers gw target rest count s).1 = count + (new.length : Int) ∧
        (count ≤ target → (oneOnOneUsers gw target rest count s).1 ≤ target) ∧
        ∀ r ∈ new, OneOnOneRecord gw users r := by
  intro rest
  induction rest with
  | nil =>
    intro count s _
    exact ⟨[], by simp [oneOnOneUsers, ConvState.Extends.refl], by simp [oneOnOneUsers],
      by simp [oneOnOneUsers], by simp⟩
  | cons user rest ih =>
    intro count s hsub
    have hsub2 : ∀ u ∈ rest, u ∈ users := fun u hu => hsub u (List.mem_cons_of_mem _ hu)
    by_cases hc : count ≥ target
    · refine ⟨[], ?_, ?_, ?_, by simp⟩
      · simp [oneOnOneUsers, hc, ConvState.Extends.refl]
      · simp [oneOnOneUsers, hc]
      · simp [oneOnOneUsers, hc]
    · simp only [oneOnOneUsers, hc, if_false]
      cases ha : gw.ListUserContacts s.listCalls user.ID with
      | none =>
        simp only
        obtain ⟨new, h1, h2, h3, h4⟩ := ih count { s with listCalls := s.listCalls + 1 } hsub2
        exact ⟨new, ⟨h1.1, h1.2.1, h1.2.2⟩, h2, h3, h4⟩
      | some contacts =>
        simp only
        obtain ⟨a, a1, a2, a3, a4⟩ := oneOnOneContacts_trace gw users user target contacts
          s.listCalls (hsub user (List.mem_cons_self _ _)) ha contacts count
          { s with listCalls := s.listCalls + 1 } (fun c hc => hc)
        obtain ⟨b, b1, b2, b3, b4⟩ := ih
          (oneOnOneContacts gw user target contacts count
            { s with listCalls := s.listCalls + 1 }).1
          (oneOnOneContacts gw user target contacts count
            { s with listCalls := s.listCalls + 1 }).2 hsub2
        refine ⟨a ++ b, ?_, ?_, ?_, ?_⟩
        · have a1b : s.Extends (oneOnOneContacts gw user target contacts count
              { s with listCalls := s.listCalls + 1 }).2 a := ⟨a1.1, a1.2.1, a1.2.2⟩
          exact a1b.trans b1
        · rw [b2, a2, List.length_append]
          push_cast
          ring
        · intro h
          exact b3 (a3 h)
        · intro r hr
          rcases List.mem_append.mp hr with h | h
          · exact a4 r h
          · exact b4 r h
/-- The group phase creates group conversations only, each with the trace of
a group, never more than groupCount of them, and exactly groupCount when it
returns. -/
theorem groupLoop_trace (gw : Gateway) (users : List User) (groupCount : Int) :
    ∀ (fuel : Nat) (gc : Int) (s : ConvState),
      ∃ new, s.Extends (groupLoop gw users groupCount fuel gc s).2 new ∧
        (∀ r ∈ new, GroupRecord gw users r) ∧
        (gc ≤ groupCount → gc + (new.length : Int) ≤ groupCount) ∧
        (groupCount ≤ gc → new = []) ∧
        ((groupLoop gw users groupCount fuel gc s).1 = Outcome.returned →
          groupCount ≤ gc + (new.length : Int)) := by
  intro fuel
  induction fuel with
  | zero =>
    intro gc s
    refine ⟨[], ?_, by simp, by simp, by simp, ?_⟩
    · by_cases h : gc < groupCount <;> simp [groupLoop, h, ConvState.Extends.refl]
    · by_cases h : gc < groupCount
      · simp [groupLoop, h]
      · simp [groupLoop, h]
        omega
  | succ fuel ih =>
    intro gc s
    by_cases hlt : gc < groupCount
    · simp only [groupLoop, hlt, if_true]
      split
      · exact ⟨[], ⟨by simp, by simp, by simp⟩, by simp, by simp, by simp, by simp⟩
      · rename_i first others hgm
        rw [hgm]
        have hd : (s.rng.Intn 8).1 < 8 := Nat.mod_lt _ (by decide)
        have hmin : (if (s.rng.Intn 8).1 + 3 > users.length then users.length
            else (s.rng.Intn 8).1 + 3) = min ((s.rng.Intn 8).1 + 3) users.length := by
          rw [Nat.min_def]
          split <;> split <;> omega
        rw [hmin] at hgm
        obtain ⟨title, htitle⟩ : ∃ title, title = groupNames.getD
            ((shuffle users (s.rng.Intn 8).2).2.Intn groupNames.length).1 "" := ⟨_, rfl⟩
        rw [← htitle]
        have hmem : title ∈ groupNames := by
          have hlt2 : ((shuffle users (s.rng.Intn 8).2).2.Intn groupNames.length).1 <
              groupNames.length := Nat.mod_lt _ (by decide)
          rw [htitle, List.getD_eq_getElem _ _ hlt2]
          exact List.getElem_mem _
        cases ha : gw.CreateConversation s.createCalls
            ⟨true, some title, ⟨first.ID.Bytes, true⟩⟩ with
        | none =>
          simp only
          obtain ⟨new, h1, h2, h3, h4, h5⟩ := ih gc
            { s with
              rng := ((shuffle users (s.rng.Intn 8).2).2.Intn groupNames.length).2
              createCalls := s.createCalls + 1 }
          exact ⟨new, ⟨h1.1, h1.2.1, h1.2.2⟩, h2, h3, h4, h5⟩
        | some conv =>
          simp only
          obtain ⟨new, h1, h2, h3, h4, h5⟩ := ih (gc + 1)
            { rng := ((shuffle users (s.rng.Intn 8).2).2.Intn groupNames.length).2,
              listCalls := s.listCalls, createCalls := s.createCalls + 1,
              stats := s.stats.AddConversations 1,
              conversations := s.conversations ++ [conv],
              created := s.created ++
                [⟨⟨true, some title, ⟨first.ID.Bytes, true⟩⟩, conv,
                  (first :: others).map (fun member =>
                    ⟨conv.ID, member.ID,
                      if member.ID = conv.CreatedBy then "admin" else "member"⟩)⟩] }
          refine ⟨(⟨⟨true, some title, ⟨first.ID.Bytes, true⟩⟩, conv,
              (first :: others).map (fun member =>
                ⟨conv.ID, member.ID,
                  if member.ID = conv.CreatedBy then "admin" else "member"⟩)⟩ : ConvRecord) :: new,
            ConvState.Extends.cons rfl rfl rfl h1, ?_, ?_, ?_, ?_⟩
          · intro r hr
            rcases List.mem_cons.mp hr with h | h
            · subst h
              exact ⟨(shuffle users (s.rng.Intn 8).2).1, (s.rng.Intn 8).1 + 3, first, others,
                title, s.createCalls, shuffle_perm _ _, by omega, by omega, hgm, hmem, rfl, ha,
                rfl⟩
            · exact h2 r h
          · intro _
            have := h3 (by omega)
            simp only [List.length_cons]
            push_cast
            omega
          · intro h
            omega
          · intro h
            have := h5 h
            simp only [List.length_cons]
            push_cast
            omega
    · refine ⟨[], ?_, by simp, by simp, by simp, ?_⟩
      · simp [groupLoop, hlt, ConvState.Extends.refl]
      · simp [groupLoop, hlt]
        omega
/-- The trace of a run of generateConversationsOptimized, whatever its fuel
and however it ends: the conversations created are first 1:1 conversations,
at most the 1:1 target, then group conversations, at most the group count and
exactly that many when the run returned; each is appended to the slice and
counted once in ConversationsGenerated, whose additions wrap at 64 bits. -/
theorem generateConversationsOptimized_trace (fuel : Nat) (gw : Gateway) (users : List User)
    (T : Int) (stats : PopulationStats) (g : Rand) :
    ∃ ones groups : List ConvRecord,
      (generateConversationsOptimized fuel gw users T stats g).state.created = ones ++ groups ∧
      (generateConversationsOptimized fuel gw users T stats g).state.conversations =
        (ones ++ groups).map (fun r => r.conv) ∧
      (wrap64
          (generateConversationsOptimized fuel gw users T stats g).state.stats.ConversationsGenerated =
          wrap64 (stats.ConversationsGenerated + ((ones.length : Int) + (groups.length : Int))) ∧
        (IsInt64 stats.ConversationsGenerated → IsInt64
          (generateConversationsOptimized fuel gw users T stats g).state.stats.ConversationsGenerated)) ∧
      (generateConversationsOptimized fuel gw users T stats g).oneOnOneCreated = (ones.length : Int) ∧
      (0 ≤ oneOnOneTarget T → (ones.length : Int) ≤ oneOnOneTarget T) ∧
      (∀ r ∈ ones, OneOnOneRecord gw users r) ∧
      (∀ r ∈ groups, GroupRecord gw users r) ∧
      (0 ≤ T - oneOnOneTarget T → (groups.length : Int) ≤ T - oneOnOneTarget T) ∧
      (T - oneOnOneTarget T ≤ 0 → groups = []) ∧
      ((generateConversationsOptimized fuel gw users T stats g).outcome = Outcome.returned →
        T - oneOnOneTarget T ≤ (groups.length : Int)) := by
  obtain ⟨ones, a1, a2, a3, a4⟩ := oneOnOneUsers_trace gw users (oneOnOneTarget T) users 0
    { rng := g, listCalls := 0, createCalls := 0, stats := stats,
      conversations := [], created := [] } (fun u hu => hu)
  obtain ⟨groups, b1, b2, b3, b4, b5⟩ := groupLoop_trace gw users (T - oneOnOneTarget T) fuel 0
    (oneOnOneUsers gw (oneOnOneTarget T) users 0
      { rng := g, listCalls := 0, createCalls := 0, stats := stats,
        conversations := [], created := [] }).2
  have hab := a1.trans b1
  refine ⟨ones, groups, ?_, ?_, ?_, ?_, ?_, a4, b2, ?_, b4, ?_⟩
  · simpa [generateConversationsOptimized] using hab.1
  · simpa [generateConversationsOptimized] using hab.2.1
  · have h3 := hab.2.2
    simp only [generateConversationsOptimized]
    rw [List.length_append] at h3
    push_cast at h3
    exact h3
  · simpa [generateConversationsOptimized] using a2
  · intro h
    have := a3 h
    rw [a2] at this
    simpa using this
  · intro h
    have := b3 h
    simpa using this
  · intro h
    have := b5 (by simpa [generateConversationsOptimized] using h)
    simpa using this
/-- A conversation of the 1:1 phase is requested with is_group false. -/
theorem OneOnOneRecord.request_not_group {gw : Gateway} {users : List User} {r : ConvRecord}
    (h : OneOnOneRecord gw users r) : r.request.IsGroup = false := by
  obtain ⟨user, contact, contacts, j, k, _, _, _, hreq, _, _⟩ := h
  rw [hreq]

/-- A conversation of the group phase is requested with is_group true. -/
theorem GroupRecord.request_is_group {gw : Gateway} {users : List User} {r : ConvRecord}
    (h : GroupRecord gw users r) : r.request.IsGroup = true := by
  obtain ⟨shuffled, d, first, others, title, k, _, _, _, _, _, hreq, _, _⟩ := h
  rw [hreq]

/-- The members selected for a group are users, and their IDs are pairwise
distinct when the IDs of the users are. -/
theorem group_members_of_perm (users shuffled : List User) (n : Nat) (first : User)
    (others : List User) (hp : shuffled.Perm users) (ht : shuffled.take n = first :: others) :
    (∀ m ∈ first :: others, m ∈ users) ∧
      ((users.map (fun u => u.ID)).Nodup → ((first :: others).map (fun u => u.ID)).Nodup) := by
  have hsub : (first :: others).Sublist shuffled := by
    rw [← ht]
    exact List.take_sublist _ _
  refine ⟨fun m hm => hp.subset (hsub.subset hm), fun hnd => ?_⟩
  have h1 : (shuffled.map (fun u => u.ID)).Nodup := (hp.map _).nodup_iff.mpr hnd
  exact (hsub.map _).nodup h1

/-- Among the conversations of a run, those requested with is_group false are
the 1:1 conversations and the others the group conversations. -/
theorem filter_by_isGroup (gw : Gateway) (users : List User) (ones groups : List ConvRecord)
    (h1 : ∀ r ∈ ones, OneOnOneRecord gw users r) (h2 : ∀ r ∈ groups, GroupRecord gw users r) :
    (ones ++ groups).filter (fun r => !r.request.IsGroup) = ones ∧
      (ones ++ groups).filter (fun r => r.request.IsGroup) = groups := by
  have e1 : ones.filter (fun r => !r.request.IsGroup) = ones :=
    List.filter_eq_self.mpr (fun r hr => by simp [(h1 r hr).request_not_group])
  have e2 : groups.filter (fun r => !r.request.IsGroup) = [] :=
    List.filter_eq_nil_iff.mpr (fun r hr => by simp [(h2 r hr).request_is_group])
  have e3 : ones.filter (fun r => r.request.IsGroup) = [] :=
    List.filter_eq_nil_iff.mpr (fun r hr => by simp [(h1 r hr).request_not_group])
  have e4 : groups.filter (fun r => r.request.IsGroup) = groups :=
    List.filter_eq_self.mpr (fun r hr => by simp [(h2 r hr).request_is_group])
  constructor
  · rw [List.filter_append, e1, e2, List.append_nil]
  · rw [List.filter_append, e3, e4, List.nil_append]

set_option maxRecDepth 100000 in
/-- C5 (the claim as stated fails): the role is decided by comparing the ID of
a member with the CreatedBy column of the row that CreateConversation
returned.  With a request of one conversation (which is a group), a Gateway
that stores another creator than the one named in the call gives a group
without any "admin"; two user rows with the same ID give a group with two
"admin" additions; and user rows whose IDs are not valid give a group without
any "admin", because the creator of the request is marked valid. -/
theorem group_admin_depends_on_ids_and_gateway :
    (generateConversationsOptimized 1 foreignCreatorGateway (sampleUsers 4) 1 zeroStats
        sampleRand).state.created.map
        (fun r => (r.request.IsGroup, r.adds.map (fun a => (a.UserID.Bytes, a.Role)))) =
      [(true, [(1, "member"), (0, "member"), (3, "member"), (2, "member")])] ∧
    (generateConversationsOptimized 1 sampleGateway twinUsers 1 zeroStats
        sampleRand).state.created.map
        (fun r => (r.request.IsGroup, r.adds.map (fun a => (a.UserID.Bytes, a.Role)))) =
      [(true, [(0, "admin"), (0, "admin")])] ∧
    (generateConversationsOptimized 1 sampleGateway invalidUsers 1 zeroStats
        sampleRand).state.created.map
        (fun r => (r.request.IsGroup, r.adds.map (fun a => (a.UserID.Bytes, a.Role)))) =
      [(true, [(0, "member"), (2, "member"), (1, "member")])] ∧
    ¬ (∀ r ∈ (generateConversationsOptimized 1 foreignCreatorGateway (sampleUsers 4) 1 zeroStats
        sampleRand).state.created,
      r.request.IsGroup = true → (r.adds.filter (fun b => b.Role = "admin")).length = 1) := by
  refine ⟨by decide, by decide, by decide, by decide⟩

/-- C5 (amended): when the users have valid, pairwise distinct IDs and the
Gateway returns the row with the creator it was asked to store, in every group
conversation created by generateConversationsOptimized
exactly one participant addition has the role "admin": it is the first one,
its user is the declared creator (the CreatedBy of the request, which is the
first selected user), and every other addition has the role "member" and
another user; fuel and the way the run ends are arbitrary. -/
theorem group_conversation_has_one_admin (fuel : Nat) (gw : Gateway) (users : List User)
    (T : Int) (stats : PopulationStats) (g : Rand)
    (hvalid : ∀ u ∈ users, u.ID.Valid = true)
    (hnodup : (users.map (fun u => u.ID)).Nodup)
    (hecho : ∀ k p c, gw.CreateConversation k p = some c → c.CreatedBy = p.CreatedBy) :
    ∀ r ∈ (generateConversationsOptimized fuel gw users T stats g).state.created,
      r.request.IsGroup = true →
      ∃ a rest, r.adds = a :: rest ∧ a.Role = "admin" ∧ a.UserID = r.request.CreatedBy ∧
        (∀ b ∈ rest, b.Role = "member" ∧ b.UserID ≠ r.request.CreatedBy) ∧
        (r.adds.filter (fun b => b.Role = "admin")).length = 1 := by
  obtain ⟨ones, groups, hc, _, _, _, _, h1, h2, _, _, _⟩ :=
    generateConversationsOptimized_trace fuel gw users T stats g
  intro r hr hg
  rw [hc] at hr
  rcases List.mem_append.mp hr with h | h
  · rw [(h1 r h).request_not_group] at hg
    exact absurd hg (by decide)
  · obtain ⟨shuffled, d, first, others, title, k, hp, _, _, ht, _, hreq, hcr, hadds⟩ := h2 r h
    obtain ⟨hmem, hnd⟩ := group_members_of_perm users shuffled _ first others hp ht
    have hfirst : first.ID = r.request.CreatedBy := by
      have hv := hvalid first (hmem first (List.mem_cons_self _ _))
      rw [hreq]
      cases hid : first.ID with
      | mk b v =>
        rw [hid] at hv
        simp only at hv
        simp [hv]
    have hconv : r.conv.CreatedBy = first.ID := by
      rw [hecho k _ _ hcr, hfirst]
    have hnd2 := hnd hnodup
    simp only [List.map_cons, List.nodup_cons, List.mem_map, not_exists, not_and] at hnd2
    have hrest : ∀ m ∈ others, m.ID ≠ first.ID := fun m hm he => hnd2.1 m hm he
    have hroles : ∀ b ∈ others.map (fun member =>
        ({ ConversationID := r.conv.ID, UserID := member.ID,
           Role := if member.ID = r.conv.CreatedBy then "admin" else "member" } :
          AddConversationParticipantParams)),
        b.Role = "member" ∧ b.UserID ≠ r.request.CreatedBy := by
      intro b hb
      obtain ⟨m, hm, rfl⟩ := List.mem_map.mp hb
      have := hrest m hm
      simp only [hconv, this, if_false, true_and]
      rw [← hfirst]
      exact this
    refine ⟨_, _, by rw [hadds, List.map_cons], ?_, hfirst, hroles, ?_⟩
    · simp [hconv]
    · rw [hadds, List.map_cons, List.filter_cons]
      simp only [hconv, if_true, decide_True, List.length_cons]
      have : (others.map (fun member =>
          ({ ConversationID := r.conv.ID, UserID := member.ID,
             Role := if member.ID = first.ID then "admin" else "member" } :
            AddConversationParticipantParams))).filter (fun b => b.Role = "admin") = [] := by
        rw [List.filter_eq_nil_iff]
        intro b hb
        have := (hroles b (by rw [hconv]; exact hb)).1
        simp [this]
      rw [this]
      rfl
/-- Instance of the amended C5 on four sample users and a request of five
conversations: the hypotheses hold there, and the run creates a group
conversation. -/
theorem group_conversation_has_one_admin_witness :
    (∀ u ∈ sampleUsers 4, u.ID.Valid = true) ∧
    ((sampleUsers 4).map (fun u => u.ID)).Nodup ∧
    ((generateConversationsOptimized 2 sampleGateway (sampleUsers 4) 5 zeroStats
        sampleRand).state.created.map (fun r => r.request.IsGroup) =
      [false, false, false, true]) ∧
    (∀ r ∈ (generateConversationsOptimized 2 sampleGateway (sampleUsers 4) 5 zeroStats
        sampleRand).state.created,
      r.request.IsGroup = true →
      ∃ a rest, r.adds = a :: rest ∧ a.Role = "admin" ∧ a.UserID = r.request.CreatedBy ∧
        (∀ b ∈ rest, b.Role = "member" ∧ b.UserID ≠ r.request.CreatedBy) ∧
        (r.adds.filter (fun b => b.Role = "admin")).length = 1) :=
  ⟨by decide, by decide, by decide,
    group_conversation_has_one_admin 2 sampleGateway (sampleUsers 4) 5 zeroStats sampleRand
      (by decide) (by decide)
      (by
        intro k p c h
        simp only [sampleGateway, Option.some.injEq] at h
        rw [← h])⟩

/-- C6 (the claim as stated fails): with a single user and a request of one
conversation the run returns after creating one group conversation for which
exactly one participant addition is issued, so not every created conversation
gets two additions for distinct users. -/
theorem single_user_group_has_one_participant :
    (generateConversationsOptimized 1 sampleGateway (sampleUsers 1) 1 zeroStats
        sampleRand).outcome = Outcome.returned ∧
    ((generateConversationsOptimized 1 sampleGateway (sampleUsers 1) 1 zeroStats
        sampleRand).state.created.map (fun r => r.adds.map (fun a => (a.UserID.Bytes, a.Role)))
      = [[(0, "admin")]]) ∧
    ¬ (∀ r ∈ (generateConversationsOptimized 1 sampleGateway (sampleUsers 1) 1 zeroStats
        sampleRand).state.created,
      ∃ a b rest, r.adds = a :: b :: rest ∧ a.UserID ≠ b.UserID) := by
  refine ⟨by decide, by decide, ?_⟩
  intro h
  have hlen : (generateConversationsOptimized 1 sampleGateway (sampleUsers 1) 1 zeroStats
      sampleRand).state.created.map (fun r => r.adds.length) = [1] := by decide
  cases hc : (generateConversationsOptimized 1 sampleGateway (sampleUsers 1) 1 zeroStats
      sampleRand).state.created with
  | nil => rw [hc] at hlen; simp at hlen
  | cons r rs =>
    rw [hc] at hlen h
    obtain ⟨a, b, rest, hab, _⟩ := h r (List.mem_cons_self _ _)
    simp only [List.map_cons, List.cons.injEq] at hlen
    rw [hab] at hlen
    simp at hlen

/-- C6 (amended): when there are at least two users, the users have pairwise
distinct IDs and the contact lists of the Gateway hold no self-edge, every
conversation created by generateConversationsOptimized (1:1 or group) gets at
least two participant additions, the first two of them for distinct users. -/
theorem conversation_has_two_participants (fuel : Nat) (gw : Gateway) (users : List User)
    (T : Int) (stats : PopulationStats) (g : Rand)
    (hlen : 2 ≤ users.length)
    (hnodup : (users.map (fun u => u.ID)).Nodup)
    (hself : ∀ j u cs, gw.ListUserContacts j u = some cs → ∀ c ∈ cs, c.ContactID ≠ u) :
    ∀ r ∈ (generateConversationsOptimized fuel gw users T stats g).state.created,
      ∃ a b rest, r.adds = a :: b :: rest ∧ a.UserID ≠ b.UserID := by
  obtain ⟨ones, groups, hc, _, _, _, _, h1, h2, _, _, _⟩ :=
    generateConversationsOptimized_trace fuel gw users T stats g
  intro r hr
  rw [hc] at hr
  rcases List.mem_append.mp hr with h | h
  · obtain ⟨user, contact, contacts, j, k, _, hl, hcm, _, _, hadds⟩ := h1 r h
    refine ⟨_, _, [], hadds, ?_⟩
    exact fun he => hself j user.ID contacts hl contact hcm he.symm
  · obtain ⟨shuffled, d, first, others, title, k, hp, hd, _, ht, _, _, _, hadds⟩ := h2 r h
    obtain ⟨_, hnd⟩ := group_members_of_perm users shuffled _ first others hp ht
    have hnd2 := hnd hnodup
    have hl2 : (first :: others).length = min (min d users.length) shuffled.length := by
      rw [← ht, List.length_take]
    rw [hp.length_eq] at hl2
    cases others with
    | nil =>
      simp only [List.length_singleton] at hl2
      omega
    | cons second rest =>
      refine ⟨_, _, _, by rw [hadds, List.map_cons, List.map_cons], ?_⟩
      simp only [List.map_cons, List.nodup_cons, List.mem_cons, not_or] at hnd2
      exact hnd2.1.1

/-- Instance of the amended C6 on four sample users and a request of five
conversations. -/
theorem conversation_has_two_participants_witness :
    2 ≤ (sampleUsers 4).length ∧
    ((sampleUsers 4).map (fun u => u.ID)).Nodup ∧
    (∀ r ∈ (generateConversationsOptimized 2 sampleGateway (sampleUsers 4) 5 zeroStats
        sampleRand).state.created,
      ∃ a b rest, r.adds = a :: b :: rest ∧ a.UserID ≠ b.UserID) :=
  ⟨by decide, by decide,
    conversation_has_two_participants 2 sampleGateway (sampleUsers 4) 5 zeroStats sampleRand
      (by decide) (by decide)
      (by
        intro j u cs h c hc
        simp only [sampleGateway, Option.some.injEq] at h
        rw [← h] at hc
        simp only [List.mem_singleton] at hc
        rw [hc]
        intro he
        have := congrArg UUID.Bytes he
        simp at this)⟩
/-- C7: for every requested total T >= 0, every user list, every Gateway and
every fuel (so at every point of a run, however it ends) the number of 1:1
conversations created is at most the 1:1 target, and the number of
conversations added to the statistics (and to the slice) is at most T: the
counter ConversationsGenerated has grown, in the 64-bit arithmetic of a Go
int, by the length of the slice, which is at most T, and a counter that held
an int64 value has not grown by more than T. -/
theorem conversation_counts_bounded (fuel : Nat) (gw : Gateway) (users : List User)
    (T : Int) (stats : PopulationStats) (g : Rand) (hT : 0 ≤ T) :
    (((generateConversationsOptimized fuel gw users T stats g).state.created.filter
        (fun r => !r.request.IsGroup)).length : Int) ≤ oneOnOneTarget T ∧
    (generateConversationsOptimized fuel gw users T stats g).oneOnOneCreated ≤ oneOnOneTarget T ∧
    (wrap64
        (generateConversationsOptimized fuel gw users T stats g).state.stats.ConversationsGenerated
        = wrap64 (stats.ConversationsGenerated +
          ((generateConversationsOptimized fuel gw users T stats g).state.conversations.length
            : Int)) ∧
      (IsInt64 stats.ConversationsGenerated →
        (generateConversationsOptimized fuel gw users T stats g).state.stats.ConversationsGenerated
          - stats.ConversationsGenerated ≤ T)) ∧
    ((generateConversationsOptimized fuel gw users T stats g).state.conversations.length : Int)
        ≤ T := by
  obtain ⟨ones, groups, hc, hv, hs, ho, h0, h1, h2, h3, _, _⟩ :=
    generateConversationsOptimized_trace fuel gw users T stats g
  obtain ⟨hb1, hb2⟩ := oneOnOneTarget_bounds T hT
  have hones := h0 hb1
  have hgroups := h3 (by omega)
  refine ⟨?_, ?_, ?_, ?_⟩
  · rw [hc, (filter_by_isGroup gw users ones groups h1 h2).1]
    exact hones
  · rw [ho]
    exact hones
  · obtain ⟨hs1, hs2⟩ := hs
    constructor
    · rw [hv, List.length_map, List.length_append]
      push_cast
      exact hs1
    · intro hin
      have hfin := hs2 hin
      rw [wrap64_of_isInt64 _ hfin] at hs1
      rw [hs1]
      simp only [wrap64, IsInt64] at hin ⊢
      omega
  · rw [hv, List.length_map, List.length_append]
    push_cast
    omega

/-- Instance of C7 on four sample users and a request of five conversations. -/
theorem conversation_counts_bounded_witness :
    (0 : Int) ≤ 5 ∧
    (((generateConversationsOptimized 2 sampleGateway (sampleUsers 4) 5 zeroStats
        sampleRand).state.created.filter (fun r => !r.request.IsGroup)).length : Int)
      ≤ oneOnOneTarget 5 ∧
    (generateConversationsOptimized 2 sampleGateway (sampleUsers 4) 5 zeroStats
        sampleRand).oneOnOneCreated ≤ oneOnOneTarget 5 ∧
    (wrap64 (generateConversationsOptimized 2 sampleGateway (sampleUsers 4) 5 zeroStats
        sampleRand).state.stats.ConversationsGenerated
        = wrap64 (zeroStats.ConversationsGenerated +
          ((generateConversationsOptimized 2 sampleGateway (sampleUsers 4) 5 zeroStats
            sampleRand).state.conversations.length : Int)) ∧
      (IsInt64 zeroStats.ConversationsGenerated →
        (generateConversationsOptimized 2 sampleGateway (sampleUsers 4) 5 zeroStats
          sampleRand).state.stats.ConversationsGenerated - zeroStats.ConversationsGenerated
            ≤ 5)) ∧
    ((generateConversationsOptimized 2 sampleGateway (sampleUsers 4) 5 zeroStats
        sampleRand).state.conversations.length : Int) ≤ 5 :=
  ⟨by decide,
    conversation_counts_bounded 2 sampleGateway (sampleUsers 4) 5 zeroStats sampleRand
      (by decide)⟩

/-- C8 (the claim as stated fails): for the requested total -1 the run returns
without creating any group conversation, while the total minus the 1:1
target is -1 - 0 = -1. -/
theorem negative_request_creates_no_group :
    (generateConversationsOptimized 0 sampleGateway (sampleUsers 3) (-1) zeroStats
        sampleRand).outcome = Outcome.returned ∧
    oneOnOneTarget (-1) = 0 ∧
    (((generateConversationsOptimized 0 sampleGateway (sampleUsers 3) (-1) zeroStats
        sampleRand).state.created.filter (fun r => r.request.IsGroup)).length : Int) = 0 ∧
    (((generateConversationsOptimized 0 sampleGateway (sampleUsers 3) (-1) zeroStats
        sampleRand).state.created.filter (fun r => r.request.IsGroup)).length : Int)
      ≠ (-1) - oneOnOneTarget (-1) := by
  refine ⟨by decide, by decide, by decide, by decide⟩

/-- C8 (amended): whenever generateConversationsOptimized returns for a
requested total T >= 0, the number of group conversations created is exactly
T minus the 1:1 target, and the length of the returned slice and the increase
of ConversationsGenerated both equal the number of 1:1 conversations created
(the final conversationCount) plus T minus the 1:1 target.  The counter is a
Go int: it has grown by that number in 64-bit arithmetic, and by exactly that
number when it held an int64 value and the sum does not pass 2^63 - 1. -/
theorem returned_run_counts (fuel : Nat) (gw : Gateway) (users : List User)
    (T : Int) (stats : PopulationStats) (g : Rand) (hT : 0 ≤ T)
    (hret : (generateConversationsOptimized fuel gw users T stats g).outcome
      = Outcome.returned) :
    (((generateConversationsOptimized fuel gw users T stats g).state.created.filter
        (fun r => r.request.IsGroup)).length : Int) = T - oneOnOneTarget T ∧
    (generateConversationsOptimized fuel gw users T stats g).oneOnOneCreated =
      (((generateConversationsOptimized fuel gw users T stats g).state.created.filter
        (fun r => !r.request.IsGroup)).length : Int) ∧
    ((generateConversationsOptimized fuel gw users T stats g).state.conversations.length : Int) =
      (generateConversationsOptimized fuel gw users T stats g).oneOnOneCreated
        + (T - oneOnOneTarget T) ∧
    (wrap64
        (generateConversationsOptimized fuel gw users T stats g).state.stats.ConversationsGenerated
        = wrap64 (stats.ConversationsGenerated +
          ((generateConversationsOptimized fuel gw users T stats g).oneOnOneCreated
            + (T - oneOnOneTarget T))) ∧
      (IsInt64 stats.ConversationsGenerated →
        stats.ConversationsGenerated +
          ((generateConversationsOptimized fuel gw users T stats g).oneOnOneCreated
            + (T - oneOnOneTarget T)) < 2 ^ 63 →
        (generateConversationsOptimized fuel gw users T stats g).state.stats.ConversationsGenerated
          - stats.ConversationsGenerated =
        (generateConversationsOptimized fuel gw users T stats g).oneOnOneCreated
          + (T - oneOnOneTarget T))) := by
  obtain ⟨ones, groups, hc, hv, hs, ho, h0, h1, h2, h3, _, h5⟩ :=
    generateConversationsOptimized_trace fuel gw users T stats g
  obtain ⟨hb1, hb2⟩ := oneOnOneTarget_bounds T hT
  have hg1 := h3 (by omega)
  have hg2 := h5 hret
  have hg : (groups.length : Int) = T - oneOnOneTarget T := by omega
  obtain ⟨f1, f2⟩ := filter_by_isGroup gw users ones groups h1 h2
  refine ⟨?_, ?_, ?_, ?_⟩
  · rw [hc, f2]
    exact hg
  · rw [hc, f1]
    exact ho
  · rw [hv, ho, List.length_map, List.length_append]
    push_cast
    omega
  · obtain ⟨hs1, hs2⟩ := hs
    rw [ho, ← hg]
    refine ⟨hs1, ?_⟩
    intro hin hlt
    have hfin := hs2 hin
    rw [wrap64_of_isInt64 _ hfin] at hs1
    rw [hs1]
    simp only [wrap64, IsInt64] at hin ⊢
    omega

/-- Instance of the amended C8: four sample users, a request of five
conversations and fuel for two iterations of the group phase; the run
returns. -/
theorem returned_run_counts_witness :
    (0 : Int) ≤ 5 ∧
    (generateConversationsOptimized 2 sampleGateway (sampleUsers 4) 5 zeroStats
        sampleRand).outcome = Outcome.returned ∧
    ((((generateConversationsOptimized 2 sampleGateway (sampleUsers 4) 5 zeroStats
        sampleRand).state.created.filter (fun r => r.request.IsGroup)).length : Int)
        = 5 - oneOnOneTarget 5 ∧
      (generateConversationsOptimized 2 sampleGateway (sampleUsers 4) 5 zeroStats
        sampleRand).oneOnOneCreated =
        (((generateConversationsOptimized 2 sampleGateway (sampleUsers 4) 5 zeroStats
          sampleRand).state.created.filter (fun r => !r.request.IsGroup)).length : Int) ∧
      ((generateConversationsOptimized 2 sampleGateway (sampleUsers 4) 5 zeroStats
        sampleRand).state.conversations.length : Int) =
        (generateConversationsOptimized 2 sampleGateway (sampleUsers 4) 5 zeroStats
          sampleRand).oneOnOneCreated + (5 - oneOnOneTarget 5) ∧
      (wrap64 (generateConversationsOptimized 2 sampleGateway (sampleUsers 4) 5 zeroStats
          sampleRand).state.stats.ConversationsGenerated
          = wrap64 (zeroStats.ConversationsGenerated +
            ((generateConversationsOptimized 2 sampleGateway (sampleUsers 4) 5 zeroStats
              sampleRand).oneOnOneCreated + (5 - oneOnOneTarget 5))) ∧
        (IsInt64 zeroStats.ConversationsGenerated →
          zeroStats.ConversationsGenerated +
            ((generateConversationsOptimized 2 sampleGateway (sampleUsers 4) 5 zeroStats
              sampleRand).oneOnOneCreated + (5 - oneOnOneTarget 5)) < 2 ^ 63 →
          (generateConversationsOptimized 2 sampleGateway (sampleUsers 4) 5 zeroStats
            sampleRand).state.stats.ConversationsGenerated - zeroStats.ConversationsGenerated =
          (generateConversationsOptimized 2 sampleGateway (sampleUsers 4) 5 zeroStats
            sampleRand).oneOnOneCreated + (5 - oneOnOneTarget 5)))) :=
  ⟨by decide, by decide,
    returned_run_counts 2 sampleGateway (sampleUsers 4) 5 zeroStats sampleRand
      (by decide) (by decide)⟩

/-! ## C10: generateRealisticMessageContent -/

/-- A character other than `%` is copied to the output. -/
theorem sprintfChars_literal_char (c : Char) (rest : List Char) (arg : Option String)
    (hc : c ≠ '%') :
    sprintfChars (c :: rest) arg = (sprintfChars rest arg).map (fun out => c :: out) := by
  cases rest <;> simp [sprintfChars, hc]

/-- The verb `%s` is replaced by the operand. -/
theorem sprintfChars_verb_s (rest : List Char) (a : String) :
    sprintfChars ('%' :: 's' :: rest) (some a) =
      (sprintfChars rest none).map (fun out => a.data ++ out) := by
  simp [sprintfChars]

/-- On a format without the character `%` and with no operand left, Sprintf
returns the format. -/
theorem sprintfChars_literal : ∀ (l : List Char), '%' ∉ l → sprintfChars l none = some l := by
  intro l
  induction l with
  | nil => intro _; simp [sprintfChars, sprintfEnd]
  | cons c rest ih =>
    intro h
    have hc : c ≠ '%' := fun he => h (he ▸ List.mem_cons_self _ _)
    have hr : '%' ∉ rest := fun hm => h (List.mem_cons_of_mem _ hm)
    rw [sprintfChars_literal_char c rest none hc, ih hr]
    rfl

/-- On a format that consists of literal text, one verb `%s` and literal text
again, Sprintf returns the text with the operand in the place of the verb. -/
theorem sprintfChars_one_verb : ∀ (l1 l2 : List Char) (a : String), '%' ∉ l1 → '%' ∉ l2 →
    sprintfChars (l1 ++ '%' :: 's' :: l2) (some a) = some (l1 ++ a.data ++ l2) := by
  intro l1
  induction l1 with
  | nil =>
    intro l2 a _ h2
    rw [List.nil_append, sprintfChars_verb_s, sprintfChars_literal l2 h2]
    rfl
  | cons c rest ih =>
    intro l2 a h1 h2
    have hc : c ≠ '%' := fun he => h1 (he ▸ List.mem_cons_self _ _)
    have hr : '%' ∉ rest := fun hm => h1 (List.mem_cons_of_mem _ hm)
    rw [List.cons_append, sprintfChars_literal_char c _ _ hc, ih l2 a hr h2]
    rfl

/-- Every template starts with literal text, followed by its one verb `%s` and
by literal text without any `%`. -/
theorem templates_shape : ∀ t ∈ templates,
    t.data.takeWhile (fun c => c ≠ '%') ≠ [] ∧
    (t.data.dropWhile (fun c => c ≠ '%')).take 2 = ['%', 's'] ∧
    '%' ∉ (t.data.dropWhile (fun c => c ≠ '%')).drop 2 := by
  simp only [templates, List.forall_mem_cons]
  refine ⟨?_, ?_, ?_, ?_, ?_, ?_, ?_, ?_, ?_, ?_, ?_, ?_, ?_, ?_, ?_, ?_, ?_, ?_, ?_, ?_, ?_⟩
  all_goals decide

/-- For every template and every operand, Sprintf returns the template with
the operand substituted for `%s`; the result begins with the non-empty literal
text before the verb. -/
theorem sprintf_template (t : String) (ht : t ∈ templates) (a : String) :
    ∃ pre post : List Char, pre ≠ [] ∧ t.data = pre ++ '%' :: 's' :: post ∧
      sprintf t a = some (String.mk (pre ++ a.data ++ post)) := by
  obtain ⟨h1, h2, h3⟩ := templates_shape t ht
  have hsplit : t.data = t.data.takeWhile (fun c => c ≠ '%') ++
      t.data.dropWhile (fun c => c ≠ '%') := (List.takeWhile_append_dropWhile _ _).symm
  have hdrop : t.data.dropWhile (fun c => c ≠ '%') =
      '%' :: 's' :: (t.data.dropWhile (fun c => c ≠ '%')).drop 2 := by
    have := List.take_append_drop 2 (t.data.dropWhile (fun c => c ≠ '%'))
    rw [h2] at this
    exact this.symm
  have hpre : '%' ∉ t.data.takeWhile (fun c => c ≠ '%') := by
    intro hm
    have := List.mem_takeWhile_imp hm
    simp at this
  have hdata : t.data = t.data.takeWhile (fun c => c ≠ '%') ++
      '%' :: 's' :: (t.data.dropWhile (fun c => c ≠ '%')).drop 2 := by
    rw [← hdrop]
    exact hsplit
  refine ⟨_, _, h1, hdata, ?_⟩
  simp only [sprintf]
  rw [hdata, sprintfChars_one_verb _ _ a hpre h3]
  rw [← hdata]
  rfl

/-- The element drawn from a pool by an index below its length is in the pool. -/
theorem getD_mem_of_lt (pool : List String) (i : Nat) (h : i < pool.length) :
    pool.getD i "" ∈ pool := by
  rw [List.getD_eq_getElem _ _ h]
  exact List.getElem_mem _

/-- No literal of the two literal pools is empty. -/
theorem literal_pools_nonempty :
    (∀ s ∈ simpleMessages, s ≠ "") ∧ (∀ s ∈ shortResponses, s ≠ "") := by
  constructor <;> decide

/-- C10: for every stream of random draws, that is for each of the three
strategy branches and every index drawn into the pools templates, fillers,
simpleMessages and shortResponses, generateRealisticMessageContent returns a
text, and the text is not empty. -/
theorem generateRealisticMessageContent_nonempty (g : Rand) :
    ∃ s : String, (generateRealisticMessageContent g).1 = some s ∧ s ≠ "" := by
  simp only [generateRealisticMessageContent]
  by_cases h0 : (g.Intn 3).1 = 0
  · simp only [h0, if_true]
    have hti : ((g.Intn 3).2.Intn templates.length).1 < templates.length :=
      Nat.mod_lt _ (by decide)
    obtain ⟨pre, post, hpre, _, hs⟩ := sprintf_template _ (getD_mem_of_lt templates _ hti)
      (fillers.getD (((g.Intn 3).2.Intn templates.length).2.Intn fillers.length).1 "")
    refine ⟨_, hs, ?_⟩
    intro he
    have := congrArg String.data he
    cases pre with
    | nil => exact hpre rfl
    | cons c cs => simp at this
  · simp only [h0, if_false]
    by_cases h1 : (g.Intn 3).1 = 1
    · simp only [h1, if_true]
      have hi : ((g.Intn 3).2.Intn simpleMessages.length).1 < simpleMessages.length :=
        Nat.mod_lt _ (by decide)
      exact ⟨_, rfl, literal_pools_nonempty.1 _ (getD_mem_of_lt _ _ hi)⟩
    · simp only [h1, if_false]
      have hi : ((g.Intn 3).2.Intn shortResponses.length).1 < shortResponses.length :=
        Nat.mod_lt _ (by decide)
      exact ⟨_, rfl, literal_pools_nonempty.2 _ (getD_mem_of_lt _ _ hi)⟩

set_option maxRecDepth 100000 in
/-- Each of the three branches is taken by some draw: the template branch, the
simple literal and the short literal. -/
theorem generateRealisticMessageContent_branches :
    (generateRealisticMessageContent ⟨fun k => k * 7, fun _ => 0, 0, 0⟩).1
      = some "Can't believe it's already been tomorrow" ∧
    (generateRealisticMessageContent ⟨fun k => k * 7 + 1, fun _ => 0, 0, 0⟩).1
      = some "See you later!" ∧
    (generateRealisticMessageContent ⟨fun k => k * 7 + 2, fun _ => 0, 0, 0⟩).1
      = some "💯" := by
  refine ⟨by decide, by decide, by decide⟩

/-! ## C11: generateMessagesForConversation -/

/-- The message loop issues exactly one CreateMessage call per iteration, each
for the conversation and with a sender drawn from the participants, and
counts the calls that succeeded in MessagesGenerated. -/
theorem messageLoop_trace (gw : MessageGateway) (conv : Conversation)
    (participants : List Participant) (hne : participants ≠ []) :
    ∀ (n : Nat) (s : MessageState),
      ∃ new : List (CreateMessageParams × Bool),
        (messageLoop gw conv participants n s).issued = s.issued ++ new ∧
        new.length = n ∧
        (∀ c ∈ new, c.1.ConversationID = conv.ID ∧
          ∃ p ∈ participants, c.1.SenderID = { Valid := true, Bytes := p.UserID.Bytes }) ∧
        Counted s.stats.MessagesGenerated
          (messageLoop gw conv participants n s).stats.MessagesGenerated
          ((new.filter (fun c => c.2)).length : Int) := by
  intro n
  induction n with
  | zero =>
    intro s
    exact ⟨[], by simp [messageLoop], rfl, by simp,
      by simpa [messageLoop] using counted_refl _⟩
  | succ n ih =>
    intro s
    have hlen : 0 < participants.length := List.length_pos.mpr hne
    have hidx : (s.rng.Intn participants.length).1 < participants.length := Nat.mod_lt _ hlen
    have hmem : participants.getD (s.rng.Intn participants.length).1 default ∈ participants := by
      rw [List.getD_eq_getElem _ _ hidx]
      exact List.getElem_mem _
    obtain ⟨params, hp⟩ : ∃ params : CreateMessageParams, params =
        ⟨conv.ID,
          ⟨(participants.getD (s.rng.Intn participants.length).1 default).UserID.Bytes, true⟩,
          ((generateRealisticMessageContent (s.rng.Intn participants.length).2).1).getD "",
          "text", ⟨0, false⟩⟩ := ⟨_, rfl⟩
    have hp1 : params.ConversationID = conv.ID := by rw [hp]
    have hp2 : params.SenderID =
        ⟨(participants.getD (s.rng.Intn participants.length).1 default).UserID.Bytes, true⟩ := by
      rw [hp]
    simp only [messageLoop]
    rw [← hp]
    cases hok : gw.CreateMessage s.createCalls params with
    | false =>
      simp only [Bool.not_false, if_true]
      obtain ⟨new, h1, h2, h3, h4⟩ := ih
        { s with rng := (generateRealisticMessageContent (s.rng.Intn participants.length).2).2,
                 createCalls := s.createCalls + 1,
                 issued := s.issued ++ [(params, false)] }
      refine ⟨(params, false) :: new, ?_, ?_, ?_, ?_⟩
      · rw [h1]; simp
      · simp [h2]
      · intro c hc
        rcases List.mem_cons.mp hc with h | h
        · subst h
          exact ⟨hp1, _, hmem, hp2⟩
        · exact h3 c h
      · simpa using h4
    | true =>
      simp only [Bool.not_true, Bool.false_eq_true, if_false]
      obtain ⟨new, h1, h2, h3, h4⟩ := ih
        { rng := (generateRealisticMessageContent (s.rng.Intn participants.length).2).2,
          listCalls := s.listCalls,
          createCalls := s.createCalls + 1,
          stats := s.stats.AddMessages 1,
          issued := s.issued ++ [(params, true)] }
      refine ⟨(params, true) :: new, ?_, ?_, ?_, ?_⟩
      · rw [h1]; simp
      · simp [h2]
      · intro c hc
        rcases List.mem_cons.mp hc with h | h
        · subst h
          exact ⟨hp1, _, hmem, hp2⟩
        · exact h3 c h
      · have h5 := counted_cons s.stats.MessagesGenerated _ _ 1 _ rfl h4
        rw [Int.add_comm 1] at h5
        simp only [List.filter_cons, if_true, List.length_cons]
        push_cast
        exact h5
/-- The trace of generateMessagesForConversation, whatever the Gateway answers:
the CreateMessage calls it issues are appended to the log, the calls that
succeeded are counted in MessagesGenerated, and with a nil error the returned
count is the number of calls issued. -/
theorem generateMessagesForConversation_trace (gw : MessageGateway) (conv : Conversation)
    (s : MessageState) :
    ∃ new : List (CreateMessageParams × Bool),
      (generateMessagesForConversation gw conv s).2.issued = s.issued ++ new ∧
      Counted s.stats.MessagesGenerated
        (generateMessagesForConversation gw conv s).2.stats.MessagesGenerated
        ((new.filter (fun c => c.2)).length : Int) ∧
      ((generateMessagesForConversation gw conv s).1.2 = none →
        (generateMessagesForConversation gw conv s).1.1 = (new.length : Int)) ∧
      ((generateMessagesForConversation gw conv s).1.2 ≠ none → new = []) := by
  simp only [generateMessagesForConversation]
  cases hl : gw.ListConversationParticipants s.listCalls conv.ID with
  | none => exact ⟨[], by simp, by simpa using counted_refl _, by simp, by simp⟩
  | some participants =>
    by_cases h0 : participants.length = 0
    · simp only [h0, if_true]
      exact ⟨[], by simp, by simpa using counted_refl _, by simp, by simp⟩
    · simp only [h0, if_false]
      have hne : participants ≠ [] := fun h => h0 (by rw [h]; rfl)
      obtain ⟨new, h1, h2, _, h4⟩ := messageLoop_trace gw conv participants hne
        (if conv.IsGroup then (if conv.IsGroup then s.rng.Intn 50 else s.rng.Intn 30).1 + 20
          else (if conv.IsGroup then s.rng.Intn 50 else s.rng.Intn 30).1 + 10)
        { s with listCalls := s.listCalls + 1,
                 rng := (if conv.IsGroup then s.rng.Intn 50 else s.rng.Intn 30).2 }
      exact ⟨new, h1, h4, fun _ => by rw [h2], fun h => absurd rfl h⟩

/-- C11: in generateMessagesForConversation, when the Gateway lists a non-empty
participant list the number of CreateMessage calls issued is the returned
count, it lies in [20,70) for a group and in [10,40) for a 1:1 conversation,
and the sender of each call is an element of that list; when the participant
list is empty no call is issued, no draw is made, and 0 is returned with a
nil error. -/
theorem generateMessagesForConversation_calls (gw : MessageGateway) (conv : Conversation)
    (s : MessageState) (participants : List Participant)
    (hl : gw.ListConversationParticipants s.listCalls conv.ID = some participants) :
    (participants ≠ [] →
      ∃ new : List (CreateMessageParams × Bool),
        (generateMessagesForConversation gw conv s).2.issued = s.issued ++ new ∧
        (generateMessagesForConversation gw conv s).1 = ((new.length : Int), none) ∧
        (conv.IsGroup = true → 20 ≤ new.length ∧ new.length < 70) ∧
        (conv.IsGroup = false → 10 ≤ new.length ∧ new.length < 40) ∧
        ∀ c ∈ new, c.1.ConversationID = conv.ID ∧
          ∃ p ∈ participants, c.1.SenderID = { Valid := true, Bytes := p.UserID.Bytes }) ∧
    (participants = [] →
      generateMessagesForConversation gw conv s =
        ((0, none), { s with listCalls := s.listCalls + 1 })) := by
  constructor
  · intro hne
    have h0 : ¬ participants.length = 0 := fun h => hne (List.length_eq_zero.mp h)
    simp only [generateMessagesForConversation, hl, h0, if_false]
    cases hg : conv.IsGroup with
    | true =>
      simp only [if_true]
      obtain ⟨new, h1, h2, h3, _⟩ := messageLoop_trace gw conv participants hne
        ((s.rng.Intn 50).1 + 20) { s with listCalls := s.listCalls + 1, rng := (s.rng.Intn 50).2 }
      have hd : (s.rng.Intn 50).1 < 50 := Nat.mod_lt _ (by decide)
      refine ⟨new, h1, by rw [h2], fun _ => by omega, fun h => by simp at h, h3⟩
    | false =>
      simp only [Bool.false_eq_true, if_false]
      obtain ⟨new, h1, h2, h3, _⟩ := messageLoop_trace gw conv participants hne
        ((s.rng.Intn 30).1 + 10) { s with listCalls := s.listCalls + 1, rng := (s.rng.Intn 30).2 }
      have hd : (s.rng.Intn 30).1 < 30 := Nat.mod_lt _ (by decide)
      refine ⟨new, h1, by rw [h2], fun h => by simp at h, fun _ => by omega, h3⟩
  · intro he
    subst he
    simp [generateMessagesForConversation, hl]

/-- Instance of C11 on the sample 1:1 conversation, whose participants are the
users 1 and 2: between 10 and 39 calls are issued. -/
theorem generateMessagesForConversation_calls_witness :
    sampleMessageGateway.ListConversationParticipants sampleMessageState.listCalls
        sampleConversation.ID =
      some [{ ConversationID := sampleConversation.ID, UserID := { Bytes := 1, Valid := true },
              Role := "member" },
            { ConversationID := sampleConversation.ID, UserID := { Bytes := 2, Valid := true },
              Role := "member" }] ∧
    ∃ new : List (CreateMessageParams × Bool),
      (generateMessagesForConversation sampleMessageGateway sampleConversation
        sampleMessageState).2.issued = sampleMessageState.issued ++ new ∧
      (generateMessagesForConversation sampleMessageGateway sampleConversation
        sampleMessageState).1 = ((new.length : Int), none) ∧
      10 ≤ new.length ∧ new.length < 40 := by
  refine ⟨rfl, ?_⟩
  obtain ⟨new, h1, h2, _, h4, _⟩ :=
    (generateMessagesForConversation_calls sampleMessageGateway sampleConversation
      sampleMessageState _ rfl).1 (by simp)
  exact ⟨new, h1, h2, h4 rfl⟩

/-! ## C18: the count returned by generateMessagesBatch -/

/-- A number in the int32 range is not changed by the reduction to int32. -/
theorem wrap32_of_range (x : Int) (h0 : -(2 ^ 31) ≤ x) (h1 : x < 2 ^ 31) : wrap32 x = x := by
  simp only [wrap32]
  omega

/-- The trace of a worker on one batch: the calls issued are appended to the
log, those that succeeded are counted in MessagesGenerated, and the shared
counter grows by the number of calls issued (while it stays below 2^31). -/
theorem processConversations_trace (gw : MessageGateway) :
    ∀ (convs : List Conversation) (total : Int) (s : MessageState),
      ∃ new : List (CreateMessageParams × Bool),
        (processConversations gw convs total s).2.issued = s.issued ++ new ∧
        Counted s.stats.MessagesGenerated
          (processConversations gw convs total s).2.stats.MessagesGenerated
          ((new.filter (fun c => c.2)).length : Int) ∧
        (0 ≤ total → total + (new.length : Int) < 2 ^ 31 →
          (processConversations gw convs total s).1 = total + (new.length : Int)) := by
  intro convs
  induction convs with
  | nil =>
    intro total s
    exact ⟨[], by simp [processConversations],
      by simpa [processConversations] using counted_refl _, by simp [processConversations]⟩
  | cons conv rest ih =>
    intro total s
    obtain ⟨a, a1, a2, a3, a4⟩ := generateMessagesForConversation_trace gw conv s
    simp only [processConversations]
    cases herr : (generateMessagesForConversation gw conv s).1.2 with
    | some e =>
      have ha : a = [] := a4 (by rw [herr]; simp)
      subst ha
      obtain ⟨b, b1, b2, b3⟩ := ih total (generateMessagesForConversation gw conv s).2
      refine ⟨b, ?_, ?_, ?_⟩
      · rw [b1, a1]; simp
      · simpa using counted_trans _ _ _ _ _ a2 b2
      · exact b3
    | none =>
      have hcount := a3 herr
      obtain ⟨b, b1, b2, b3⟩ := ih
        (wrap32 (total + wrap32 (generateMessagesForConversation gw conv s).1.1))
        (generateMessagesForConversation gw conv s).2
      refine ⟨a ++ b, ?_, ?_, ?_⟩
      · rw [b1, a1, List.append_assoc]
      · rw [List.filter_append, List.length_append]
        push_cast
        exact counted_trans _ _ _ _ _ a2 b2
      · intro h0 h1
        rw [List.length_append] at h1
        push_cast at h1
        have hw1 : wrap32 (generateMessagesForConversation gw conv s).1.1 = (a.length : Int) := by
          rw [hcount]
          exact wrap32_of_range _ (by omega) (by omega)
        have hw2 : wrap32 (total + (a.length : Int)) = total + (a.length : Int) :=
          wrap32_of_range _ (by omega) (by omega)
        rw [hw1, hw2] at b3
        simp only [hw1, hw2]
        rw [b3 (by omega) (by omega), List.length_append]
        push_cast
        ring

/-- The trace of the workers on all batches. -/
theorem processBatches_trace (gw : MessageGateway) :
    ∀ (batches : List (List Conversation)) (total : Int) (s : MessageState),
      ∃ new : List (CreateMessageParams × Bool),
        (processBatches gw batches total s).2.issued = s.issued ++ new ∧
        Counted s.stats.MessagesGenerated
          (processBatches gw batches total s).2.stats.MessagesGenerated
          ((new.filter (fun c => c.2)).length : Int) ∧
        (0 ≤ total → total + (new.length : Int) < 2 ^ 31 →
          (processBatches gw batches total s).1 = total + (new.length : Int)) := by
  intro batches
  induction batches with
  | nil =>
    intro total s
    exact ⟨[], by simp [processBatches], by simpa [processBatches] using counted_refl _,
      by simp [processBatches]⟩
  | cons batch rest ih =>
    intro total s
    obtain ⟨a, a1, a2, a3⟩ := processConversations_trace gw batch total s
    obtain ⟨b, b1, b2, b3⟩ := ih (processConversations gw batch total s).1
      (processConversations gw batch total s).2
    simp only [processBatches]
    refine ⟨a ++ b, ?_, ?_, ?_⟩
    · rw [b1, a1, List.append_assoc]
    · rw [List.filter_append, List.length_append]
      push_cast
      exact counted_trans _ _ _ _ _ a2 b2
    · intro h0 h1
      rw [List.length_append] at h1
      push_cast at h1
      rw [b3 (by rw [a3 h0 (by omega)]; omega) (by rw [a3 h0 (by omega)]; omega),
        a3 h0 (by omega), List.length_append]
      push_cast
      ring

/-- What generateMessagesBatch reports: for every Gateway and input, the
increase of MessagesGenerated (in the 64-bit arithmetic of a Go int) is the
number of CreateMessage calls that succeeded, while the returned total (as long as fewer than 2^31 calls are
issued) is the number of CreateMessage calls issued, failed ones included. -/
theorem generateMessagesBatch_total (gw : MessageGateway) (conversations : List Conversation)
    (targetMessages batchSize workers : Int) (stats : PopulationStats) (g : Rand) :
    Counted stats.MessagesGenerated
      (generateMessagesBatch gw conversations targetMessages batchSize workers stats
        g).state.stats.MessagesGenerated
      (((generateMessagesBatch gw conversations targetMessages batchSize workers stats
        g).state.issued.filter (fun c => c.2)).length : Int) ∧
    (((generateMessagesBatch gw conversations targetMessages batchSize workers stats
        g).state.issued.length : Int) < 2 ^ 31 →
      (generateMessagesBatch gw conversations targetMessages batchSize workers stats g).outcome
        = Outcome.returned →
      (generateMessagesBatch gw conversations targetMessages batchSize workers stats g).total =
        ((generateMessagesBatch gw conversations targetMessages batchSize workers stats
          g).state.issued.length : Int)) := by
  simp only [generateMessagesBatch]
  cases hw : makechanPanics sizeofSlice workers with
  | true => simpa using counted_refl _
  | false =>
    simp only [Bool.false_eq_true, if_false]
    cases hd : dispatchBatches conversations targetMessages batchSize g with
    | error msg => simpa using counted_refl _
    | ok v =>
      obtain ⟨batches, g2⟩ := v
      simp only
      by_cases hz : workers = 0 ∧ batches ≠ []
      · simpa [hz] using counted_refl _
      · simp only [hz, if_false]
        obtain ⟨new, h1, h2, h3⟩ := processBatches_trace gw batches 0
          { rng := g2, listCalls := 0, createCalls := 0, stats := stats, issued := [] }
        simp only [List.nil_append] at h1
        refine ⟨?_, ?_⟩
        · rw [h1]
          exact h2
        · intro hlt _
          rw [h1] at hlt ⊢
          rw [h3 (le_refl _) (by omega)]
          simp

set_option maxRecDepth 1000000 in
/-- C18 (the code fails the claim): against a Gateway that rejects every
CreateMessage call, generateMessagesBatch on the one sample conversation
returns the total 20, the number of calls it issued, although no call
succeeded and MessagesGenerated stays 0: generateMessagesForConversation
returns messageCount and not the number of messages created. -/
theorem generateMessagesBatch_counts_rejected_writes :
    (generateMessagesBatch rejectingMessageGateway [sampleConversation] 100 10 2 zeroStats
        sampleRand).outcome = Outcome.returned ∧
    (generateMessagesBatch rejectingMessageGateway [sampleConversation] 100 10 2 zeroStats
        sampleRand).err = none ∧
    (generateMessagesBatch rejectingMessageGateway [sampleConversation] 100 10 2 zeroStats
        sampleRand).total = 20 ∧
    ((generateMessagesBatch rejectingMessageGateway [sampleConversation] 100 10 2 zeroStats
        sampleRand).state.issued.filter (fun c => c.2)).length = 0 ∧
    (generateMessagesBatch rejectingMessageGateway [sampleConversation] 100 10 2 zeroStats
        sampleRand).state.stats.MessagesGenerated = 0 := by
  refine ⟨by decide, by decide, by decide, by decide, by decide⟩

/-! ## C13: failed batches of generateUsersBatch -/

/-- Answered calls have as many rows as calls. -/
theorem UserGateway.Answers.length_eq (gw : UserGateway) :
    ∀ (calls : List CreateUserParams) (earlier : List CreateUserParams) (rows : List User),
      gw.Answers earlier calls rows → rows.length = calls.length := by
  intro calls
  induction calls with
  | nil =>
    intro earlier rows h
    cases rows with
    | nil => rfl
    | cons u us => simp [UserGateway.Answers] at h
  | cons p ps ih =>
    intro earlier rows h
    cases rows with
    | nil => simp [UserGateway.Answers] at h
    | cons u us =>
      simp only [UserGateway.Answers] at h
      simp [ih _ _ h.2]

/-- Answered calls followed by answered calls are answered calls. -/
theorem UserGateway.Answers.append (gw : UserGateway) :
    ∀ (calls : List CreateUserParams) (earlier : List CreateUserParams) (rows : List User)
      (calls2 : List CreateUserParams) (rows2 : List User),
      gw.Answers earlier calls rows → gw.Answers (earlier ++ calls) calls2 rows2 →
      gw.Answers earlier (calls ++ calls2) (rows ++ rows2) := by
  intro calls
  induction calls with
  | nil =>
    intro earlier rows calls2 rows2 h1 h2
    cases rows with
    | nil => simpa using h2
    | cons u us => simp [UserGateway.Answers] at h1
  | cons p ps ih =>
    intro earlier rows calls2 rows2 h1 h2
    cases rows with
    | nil => simp [UserGateway.Answers] at h1
    | cons u us =>
      simp only [UserGateway.Answers] at h1
      simp only [List.cons_append, UserGateway.Answers]
      refine ⟨h1.1, ih _ _ _ _ h1.2 ?_⟩
      simpa [List.append_assoc] using h2

/-- Among answered calls none was rejected. -/
theorem UserGateway.Answers.no_failure (gw : UserGateway) :
    ∀ (calls : List CreateUserParams) (earlier : List CreateUserParams) (rows : List User),
      gw.Answers earlier calls rows →
      ∀ pre p post, calls = pre ++ p :: post → gw.CreateUser (earlier ++ pre) p ≠ none := by
  intro calls
  induction calls with
  | nil =>
    intro earlier rows _ pre p post h
    simp at h
  | cons q qs ih =>
    intro earlier rows h pre p post hsplit
    cases rows with
    | nil => simp [UserGateway.Answers] at h
    | cons u us =>
      simp only [UserGateway.Answers] at h
      cases pre with
      | nil =>
        simp only [List.nil_append, List.cons.injEq] at hsplit
        rw [List.append_nil, ← hsplit.1, h.1]
        simp
      | cons r rs =>
        simp only [List.cons_append, List.cons.injEq] at hsplit
        have := ih _ _ h.2 rs p post hsplit.2
        rw [← hsplit.1]
        simpa [List.append_assoc] using this

/-- The loop of generateUserBatch: the calls it issues are appended to the
history; when it returns users, it issued one call per iteration, every call
was answered with a row, and the rows were appended in order; when it returns
the error, the last call issued is the one that was rejected. -/
theorem userBatchLoop_trace (gw : UserGateway) :
    ∀ (n : Nat) (users : List User) (s : UserGenState),
      ∃ new : List CreateUserParams,
        (userBatchLoop gw n users s).2.createUserCalls = s.createUserCalls ++ new ∧
        (∀ us, (userBatchLoop gw n users s).1 = some us →
          ∃ added : List User, us = users ++ added ∧ added.length = n ∧
            gw.Answers s.createUserCalls new added) ∧
        ((userBatchLoop gw n users s).1 = none →
          ∃ pre p, new = pre ++ [p] ∧ gw.CreateUser (s.createUserCalls ++ pre) p = none) := by
  intro n
  induction n with
  | zero =>
    intro users s
    refine ⟨[], by simp [userBatchLoop], ?_, by simp [userBatchLoop]⟩
    intro us h
    simp only [userBatchLoop, Option.some.injEq] at h
    exact ⟨[], by simp [h], rfl, by simp [UserGateway.Answers]⟩
  | succ n ih =>
    intro users s
    obtain ⟨params, hp⟩ : ∃ params : CreateUserParams, params =
        ⟨(drawPhone ((s.rng.Intn professions.length).2.Intn interests.length).2).1,
          s.names s.nameCalls,
          professions.getD (s.rng.Intn professions.length).1 "" ++ " passionate about " ++
            interests.getD ((s.rng.Intn professions.length).2.Intn interests.length).1 ""⟩ :=
      ⟨_, rfl⟩
    simp only [userBatchLoop]
    rw [← hp]
    cases ha : gw.CreateUser s.createUserCalls params with
    | none =>
      simp only
      refine ⟨[params], rfl, fun us h => by simp at h, fun _ => ⟨[], params, rfl, ?_⟩⟩
      simpa using ha
    | some user =>
      simp only
      obtain ⟨new, h1, h2, h3⟩ := ih (users ++ [user])
        { s with rng := (drawPhone ((s.rng.Intn professions.length).2.Intn interests.length).2).2,
                 nameCalls := s.nameCalls + 1,
                 createUserCalls := s.createUserCalls ++ [params] }
      refine ⟨params :: new, ?_, ?_, ?_⟩
      · rw [h1]; simp
      · intro us hus
        obtain ⟨added, hadd, hlen, hans⟩ := h2 us hus
        exact ⟨user :: added, by simp [hadd], by simp [hlen], ⟨ha, hans⟩⟩
      · intro hnone
        obtain ⟨pre, p, hnew, hfail⟩ := h3 hnone
        refine ⟨params :: pre, p, by simp [hnew], ?_⟩
        simpa [List.append_assoc] using hfail

/-- The workers on the batch sizes `sent`: every batch is processed once, in
order; allUsers receives the users of the batches that returned users, and
as many are counted in UsersGenerated (in 64-bit arithmetic); such a batch returned as many users as
its size; a batch that returned the error had a rejected CreateUser call; and
when no batch returned the error, every call of the run was answered and
allUsers receives the rows in order. -/
theorem processUserBatches_trace (gw : UserGateway) :
    ∀ (sent : List Int) (s : UsersState),
      ∃ (recs : List BatchRecord) (new : List CreateUserParams),
        (processUserBatches gw sent s).processed = s.processed ++ recs ∧
        recs.map (fun r => r.size) = sent ∧
        (processUserBatches gw sent s).allUsers =
          s.allUsers ++ (recs.filterMap (fun r => r.result)).flatten ∧
        Counted s.stats.UsersGenerated (processUserBatches gw sent s).stats.UsersGenerated
          (((recs.filterMap (fun r => r.result)).flatten.length : Nat) : Int) ∧
        (∀ r ∈ recs, ∀ us, r.result = some us → us.length = r.size.toNat) ∧
        (processUserBatches gw sent s).gen.createUserCalls = s.gen.createUserCalls ++ new ∧
        (∀ r ∈ recs, r.result = none →
          ∃ earlier p later, s.gen.createUserCalls ++ new = earlier ++ p :: later ∧
            gw.CreateUser earlier p = none) ∧
        ((∀ r ∈ recs, r.result ≠ none) →
          gw.Answers s.gen.createUserCalls new (recs.filterMap (fun r => r.result)).flatten) := by
  intro sent
  induction sent with
  | nil =>
    intro s
    exact ⟨[], [], by simp [processUserBatches], rfl, by simp [processUserBatches],
      by simpa [processUserBatches] using counted_refl _, by simp,
      by simp [processUserBatches], by simp, by simp [UserGateway.Answers]⟩
  | cons b rest ih =>
    intro s
    obtain ⟨a, a1, a2, a3⟩ := userBatchLoop_trace gw b.toNat [] s.gen
    simp only [processUserBatches, generateUserBatch]
    cases hres : (userBatchLoop gw b.toNat [] s.gen).1 with
    | none =>
      simp only
      obtain ⟨pre, p, hnew, hfail⟩ := a3 hres
      obtain ⟨recs, new, h1, h2, h3, h4, h5, h6, h7, h8⟩ := ih
        { s with gen := (userBatchLoop gw b.toNat [] s.gen).2,
                 processed := s.processed ++ [{ size := b, result := none }] }
      refine ⟨⟨b, none⟩ :: recs, a ++ new, ?_, ?_, ?_, ?_, ?_, ?_, ?_, ?_⟩
      · rw [h1]; simp
      · simp [h2]
      · rw [h3]; simp
      · simpa using h4
      · intro r hr us hus
        rcases List.mem_cons.mp hr with h | h
        · subst h; simp at hus
        · exact h5 r h us hus
      · rw [h6, a1, List.append_assoc]
      · intro r hr hnone
        rcases List.mem_cons.mp hr with h | h
        · exact ⟨s.gen.createUserCalls ++ pre, p, new, by rw [hnew]; simp, hfail⟩
        · obtain ⟨earlier, q, later, he, hq⟩ := h7 r h hnone
          refine ⟨earlier, q, later, ?_, hq⟩
          rw [← he]
          simp [a1, List.append_assoc]
      · intro hall
        exact absurd rfl (hall ⟨b, none⟩ (List.mem_cons_self _ _))
    | some users =>
      simp only
      obtain ⟨added, hadd, hlen, hans⟩ := a2 users hres
      simp only [List.nil_append] at hadd
      subst hadd
      obtain ⟨recs, new, h1, h2, h3, h4, h5, h6, h7, h8⟩ := ih
        { allUsers := s.allUsers ++ users,
          stats := s.stats.AddUsers (users.length : Int),
          processed := s.processed ++ [{ size := b, result := some users }],
          gen := (userBatchLoop gw b.toNat [] s.gen).2 }
      refine ⟨⟨b, some users⟩ :: recs, a ++ new, ?_, ?_, ?_, ?_, ?_, ?_, ?_, ?_⟩
      · rw [h1]; simp
      · simp [h2]
      · rw [h3]; simp
      · have h9 := counted_cons s.stats.UsersGenerated _ _ (users.length : Int) _ rfl h4
        simp only [List.filterMap_cons, List.flatten_cons, List.length_append]
        push_cast
        exact h9
      · intro r hr us hus
        rcases List.mem_cons.mp hr with h | h
        · subst h
          simp only [Option.some.injEq] at hus
          rw [← hus, hlen]
        · exact h5 r h us hus
      · rw [h6, a1, List.append_assoc]
      · intro r hr hnone
        rcases List.mem_cons.mp hr with h | h
        · subst h; simp at hnone
        · obtain ⟨earlier, q, later, he, hq⟩ := h7 r h hnone
          refine ⟨earlier, q, later, ?_, hq⟩
          rw [← he]
          simp [a1, List.append_assoc]
      · intro hall
        have hall2 : ∀ r ∈ recs, r.result ≠ none :=
          fun r hr => hall r (List.mem_cons_of_mem _ hr)
        have h8b := h8 hall2
        simp only [a1] at h8b
        simp only [List.filterMap_cons, List.flatten_cons]
        exact UserGateway.Answers.append gw a _ users new _ hans h8b
/-- The users of the batches that returned users are as many as the sizes of
these batches add up to, when every such batch returned as many users as its
non-negative size. -/
theorem batch_users_length (recs : List BatchRecord)
    (h : ∀ r ∈ recs, ∀ us, r.result = some us → ((us.length : Nat) : Int) = r.size) :
    (((recs.filterMap (fun r => r.result)).flatten.length : Nat) : Int) =
      ((recs.filter (fun r => r.result.isSome)).map (fun r => r.size)).sum := by
  induction recs with
  | nil => simp
  | cons r rs ih =>
    have ih2 := ih (fun r2 hr2 => h r2 (List.mem_cons_of_mem _ hr2))
    cases hr : r.result with
    | none =>
      simp only [List.filterMap_cons, hr, List.filter_cons, Option.isSome_none,
        Bool.false_eq_true, if_false]
      exact ih2
    | some us =>
      have hs := h r (List.mem_cons_self _ _) us hr
      simp only [List.filterMap_cons, hr, List.filter_cons, Option.isSome_some, if_true,
        List.flatten_cons, List.length_append, List.map_cons, List.sum_cons]
      push_cast
      rw [ih2, hs]

/-- C13 (the claim as stated fails): whether a batch is processed at all
depends on the worker count.  With Users = 2, BatchSize = 1 and no worker the
producer blocks at the first send, so for every fuel the run does not return
and no batch is processed; with 2^60 workers make(chan int, workers) panics
before anything is queued.  In both runs no CreateUser call fails, and the two
batches are never processed. -/
theorem user_batches_need_a_worker :
    (∀ fuel : Nat,
      (generateUsersBatch fuel uniquePhoneGateway 2 1 0 zeroStats sampleRand
        sampleNames).outcome ≠ Outcome.returned ∧
      (generateUsersBatch fuel uniquePhoneGateway 2 1 0 zeroStats sampleRand
        sampleNames).state.processed = []) ∧
    (∀ fuel : Nat,
      (generateUsersBatch fuel uniquePhoneGateway 2 1 (2 ^ 60) zeroStats sampleRand
        sampleNames).outcome = Outcome.panicked "makechan: size out of range" ∧
      (generateUsersBatch fuel uniquePhoneGateway 2 1 (2 ^ 60) zeroStats sampleRand
        sampleNames).state.processed = []) ∧
    queueUserBatches 2 2 1 = some [1, 1] := by
  have h0 : makechanPanics sizeofInt 0 = false := by decide
  have h60 : makechanPanics sizeofInt (2 ^ 60) = true := by decide
  refine ⟨?_, ?_, by decide⟩
  · intro fuel
    simp only [generateUsersBatch, h0, Bool.false_eq_true, if_false]
    cases hq : queueUserBatches fuel 2 1 with
    | none => exact ⟨by simp, rfl⟩
    | some sent =>
      have hne : sent ≠ [] := by
        intro he
        subst he
        cases fuel with
        | zero => simp [queueUserBatches] at hq
        | succ n => simp [queueUserBatches] at hq
      simp [hne]
  · intro fuel
    simp only [generateUsersBatch, h60, if_true, and_self]

/-- C13 (amended): in generateUsersBatch with N >= 0, B >= 1 and a worker count
W >= 1 that make(chan int, W) accepts, for any Gateway, a failed batch is
skipped without aborting or retrying.  The run returns with a nil
error; the batches processed are exactly the batches queued, each once; the
returned slice consists of the users of the batches that returned users, and
a batch that returned users returned as many as its size; a batch returned
the error only if one of the CreateUser calls was rejected, and if no batch
returned the error then no call of the run was rejected; the length of the
returned slice is the sum of the sizes of the batches without failure, and
UsersGenerated has grown by it in the 64-bit arithmetic of a Go int, which is
the exact increase when the counter held an int64 value and does not pass
2^63 - 1. -/
theorem failed_user_batches_are_skipped (gw : UserGateway) (N B W : Int) (hN : 0 ≤ N)
    (hB : 1 ≤ B) (hW : 1 ≤ W) (hWm : makechanPanics sizeofInt W = false) (fuel : Nat)
    (hf : N.toNat ≤ fuel) (stats : PopulationStats) (g : Rand) (names : Nat → String) :
    (generateUsersBatch fuel gw N B W stats g names).outcome = Outcome.returned ∧
    (generateUsersBatch fuel gw N B W stats g names).err = none ∧
    queueUserBatches fuel N B =
      some ((generateUsersBatch fuel gw N B W stats g names).state.processed.map
        (fun r => r.size)) ∧
    (generateUsersBatch fuel gw N B W stats g names).state.allUsers =
      ((generateUsersBatch fuel gw N B W stats g names).state.processed.filterMap
        (fun r => r.result)).flatten ∧
    (∀ r ∈ (generateUsersBatch fuel gw N B W stats g names).state.processed,
      ∀ us, r.result = some us → ((us.length : Nat) : Int) = r.size) ∧
    (∀ r ∈ (generateUsersBatch fuel gw N B W stats g names).state.processed,
      r.result = none →
      ∃ earlier p later,
        (generateUsersBatch fuel gw N B W stats g names).state.gen.createUserCalls =
          earlier ++ p :: later ∧ gw.CreateUser earlier p = none) ∧
    ((∀ r ∈ (generateUsersBatch fuel gw N B W stats g names).state.processed,
        r.result ≠ none) →
      ∀ earlier p later,
        (generateUsersBatch fuel gw N B W stats g names).state.gen.createUserCalls =
          earlier ++ p :: later → gw.CreateUser earlier p ≠ none) ∧
    (wrap64 (generateUsersBatch fuel gw N B W stats g names).state.stats.UsersGenerated =
        wrap64 (stats.UsersGenerated +
          (((generateUsersBatch fuel gw N B W stats g names).state.allUsers.length : Nat)
            : Int)) ∧
      (IsInt64 stats.UsersGenerated →
        stats.UsersGenerated +
          (((generateUsersBatch fuel gw N B W stats g names).state.allUsers.length : Nat)
            : Int) < 2 ^ 63 →
        (((generateUsersBatch fuel gw N B W stats g names).state.allUsers.length : Nat) : Int) =
          (generateUsersBatch fuel gw N B W stats g names).state.stats.UsersGenerated
            - stats.UsersGenerated)) ∧
    (((generateUsersBatch fuel gw N B W stats g names).state.allUsers.length : Nat) : Int) =
      (((generateUsersBatch fuel gw N B W stats g names).state.processed.filter
        (fun r => r.result.isSome)).map (fun r => r.size)).sum := by
  obtain ⟨sent, hq, _, hmem, _, _⟩ := queueUserBatches_props B hB N.toNat N hN (le_refl _)
  have hq2 := queueUserBatches_mono B _ _ _ hq fuel hf
  obtain ⟨recs, new, h1, h2, h3, h4, h5, h6, h7, h8⟩ := processUserBatches_trace gw sent
    { allUsers := [], stats := stats, processed := [],
      gen := { rng := g, names := names, nameCalls := 0, createUserCalls := [] } }
  have hw1 := hWm
  have hw2 : ¬ (W = 0 ∧ sent ≠ []) := fun h => by omega
  simp only [List.nil_append] at h1 h3 h6 h7 h8
  have hsize : ∀ r ∈ recs, ∀ us, r.result = some us → ((us.length : Nat) : Int) = r.size := by
    intro r hr us hus
    have hpos : 1 ≤ r.size := by
      have : r.size ∈ sent := by
        rw [← h2]
        exact List.mem_map_of_mem _ hr
      exact (hmem _ this).1
    rw [h5 r hr us hus]
    omega
  simp only [generateUsersBatch, hw1, Bool.false_eq_true, if_false, hq2, hw2]
  refine ⟨trivial, trivial, ?_, ?_, ?_, ?_, ?_, ?_, ?_⟩
  · rw [h1, h2]
  · rw [h3, h1]
  · rw [h1]; exact hsize
  · rw [h1, h6]; exact h7
  · rw [h1, h6]
    intro hall earlier p later hsplit
    have := UserGateway.Answers.no_failure gw new [] _ (h8 hall) earlier p later hsplit
    simpa using this
  · rw [h3]
    dsimp only at h4
    refine ⟨h4.1, ?_⟩
    intro hin hlt
    have h9 := counted_exact _ _ _ h4 hin
      ⟨by simp only [IsInt64] at hin; omega, hlt⟩
    rw [h9]
    ring
  · rw [h3, h1]
    exact batch_users_length recs hsize

/-- Instance of the amended C13: two users in batches of one against the Gateway that
enforces unique phone numbers, with draws that give both the same phone
number; the second batch fails and is skipped. -/
theorem failed_user_batches_are_skipped_witness :
    (0 : Int) ≤ 2 ∧ (1 : Int) ≤ 1 ∧ makechanPanics sizeofInt 1 = false ∧
    (2 : Int).toNat ≤ 2 ∧
    (generateUsersBatch 2 uniquePhoneGateway 2 1 1 zeroStats
        ⟨fun _ => 1, fun _ => 0, 0, 0⟩ sampleNames).state.processed.map
      (fun r => (r.size, r.result.isSome)) = [(1, true), (1, false)] ∧
    (((generateUsersBatch 2 uniquePhoneGateway 2 1 1 zeroStats
        ⟨fun _ => 1, fun _ => 0, 0, 0⟩ sampleNames).state.allUsers.length : Nat) : Int) =
      (((generateUsersBatch 2 uniquePhoneGateway 2 1 1 zeroStats
        ⟨fun _ => 1, fun _ => 0, 0, 0⟩ sampleNames).state.processed.filter
        (fun r => r.result.isSome)).map (fun r => r.size)).sum :=
  ⟨by decide, by decide, by decide, by decide, by decide,
    (failed_user_batches_are_skipped uniquePhoneGateway 2 1 1 (by decide) (by decide)
      (by decide) (by decide) 2 (by decide) zeroStats ⟨fun _ => 1, fun _ => 0, 0, 0⟩
      sampleNames).2.2.2.2.2.2.2.2⟩

/-! ## C14: generateUsersBatch against a Gateway with unique phone numbers -/

/-- The rows with which the Gateway that enforces unique phone numbers
answers calls carry the phone numbers of the calls. -/
theorem uniquePhoneGateway_answers_phones :
    ∀ (calls : List CreateUserParams) (earlier : List CreateUserParams) (rows : List User),
      uniquePhoneGateway.Answers earlier calls rows →
      rows.map (fun u => u.PhoneNumber) = calls.map (fun p => p.PhoneNumber) := by
  intro calls
  induction calls with
  | nil =>
    intro earlier rows h
    cases rows with
    | nil => rfl
    | cons u us => simp [UserGateway.Answers] at h
  | cons p ps ih =>
    intro earlier rows h
    cases rows with
    | nil => simp [UserGateway.Answers] at h
    | cons u us =>
      simp only [UserGateway.Answers] at h
      have hu : u.PhoneNumber = p.PhoneNumber := by
        have h1 := h.1
        simp only [uniquePhoneGateway] at h1
        split at h1
        · simp at h1
        · simp only [Option.some.injEq] at h1
          rw [← h1]
      simp only [List.map_cons, hu, ih _ _ h.2]

/-- The Gateway that enforces unique phone numbers rejects a call only if its
phone number was submitted before. -/
theorem uniquePhoneGateway_rejects (earlier : List CreateUserParams) (p : CreateUserParams)
    (h : uniquePhoneGateway.CreateUser earlier p = none) :
    p.PhoneNumber ∈ earlier.map (fun q => q.PhoneNumber) := by
  simp only [uniquePhoneGateway] at h
  split at h
  · assumption
  · simp at h

/-- C14 (the claim as stated fails): with Users = 2, BatchSize = 1, Workers = 1
and draws that give both users the phone number +447000000001, the Gateway
that enforces unique phone numbers rejects the second CreateUser call; the
run returns one user and UsersGenerated is 1, not 2. -/
theorem colliding_phone_numbers_lose_a_user :
    (generateUsersBatch 2 uniquePhoneGateway 2 1 1 zeroStats
        ⟨fun _ => 1, fun _ => 0, 0, 0⟩ sampleNames).outcome = Outcome.returned ∧
    (generateUsersBatch 2 uniquePhoneGateway 2 1 1 zeroStats
        ⟨fun _ => 1, fun _ => 0, 0, 0⟩ sampleNames).state.gen.createUserCalls.map
      (fun p => p.PhoneNumber) = ["+447000000001", "+447000000001"] ∧
    (generateUsersBatch 2 uniquePhoneGateway 2 1 1 zeroStats
        ⟨fun _ => 1, fun _ => 0, 0, 0⟩ sampleNames).state.allUsers.map
      (fun u => u.PhoneNumber) = ["+447000000001"] ∧
    (generateUsersBatch 2 uniquePhoneGateway 2 1 1 zeroStats
        ⟨fun _ => 1, fun _ => 0, 0, 0⟩ sampleNames).state.stats.UsersGenerated = 1 ∧
    (generateUsersBatch 2 uniquePhoneGateway 2 1 1 zeroStats
        ⟨fun _ => 1, fun _ => 0, 0, 0⟩ sampleNames).state.allUsers.length ≠ 2 := by
  refine ⟨by decide, by decide, by decide, by decide, by decide⟩

/-- C14 (amended): for every N >= 0, B >= 1 and every worker count W >= 1 that
make(chan int, W) accepts, a run of generateUsersBatch
against the Gateway that enforces unique phone numbers in which the phone
numbers drawn for the CreateUser calls are pairwise distinct issues exactly N
calls, none is rejected, and it returns N users with pairwise distinct phone
numbers and increases UsersGenerated by N: in the 64-bit arithmetic of a Go
int, and to exactly the old value plus N when the counter held an int64 value
and the sum does not pass 2^63 - 1. -/
theorem distinct_phone_numbers_give_all_users (N B W : Int) (hN : 0 ≤ N) (hB : 1 ≤ B)
    (hW : 1 ≤ W) (hWm : makechanPanics sizeofInt W = false) (fuel : Nat)
    (hf : N.toNat ≤ fuel) (stats : PopulationStats) (g : Rand)
    (names : Nat → String)
    (hd : ((generateUsersBatch fuel uniquePhoneGateway N B W stats g
      names).state.gen.createUserCalls.map (fun p => p.PhoneNumber)).Nodup) :
    (generateUsersBatch fuel uniquePhoneGateway N B W stats g names).outcome
      = Outcome.returned ∧
    (((generateUsersBatch fuel uniquePhoneGateway N B W stats g
      names).state.gen.createUserCalls.length : Nat) : Int) = N ∧
    (((generateUsersBatch fuel uniquePhoneGateway N B W stats g
      names).state.allUsers.length : Nat) : Int) = N ∧
    ((generateUsersBatch fuel uniquePhoneGateway N B W stats g names).state.allUsers.map
      (fun u => u.PhoneNumber)).Nodup ∧
    wrap64
      (generateUsersBatch fuel uniquePhoneGateway N B W stats g names).state.stats.UsersGenerated
      = wrap64 (stats.UsersGenerated + N) ∧
    (IsInt64 stats.UsersGenerated → stats.UsersGenerated + N < 2 ^ 63 →
      (generateUsersBatch fuel uniquePhoneGateway N B W stats g names).state.stats.UsersGenerated
        = stats.UsersGenerated + N) := by
  obtain ⟨sent, hq, _, hmem, _, hsum⟩ := queueUserBatches_props B hB N.toNat N hN (le_refl _)
  have hq2 := queueUserBatches_mono B _ _ _ hq fuel hf
  obtain ⟨recs, new, h1, h2, h3, h4, h5, h6, h7, h8⟩ :=
    processUserBatches_trace uniquePhoneGateway sent
      { allUsers := [], stats := stats, processed := [],
        gen := { rng := g, names := names, nameCalls := 0, createUserCalls := [] } }
  have hw1 := hWm
  have hw2 : ¬ (W = 0 ∧ sent ≠ []) := fun h => by omega
  simp only [List.nil_append] at h1 h3 h6 h7 h8
  simp only [generateUsersBatch, hw1, Bool.false_eq_true, if_false, hq2, hw2] at hd ⊢
  rw [h6] at hd
  have hall : ∀ r ∈ recs, r.result ≠ none := by
    intro r hr hnone
    obtain ⟨earlier, p, later, hsplit, hfail⟩ := h7 r hr hnone
    have hin := uniquePhoneGateway_rejects earlier p hfail
    rw [hsplit, List.map_append, List.map_cons, List.nodup_append] at hd
    exact hd.2.2 hin (List.mem_cons_self _ _)
  have hans := h8 hall
  have hphones := uniquePhoneGateway_answers_phones new [] _ hans
  have hlen := UserGateway.Answers.length_eq uniquePhoneGateway new [] _ hans
  have hsize : ∀ r ∈ recs, ∀ us, r.result = some us → ((us.length : Nat) : Int) = r.size := by
    intro r hr us hus
    have hpos : 1 ≤ r.size := by
      have : r.size ∈ sent := by
        rw [← h2]
        exact List.mem_map_of_mem _ hr
      exact (hmem _ this).1
    rw [h5 r hr us hus]
    omega
  have hfilter : recs.filter (fun r => r.result.isSome) = recs := by
    rw [List.filter_eq_self]
    intro r hr
    cases hres : r.result with
    | none => exact absurd hres (hall r hr)
    | some us => rfl
  have htotal : (((recs.filterMap (fun r => r.result)).flatten.length : Nat) : Int) = N := by
    rw [batch_users_length recs hsize, hfilter, h2, hsum]
  rw [htotal] at h4
  dsimp only at h4
  refine ⟨trivial, ?_, ?_, ?_, h4.1, ?_⟩
  · rw [h6, ← hlen, htotal]
  · rw [h3, htotal]
  · rw [h3, hphones]
    exact hd
  · intro hin hlt
    exact counted_exact _ _ _ h4 hin ⟨by simp only [IsInt64] at hin; omega, hlt⟩

/-- Instance of the amended C14: two users in batches of one with the sample
draws, whose two phone numbers differ. -/
theorem distinct_phone_numbers_give_all_users_witness :
    (0 : Int) ≤ 2 ∧ (1 : Int) ≤ 1 ∧ makechanPanics sizeofInt 1 = false ∧
    (2 : Int).toNat ≤ 2 ∧
    ((generateUsersBatch 2 uniquePhoneGateway 2 1 1 zeroStats sampleRand
      sampleNames).state.gen.createUserCalls.map (fun p => p.PhoneNumber)).Nodup ∧
    (((generateUsersBatch 2 uniquePhoneGateway 2 1 1 zeroStats sampleRand
      sampleNames).state.allUsers.length : Nat) : Int) = 2 ∧
    ((generateUsersBatch 2 uniquePhoneGateway 2 1 1 zeroStats sampleRand
      sampleNames).state.allUsers.map (fun u => u.PhoneNumber)).Nodup :=
  ⟨by decide, by decide, by decide, by decide, by decide,
    (distinct_phone_numbers_give_all_users 2 1 1 (by decide) (by decide) (by decide)
      (by decide) 2 (by decide) zeroStats sampleRand sampleNames (by decide)).2.2.1,
    (distinct_phone_numbers_give_all_users 2 1 1 (by decide) (by decide) (by decide)
      (by decide) 2 (by decide) zeroStats sampleRand sampleNames (by decide)).2.2.2.1⟩

/-! ## C12: record-level failures and the returned error -/

/-- With a non-empty user list the group phase returns as soon as the fuel
covers the groups still to create and the CreateConversation calls that can
still fail, when all calls from the K-th on succeed. -/
theorem groupLoop_returns (gw : Gateway) (users : List User) (groupCount : Int) (K : Nat)
    (hu : users ≠ []) (hK : ∀ k p, K ≤ k → (gw.CreateConversation k p).isSome = true) :
    ∀ (fuel : Nat) (gc : Int) (s : ConvState),
      (groupCount - gc).toNat + (K - s.createCalls) ≤ fuel →
      (groupLoop gw users groupCount fuel gc s).1 = Outcome.returned := by
  intro fuel
  induction fuel with
  | zero =>
    intro gc s hf
    have : ¬ gc < groupCount := by omega
    simp [groupLoop, this]
  | succ fuel ih =>
    intro gc s hf
    by_cases hlt : gc < groupCount
    · simp only [groupLoop, hlt, if_true]
      split
      · rename_i hnil
        exfalso
        have hlen := congrArg List.length hnil
        have hp := (shuffle_perm users (s.rng.Intn 8).2).length_eq
        have hpos : 0 < users.length := List.length_pos.mpr hu
        rw [List.length_take, hp] at hlen
        simp only [List.length_nil] at hlen
        split at hlen <;> omega
      · rename_i first others hgm
        cases ha : gw.CreateConversation s.createCalls
            ⟨true, some (groupNames.getD
              ((shuffle users (s.rng.Intn 8).2).2.Intn groupNames.length).1 ""),
              ⟨first.ID.Bytes, true⟩⟩ with
        | none =>
          simp only
          have hc : s.createCalls < K := by
            by_contra hge
            have hsome := hK s.createCalls
              ⟨true, some (groupNames.getD
                ((shuffle users (s.rng.Intn 8).2).2.Intn groupNames.length).1 ""),
                ⟨first.ID.Bytes, true⟩⟩ (by omega)
            rw [ha] at hsome
            simp at hsome
          exact ih _ _ (by simp only; omega)
        | some conv =>
          simp only
          exact ih _ _ (by simp only; omega)
    · simp [groupLoop, hlt]

/-- While CreateConversation keeps failing, a group phase that still has a
group to create never returns. -/
theorem groupLoop_never_returns (gw : Gateway) (users : List User) (groupCount : Int)
    (hall : ∀ k p, gw.CreateConversation k p = none) :
    ∀ (fuel : Nat) (gc : Int) (s : ConvState), gc < groupCount →
      (groupLoop gw users groupCount fuel gc s).1 ≠ Outcome.returned := by
  intro fuel
  induction fuel with
  | zero =>
    intro gc s hlt
    simp [groupLoop, hlt]
  | succ fuel ih =>
    intro gc s hlt
    simp only [groupLoop, hlt, if_true]
    split
    · simp
    · simp only [hall]
      exact ih _ _ hlt

/-- C12 (the claim as stated fails): against a Gateway on which every
CreateConversation call fails, generateConversationsOptimized with three
users and a request of five conversations (1:1 target 4, one group to create)
does not return for any fuel: the group phase retries forever. -/
theorem rejected_group_creation_never_returns :
    ¬ ∃ fuel : Nat, (generateConversationsOptimized fuel rejectingGateway (sampleUsers 3) 5
        zeroStats sampleRand).outcome = Outcome.returned := by
  rintro ⟨fuel, h⟩
  simp only [generateConversationsOptimized] at h
  have ht : oneOnOneTarget 5 = 4 := by decide
  rw [ht] at h
  exact groupLoop_never_returns rejectingGateway (sampleUsers 3) (5 - 4) (fun _ _ => rfl)
    fuel 0 _ (by decide) h
/-- C12 (amended): record-level Gateway failures never produce a non-nil error.
Let B >= 1 and W >= 1 be sizes that make accepts: B for the slice of
conversations, W for the channel of ints and for the channel of slices.  For every behaviour of the Gateway,
generateUsersBatch (N >= 0) returns with a nil error after processing every
batch it queued, generateContactsOptimized returns with a nil error after the
iteration of every user, and generateMessagesBatch returns with a nil error
after dispatching every conversation, on every input on which its dispatcher
completes (a non-empty list and a target of at least twice the number of
conversations).  generateConversationsOptimized,
whose only return statement returns a nil error, returns for a non-empty user
list once the fuel covers the groups to create and the CreateConversation
calls that fail, provided only the calls before the K-th can fail. -/
theorem record_failures_give_nil_error (ugw : UserGateway) (gw : Gateway)
    (mgw : MessageGateway) (N B W : Int) (hN : 0 ≤ N) (hB : 1 ≤ B) (hW : 1 ≤ W)
    (hBm : makeslicePanics sizeofConversation B = false)
    (hWu : makechanPanics sizeofInt W = false) (hWm : makechanPanics sizeofSlice W = false)
    (users : List User) (hu : users ≠ []) (T : Int) (K : Nat)
    (hK : ∀ k p, K ≤ k → (gw.CreateConversation k p).isSome = true)
    (conversations : List Conversation) (hc : conversations ≠ []) (targetMessages : Int)
    (hT : 0 < Int.tdiv (Int.tdiv targetMessages (conversations.length : Int)) 2)
    (stats : PopulationStats) (g : Rand) (names : Nat → String) :
    (∀ fuel, N.toNat ≤ fuel →
      (generateUsersBatch fuel ugw N B W stats g names).outcome = Outcome.returned ∧
      (generateUsersBatch fuel ugw N B W stats g names).err = none ∧
      queueUserBatches fuel N B =
        some ((generateUsersBatch fuel ugw N B W stats g names).state.processed.map
          (fun r => r.size))) ∧
    ((generateContactsOptimized gw users stats g).err = none ∧
      (generateContactsOptimized gw users stats g).perOwner.map Prod.fst = users) ∧
    (∀ fuel, (T - oneOnOneTarget T).toNat + K ≤ fuel →
      (generateConversationsOptimized fuel gw users T stats g).outcome = Outcome.returned) ∧
    ((generateMessagesBatch mgw conversations targetMessages B W stats g).outcome
        = Outcome.returned ∧
      (generateMessagesBatch mgw conversations targetMessages B W stats g).err = none ∧
      (generateMessagesBatch mgw conversations targetMessages B W stats g).batches.flatten
        = conversations) := by
  have hw1 := hWm
  have hw3 := hWu
  have hBm2 : sizeofConversation * B ≤ maxAlloc := by
    simp only [makeslicePanics, Bool.or_eq_false_iff, decide_eq_false_iff_not, not_lt] at hBm
    exact hBm.2
  refine ⟨?_, ⟨rfl, ?_⟩, ?_, ?_⟩
  · intro fuel hf
    obtain ⟨sent, hq, _⟩ := queueUserBatches_props B hB N.toNat N hN (le_refl _)
    have hq2 := queueUserBatches_mono B _ _ _ hq fuel hf
    have hw2 : ¬ (W = 0 ∧ sent ≠ []) := fun h => by omega
    obtain ⟨recs, new, h1, h2, _⟩ := processUserBatches_trace ugw sent
      { allUsers := [], stats := stats, processed := [],
        gen := { rng := g, names := names, nameCalls := 0, createUserCalls := [] } }
    simp only [generateUsersBatch, hw3, Bool.false_eq_true, if_false, hq2, hw2, true_and]
    rw [h1, List.nil_append, h2]
  · simp only [generateContactsOptimized]
    exact contactsLoop_owners gw users users _
  · intro fuel hf
    simp only [generateConversationsOptimized]
    exact groupLoop_returns gw users _ K hu hK fuel 0 _ (by omega)
  · obtain ⟨out, g2, hd, hfl, _⟩ :=
      dispatchBatches_chunks conversations targetMessages B g hc hB hBm2 hT
    have hw2 : ¬ (W = 0 ∧ out ≠ []) := fun h => by omega
    simp only [generateMessagesBatch, hw1, Bool.false_eq_true, if_false, hd, hw2, true_and]
    exact hfl

/-- Instance of the amended C12: a Gateway whose first two CreateConversation
calls fail and a message Gateway that rejects every CreateMessage call; all
four generators return. -/
theorem record_failures_give_nil_error_witness :
    (0 : Int) ≤ 2 ∧ (1 : Int) ≤ 1 ∧ makeslicePanics sizeofConversation 1 = false ∧
    makechanPanics sizeofInt 1 = false ∧ makechanPanics sizeofSlice 1 = false ∧
    sampleUsers 3 ≠ [] ∧
    (∀ k p, 2 ≤ k → (flakyGateway.CreateConversation k p).isSome = true) ∧
    [sampleConversation] ≠ [] ∧
    (0 : Int) < Int.tdiv (Int.tdiv 100 (([sampleConversation].length : Nat) : Int)) 2 ∧
    (generateConversationsOptimized 3 flakyGateway (sampleUsers 3) 5 zeroStats
      sampleRand).outcome = Outcome.returned ∧
    (generateMessagesBatch rejectingMessageGateway [sampleConversation] 100 1 1 zeroStats
      sampleRand).outcome = Outcome.returned ∧
    (generateMessagesBatch rejectingMessageGateway [sampleConversation] 100 1 1 zeroStats
      sampleRand).err = none := by
  have hK : ∀ k p, 2 ≤ k → (flakyGateway.CreateConversation k p).isSome = true := by
    intro k p hk
    have : ¬ k < 2 := by omega
    simp [flakyGateway, sampleGateway, this]
  have h := record_failures_give_nil_error uniquePhoneGateway flakyGateway
    rejectingMessageGateway 2 1 1 (by decide) (by decide) (by decide) (by decide) (by decide)
    (by decide) (sampleUsers 3) (by decide) 5 2 hK [sampleConversation] (by simp) 100
    (by decide) zeroStats sampleRand sampleNames
  exact ⟨by decide, by decide, by decide, by decide, by decide, by decide, hK, by simp,
    by decide,
    h.2.2.1 3 (by decide), h.2.2.2.1, h.2.2.2.2.1⟩

/-! ## C15: the Stats Aggregator -/

/-- A whole call is the read of its counter followed by the write of the sum. -/
theorem PopulationStats.apply_eq_write (s : PopulationStats) (op : StatsOp) :
    s.apply op = op.write s (wrap64 (op.read s + op.arg)) := by
  cases op <;> rfl

/-- Applying one more call after a sequence of calls. -/
theorem PopulationStats.applyAll_append (s : PopulationStats) (ops : List StatsOp)
    (op : StatsOp) : s.applyAll (ops ++ [op]) = (s.applyAll ops).apply op := by
  simp [PopulationStats.applyAll, List.foldl_append]

/-- Replacing a goroutine by one with the same pending calls does not change
the pending calls of the system. -/
theorem pending_set_same (l : List StatsThread) (i : Nat) (t t2 : StatsThread)
    (ht : l[i]? = some t) (hp : t2.pending = t.pending) :
    (l.set i t2).map StatsThread.pending = l.map StatsThread.pending := by
  induction l generalizing i with
  | nil => simp
  | cons x xs ih =>
    cases i with
    | zero =>
      simp only [List.getElem?_cons_zero, Option.some.injEq] at ht
      subst ht
      simp [hp]
    | succ n =>
      simp only [List.getElem?_cons_succ] at ht
      simp [ih n ht]

/-- When a goroutine writes, its call leaves the pending calls of the system. -/
theorem pending_set_cons (l : List StatsThread) (i : Nat) (t t2 : StatsThread) (op : StatsOp)
    (rest : List StatsOp) (ht : l[i]? = some t) (hp : t.pending = op :: rest)
    (hp2 : t2.pending = rest) :
    (op :: ((l.set i t2).map StatsThread.pending).flatten).Perm
      ((l.map StatsThread.pending).flatten) := by
  induction l generalizing i with
  | nil => simp at ht
  | cons x xs ih =>
    cases i with
    | zero =>
      simp only [List.getElem?_cons_zero, Option.some.injEq] at ht
      subst ht
      simp [hp, hp2]
    | succ n =>
      simp only [List.getElem?_cons_succ] at ht
      have h := ih n ht
      simp only [List.set_cons_succ, List.map_cons, List.flatten_cons]
      exact List.perm_middle.symm.trans (List.Perm.append_left _ h)

/-- The invariant after the goroutine i has been replaced, when no other
goroutine is inside a call. -/
theorem StatsSystem.Inv.update (s0 : PopulationStats) (all : List StatsOp)
    (threads : List StatsThread) (i : Nat) (t t2 : StatsThread) (st2 : PopulationStats)
    (lk2 : Bool) (done2 : List StatsOp) (ht : threads[i]? = some t)
    (hidle : ∀ (j : Nat) (u : StatsThread), j ≠ i → threads[j]? = some u → u.pc = 0)
    (ha : st2 = s0.applyAll done2)
    (hb : (done2 ++ ((threads.set i t2).map StatsThread.pending).flatten).Perm all)
    (hc : t2.pc ≤ 3)
    (hd : t2.pc ≠ 0 → t2.calls ≠ [] ∧ lk2 = true)
    (he : ∀ (op : StatsOp) (rest : List StatsOp), t2.pc = 2 → t2.calls = op :: rest →
      t2.tmp = op.read st2)
    (hg : lk2 = true → t2.pc ≠ 0) :
    StatsSystem.Inv s0 all { stats := st2, locked := lk2, threads := threads.set i t2 }
      done2 := by
  have hlt : i < threads.length := (List.getElem?_eq_some_iff.mp ht).1
  have hcases : ∀ (j : Nat) (u : StatsThread), (threads.set i t2)[j]? = some u →
      (j = i ∧ u = t2) ∨ (j ≠ i ∧ u.pc = 0) := by
    intro j u hu
    rw [List.getElem?_set] at hu
    by_cases hij : i = j
    · rw [if_pos hij, if_pos hlt] at hu
      exact Or.inl ⟨hij.symm, (Option.some.inj hu).symm⟩
    · rw [if_neg hij] at hu
      exact Or.inr ⟨fun h => hij h.symm, hidle j u (fun h => hij h.symm) hu⟩
  refine ⟨ha, hb, ?_, ?_, ?_, ?_, ?_⟩
  · intro j u hu
    rcases hcases j u hu with ⟨_, rfl⟩ | ⟨_, h0⟩
    · exact hc
    · omega
  · intro j u hu hne
    rcases hcases j u hu with ⟨_, rfl⟩ | ⟨_, h0⟩
    · exact hd hne
    · exact absurd h0 hne
  · intro j u op rest hu h2 hcalls
    rcases hcases j u hu with ⟨_, rfl⟩ | ⟨_, h0⟩
    · exact he op rest h2 hcalls
    · omega
  · intro j k tj tk hj hk hnj hnk
    rcases hcases j tj hj with ⟨rfl, _⟩ | ⟨_, h0⟩
    · rcases hcases k tk hk with ⟨rfl, _⟩ | ⟨_, h1⟩
      · rfl
      · exact absurd h1 hnk
    · exact absurd h0 hnj
  · intro hl
    exact ⟨i, t2, List.getElem?_set_self hlt, hg hl⟩

/-- Every step of every goroutine keeps the invariant. -/
theorem StatsSystem.Inv.step {s0 : PopulationStats} {all : List StatsOp} {sys : StatsSystem}
    {done : List StatsOp} (h : StatsSystem.Inv s0 all sys done) (i : Nat) :
    ∃ done2, StatsSystem.Inv s0 all (sys.step i) done2 := by
  cases ht : sys.threads[i]? with
  | none =>
    refine ⟨done, ?_⟩
    simp only [StatsSystem.step, ht]
    exact h
  | some t =>
    cases hcalls : t.calls with
    | nil =>
      refine ⟨done, ?_⟩
      simp only [StatsSystem.step, ht, hcalls]
      exact h
    | cons op rest =>
      simp only [StatsSystem.step, ht, hcalls]
      by_cases h0 : t.pc = 0
      · simp only [h0, if_true]
        cases hl : sys.locked with
        | true =>
          simp only [if_true]
          exact ⟨done, h⟩
        | false =>
          simp only [Bool.false_eq_true, if_false]
          have hidle : ∀ (j : Nat) (u : StatsThread), j ≠ i → sys.threads[j]? = some u →
              u.pc = 0 := by
            intro j u _ hu
            by_contra hne
            have := (h.active j u hu hne).2
            rw [hl] at this
            exact absurd this (by decide)
          refine ⟨done, StatsSystem.Inv.update s0 all sys.threads i t ⟨op :: rest, 1, t.tmp⟩ sys.stats
            true done ht hidle h.stats_eq ?_ (by simp) (by simp) (by simp) (by simp)⟩
          rw [pending_set_same sys.threads i t _ ht
            (by simp [StatsThread.pending, h0, hcalls])]
          exact h.perm
      · have hact := h.active i t ht h0
        have hidle : ∀ (j : Nat) (u : StatsThread), j ≠ i → sys.threads[j]? = some u →
            u.pc = 0 := by
          intro j u hj hu
          by_contra hne
          exact hj (h.excl j i u t hu ht hne h0)
        simp only [h0, if_false]
        by_cases h1 : t.pc = 1
        · simp only [h1, if_true]
          refine ⟨done, ?_⟩
          have hu := StatsSystem.Inv.update s0 all sys.threads i t
            ⟨op :: rest, 2, op.read sys.stats⟩ sys.stats sys.locked done ht hidle
            h.stats_eq ?_ (by simp) (by simp [hact.2])
            (by
              intro op2 rest2 _ hc2
              simp only [List.cons.injEq] at hc2
              rw [hc2.1])
            (by simp)
          · exact hu
          · rw [pending_set_same sys.threads i t _ ht
              (by simp [StatsThread.pending, h1, hcalls])]
            exact h.perm
        · simp only [h1, if_false]
          by_cases h2 : t.pc = 2
          · simp only [h2, if_true]
            have htmp := h.loaded i t op rest ht h2 hcalls
            refine ⟨done ++ [op], ?_⟩
            have hu := StatsSystem.Inv.update s0 all sys.threads i t
              ⟨op :: rest, 3, t.tmp⟩ (op.write sys.stats (wrap64 (t.tmp + op.arg))) sys.locked
              (done ++ [op]) ht hidle
              (by rw [PopulationStats.applyAll_append, ← h.stats_eq,
                PopulationStats.apply_eq_write, htmp])
              ?_ (by simp) (by simp [hact.2]) (by simp) (by simp)
            · exact hu
            · have hp := pending_set_cons sys.threads i t ⟨op :: rest, 3, t.tmp⟩ op rest ht
                (by simp [StatsThread.pending, h2, hcalls])
                (by simp [StatsThread.pending])
              have hq : (done ++ [op] ++
                  ((sys.threads.set i ⟨op :: rest, 3, t.tmp⟩).map StatsThread.pending).flatten).Perm
                  (done ++ (sys.threads.map StatsThread.pending).flatten) := by
                rw [List.append_assoc]
                exact List.Perm.append_left _ hp
              exact hq.trans h.perm
          · simp only [h2, if_false]
            have h3 : t.pc = 3 := by
              have := h.pc_le i t ht
              omega
            refine ⟨done, ?_⟩
            have hu := StatsSystem.Inv.update s0 all sys.threads i t
              { calls := rest, pc := 0, tmp := t.tmp } sys.stats false done ht hidle
              h.stats_eq ?_ (by simp) (by simp) (by simp) (by simp)
            · exact hu
            · rw [pending_set_same sys.threads i t _ ht
                (by simp [StatsThread.pending, h3, hcalls])]
              exact h.perm

/-- Every run keeps the invariant. -/
theorem StatsSystem.Inv.run {s0 : PopulationStats} {all : List StatsOp} :
    ∀ (schedule : List Nat) (sys : StatsSystem) (done : List StatsOp),
      StatsSystem.Inv s0 all sys done → ∃ done2, StatsSystem.Inv s0 all (sys.run schedule) done2 := by
  intro schedule
  induction schedule with
  | nil => intro sys done h; exact ⟨done, h⟩
  | cons i rest ih =>
    intro sys done h
    obtain ⟨d2, h2⟩ := h.step i
    exact ih _ d2 h2

/-- The invariant holds at the start. -/
theorem StatsSystem.Inv.init (s : PopulationStats) (programs : List (List StatsOp)) :
    StatsSystem.Inv s programs.flatten (StatsSystem.init s programs) [] := by
  have hpc : ∀ (i : Nat) (t : StatsThread),
      (StatsSystem.init s programs).threads[i]? = some t → t.pc = 0 := by
    intro i t ht
    have hm := List.getElem?_mem ht
    simp only [StatsSystem.init, List.mem_map] at hm
    obtain ⟨c, _, rfl⟩ := hm
    rfl
  refine ⟨rfl, ?_, ?_, ?_, ?_, ?_, ?_⟩
  · simp only [StatsSystem.init, List.nil_append, List.map_map]
    have : (StatsThread.pending ∘ fun calls => ({ calls := calls, pc := 0, tmp := 0 } : StatsThread))
        = id := by
      funext c
      simp [StatsThread.pending]
    rw [this, List.map_id]
  · intro i t ht
    rw [hpc i t ht]
    omega
  · intro i t ht hne
    exact absurd (hpc i t ht) hne
  · intro i t op rest ht h2
    rw [hpc i t ht] at h2
    omega
  · intro i j ti tj hi _ hne
    exact absurd (hpc i ti hi) hne
  · intro hl
    simp [StatsSystem.init] at hl
/-- The counters after a sequence of whole calls on int64 counters: each is
its initial value plus the sum of the arguments of its own operation, reduced
to the int64 range, and the timestamps are unchanged. -/
theorem applyAll_counters : ∀ (ops : List StatsOp) (s : PopulationStats), s.InRange →
    (s.applyAll ops).UsersGenerated = wrap64 (s.UsersGenerated + (ops.map StatsOp.users).sum) ∧
    (s.applyAll ops).ContactsGenerated =
      wrap64 (s.ContactsGenerated + (ops.map StatsOp.contacts).sum) ∧
    (s.applyAll ops).ConversationsGenerated =
      wrap64 (s.ConversationsGenerated + (ops.map StatsOp.conversations).sum) ∧
    (s.applyAll ops).MessagesGenerated =
      wrap64 (s.MessagesGenerated + (ops.map StatsOp.messages).sum) ∧
    (s.applyAll ops).StartTime = s.StartTime ∧ (s.applyAll ops).EndTime = s.EndTime := by
  intro ops
  induction ops with
  | nil =>
    intro s hs
    obtain ⟨h1, h2, h3, h4⟩ := hs
    simp [PopulationStats.applyAll, wrap64_of_isInt64 _ h1, wrap64_of_isInt64 _ h2,
      wrap64_of_isInt64 _ h3, wrap64_of_isInt64 _ h4]
  | cons op rest ih =>
    intro s hs
    obtain ⟨r1, r2, r3, r4⟩ := hs
    have hs2 : (s.apply op).InRange := by
      cases op <;>
        simp only [PopulationStats.apply, PopulationStats.AddUsers, PopulationStats.AddContacts,
          PopulationStats.AddConversations, PopulationStats.AddMessages,
          PopulationStats.InRange] <;>
        refine ⟨?_, ?_, ?_, ?_⟩ <;> first | assumption | exact wrap64_isInt64 _
    obtain ⟨h1, h2, h3, h4, h5, h6⟩ := ih (s.apply op) hs2
    simp only [PopulationStats.applyAll, List.foldl_cons] at h1 h2 h3 h4 h5 h6 ⊢
    rw [h1, h2, h3, h4, h5, h6]
    cases op <;>
      simp only [PopulationStats.apply, PopulationStats.AddUsers, PopulationStats.AddContacts,
        PopulationStats.AddConversations, PopulationStats.AddMessages, StatsOp.users,
        StatsOp.contacts, StatsOp.conversations, StatsOp.messages, List.map_cons,
        List.sum_cons, wrap64_add, zero_add, add_assoc, and_self]

/-- What a finished run leaves: the pending calls are used up and the mutex is
free. -/
theorem StatsSystem.Inv.finished {s0 : PopulationStats} {all : List StatsOp}
    {sys : StatsSystem} {done : List StatsOp} (h : StatsSystem.Inv s0 all sys done)
    (hfin : sys.finished = true) : done.Perm all ∧ sys.locked = false := by
  simp only [StatsSystem.finished, List.all_eq_true, List.isEmpty_iff] at hfin
  have hp : (sys.threads.map StatsThread.pending).flatten = [] := by
    rw [List.flatten_eq_nil_iff]
    intro l hl
    obtain ⟨t, ht, rfl⟩ := List.mem_map.mp hl
    simp [StatsThread.pending, hfin t ht]
  have h1 := h.perm
  rw [hp, List.append_nil] at h1
  refine ⟨h1, ?_⟩
  cases hl : sys.locked with
  | false => rfl
  | true =>
    obtain ⟨i, t, ht, hne⟩ := h.held hl
    exact absurd (hfin t (List.getElem?_mem ht)) (h.active i t ht hne).1

/-- Replacing a goroutine by one with fewer remaining steps lowers the total. -/
theorem remaining_set_lt (l : List StatsThread) (i : Nat) (t t2 : StatsThread)
    (ht : l[i]? = some t) (hlt : t2.remaining < t.remaining) :
    ((l.set i t2).map StatsThread.remaining).sum < (l.map StatsThread.remaining).sum := by
  induction l generalizing i with
  | nil => simp at ht
  | cons x xs ih =>
    cases i with
    | zero =>
      simp only [List.getElem?_cons_zero, Option.some.injEq] at ht
      subst ht
      simp only [List.set_cons_zero, List.map_cons, List.sum_cons]
      omega
    | succ n =>
      simp only [List.getElem?_cons_succ] at ht
      have h := ih n ht
      simp only [List.set_cons_succ, List.map_cons, List.sum_cons]
      omega

/-- No deadlock: while some call is incomplete, some goroutine can take a step
that brings it nearer to its end (the holder of the mutex, or any goroutine
with a call to make when the mutex is free). -/
theorem StatsSystem.Inv.progress {s0 : PopulationStats} {all : List StatsOp}
    {sys : StatsSystem} {done : List StatsOp} (h : StatsSystem.Inv s0 all sys done)
    (hnf : sys.finished = false) :
    ∃ i, ((sys.step i).threads.map StatsThread.remaining).sum <
      (sys.threads.map StatsThread.remaining).sum := by
  cases hl : sys.locked with
  | true =>
    obtain ⟨i, t, ht, hne⟩ := h.held hl
    have hcne := (h.active i t ht hne).1
    have hle := h.pc_le i t ht
    obtain ⟨op, rest, hcalls⟩ := List.exists_cons_of_ne_nil hcne
    refine ⟨i, ?_⟩
    simp only [StatsSystem.step, ht, hcalls, hne, if_false]
    by_cases h1 : t.pc = 1
    · simp only [h1, if_true]
      exact remaining_set_lt _ i t _ ht (by simp [StatsThread.remaining, hcalls, h1]; omega)
    · simp only [h1, if_false]
      by_cases h2 : t.pc = 2
      · simp only [h2, if_true]
        exact remaining_set_lt _ i t _ ht (by simp [StatsThread.remaining, hcalls, h2]; omega)
      · simp only [h2, if_false]
        have h3 : t.pc = 3 := by omega
        exact remaining_set_lt _ i t _ ht (by simp [StatsThread.remaining, hcalls, h3]; omega)
  | false =>
    have hex : ∃ t ∈ sys.threads, t.calls ≠ [] := by
      by_contra hno
      have hall : sys.finished = true := by
        simp only [StatsSystem.finished, List.all_eq_true, List.isEmpty_iff]
        intro t ht
        by_contra hc
        exact hno ⟨t, ht, hc⟩
      rw [hall] at hnf
      exact absurd hnf (by decide)
    obtain ⟨t, hmem, hcne⟩ := hex
    obtain ⟨i, ht⟩ := List.mem_iff_getElem?.mp hmem
    obtain ⟨op, rest, hcalls⟩ := List.exists_cons_of_ne_nil hcne
    have h0 : t.pc = 0 := by
      by_contra hne
      have := (h.active i t ht hne).2
      rw [hl] at this
      exact absurd this (by decide)
    refine ⟨i, ?_⟩
    simp only [StatsSystem.step, ht, hcalls, h0, if_true, hl, Bool.false_eq_true, if_false]
    exact remaining_set_lt _ i t _ ht (by simp [StatsThread.remaining, hcalls, h0])

/-- From every state of a run there is a schedule under which all calls
complete. -/
theorem StatsSystem.Inv.exists_schedule {s0 : PopulationStats} {all : List StatsOp} :
    ∀ (n : Nat) (sys : StatsSystem) (done : List StatsOp), StatsSystem.Inv s0 all sys done →
      (sys.threads.map StatsThread.remaining).sum ≤ n →
      ∃ schedule, (sys.run schedule).finished = true := by
  intro n
  induction n with
  | zero =>
    intro sys done h hn
    cases hf : sys.finished with
    | true => exact ⟨[], hf⟩
    | false =>
      obtain ⟨i, hi⟩ := h.progress hf
      omega
  | succ n ih =>
    intro sys done h hn
    cases hf : sys.finished with
    | true => exact ⟨[], hf⟩
    | false =>
      obtain ⟨i, hi⟩ := h.progress hf
      obtain ⟨d2, h2⟩ := h.step i
      obtain ⟨schedule, hs⟩ := ih (sys.step i) d2 h2 (by omega)
      exact ⟨i :: schedule, hs⟩

/-- For all goroutines and calls there is a schedule under which all calls
complete. -/
theorem stats_aggregator_can_finish (s : PopulationStats) (programs : List (List StatsOp)) :
    ∃ schedule, ((StatsSystem.init s programs).run schedule).finished = true :=
  StatsSystem.Inv.exists_schedule _ _ _ (StatsSystem.Inv.init s programs) (le_refl _)

/-- C15 (amended): the counters hold int64 values and any number of goroutines
call AddUsers, AddContacts, AddConversations and AddMessages, each call being
Lock, the read of the counter, the write of the sum and Unlock, under any
schedule.  When all calls are complete the statistics are those of the whole
calls applied one after the other in some order, the mutex is free, each
counter is its initial value plus the sum of the arguments passed to its
operation, reduced to the int64 range (no update is lost, and the sum is
exact when it is an int64 value), and the timestamps are unchanged.  A single
call is the whole call: it changes its own counter, to the old value plus its
argument reduced to the int64 range, and nothing else.  For all goroutines
and calls some schedule completes all calls. -/
theorem stats_aggregator_no_lost_updates (s : PopulationStats) (hs : s.InRange)
    (programs : List (List StatsOp)) (schedule : List Nat)
    (hfin : ((StatsSystem.init s programs).run schedule).finished = true) :
    (∃ ops : List StatsOp, ops.Perm programs.flatten ∧
      ((StatsSystem.init s programs).run schedule).stats = s.applyAll ops) ∧
    ((StatsSystem.init s programs).run schedule).locked = false ∧
    ((StatsSystem.init s programs).run schedule).stats.UsersGenerated =
      wrap64 (s.UsersGenerated + (programs.flatten.map StatsOp.users).sum) ∧
    ((StatsSystem.init s programs).run schedule).stats.ContactsGenerated =
      wrap64 (s.ContactsGenerated + (programs.flatten.map StatsOp.contacts).sum) ∧
    ((StatsSystem.init s programs).run schedule).stats.ConversationsGenerated =
      wrap64 (s.ConversationsGenerated + (programs.flatten.map StatsOp.conversations).sum) ∧
    ((StatsSystem.init s programs).run schedule).stats.MessagesGenerated =
      wrap64 (s.MessagesGenerated + (programs.flatten.map StatsOp.messages).sum) ∧
    ((StatsSystem.init s programs).run schedule).stats.StartTime = s.StartTime ∧
    ((StatsSystem.init s programs).run schedule).stats.EndTime = s.EndTime ∧
    (IsInt64 (s.UsersGenerated + (programs.flatten.map StatsOp.users).sum) →
      ((StatsSystem.init s programs).run schedule).stats.UsersGenerated =
        s.UsersGenerated + (programs.flatten.map StatsOp.users).sum) ∧
    (IsInt64 (s.ContactsGenerated + (programs.flatten.map StatsOp.contacts).sum) →
      ((StatsSystem.init s programs).run schedule).stats.ContactsGenerated =
        s.ContactsGenerated + (programs.flatten.map StatsOp.contacts).sum) ∧
    (IsInt64 (s.ConversationsGenerated + (programs.flatten.map StatsOp.conversations).sum) →
      ((StatsSystem.init s programs).run schedule).stats.ConversationsGenerated =
        s.ConversationsGenerated + (programs.flatten.map StatsOp.conversations).sum) ∧
    (IsInt64 (s.MessagesGenerated + (programs.flatten.map StatsOp.messages).sum) →
      ((StatsSystem.init s programs).run schedule).stats.MessagesGenerated =
        s.MessagesGenerated + (programs.flatten.map StatsOp.messages).sum) ∧
    (∀ op : StatsOp, programs = [[op]] →
      ((StatsSystem.init s programs).run schedule).stats =
        op.write s (wrap64 (op.read s + op.arg))) ∧
    (∃ complete : List Nat,
      ((StatsSystem.init s programs).run complete).finished = true) := by
  obtain ⟨done, hinv⟩ := StatsSystem.Inv.run schedule _ _ (StatsSystem.Inv.init s programs)
  obtain ⟨hperm, hfree⟩ := hinv.finished hfin
  obtain ⟨a1, a2, a3, a4, a5, a6⟩ := applyAll_counters done s hs
  have e1 := (hperm.map StatsOp.users).sum_eq
  have e2 := (hperm.map StatsOp.contacts).sum_eq
  have e3 := (hperm.map StatsOp.conversations).sum_eq
  have e4 := (hperm.map StatsOp.messages).sum_eq
  rw [e1] at a1
  rw [e2] at a2
  rw [e3] at a3
  rw [e4] at a4
  rw [← hinv.stats_eq] at a1 a2 a3 a4 a5 a6
  refine ⟨⟨done, hperm, hinv.stats_eq⟩, hfree, a1, a2, a3, a4, a5, a6, ?_, ?_, ?_, ?_, ?_,
    stats_aggregator_can_finish s programs⟩
  · intro h; rw [a1, wrap64_of_isInt64 _ h]
  · intro h; rw [a2, wrap64_of_isInt64 _ h]
  · intro h; rw [a3, wrap64_of_isInt64 _ h]
  · intro h; rw [a4, wrap64_of_isInt64 _ h]
  · intro op hop
    subst hop
    have hd : done = [op] := by
      have hp2 : done.Perm [op] := by simpa using hperm
      exact List.perm_singleton.mp hp2
    rw [hinv.stats_eq, hd, ← PopulationStats.apply_eq_write]
    rfl
/-- C15 (the claim as stated fails): the counters are Go ints.  AddUsers(1) on
a counter that holds 2^63 - 1 leaves -2^63 and not the old value plus 1, both
as a whole call and in the run of one goroutine that makes this call. -/
theorem add_users_wraps_at_max_int :
    (fullStats.AddUsers 1).UsersGenerated = -2 ^ 63 ∧
    (fullStats.AddUsers 1).UsersGenerated ≠ fullStats.UsersGenerated + 1 ∧
    ((StatsSystem.init fullStats [[StatsOp.AddUsers 1]]).run [0, 0, 0, 0]).finished = true ∧
    ((StatsSystem.init fullStats [[StatsOp.AddUsers 1]]).run [0, 0, 0, 0]).stats.UsersGenerated
      = -2 ^ 63 := by
  refine ⟨by decide, by decide, by decide, by decide⟩

/-- Instance of the amended C15: one goroutine adds 10 users and 3 messages, a
second adds 5 users, and their steps alternate (a goroutine that finds the
mutex taken stays blocked); the run completes with 15 users and 3 messages. -/
theorem stats_aggregator_no_lost_updates_witness :
    zeroStats.InRange ∧
    ((StatsSystem.init zeroStats [[StatsOp.AddUsers 10, StatsOp.AddMessages 3],
      [StatsOp.AddUsers 5]]).run [0, 1, 0, 1, 0, 1, 0, 1, 1, 0, 1, 0, 1, 0, 1, 0, 0, 0]).finished
        = true ∧
    ((StatsSystem.init zeroStats [[StatsOp.AddUsers 10, StatsOp.AddMessages 3],
      [StatsOp.AddUsers 5]]).run
        [0, 1, 0, 1, 0, 1, 0, 1, 1, 0, 1, 0, 1, 0, 1, 0, 0, 0]).stats.UsersGenerated =
      wrap64 (zeroStats.UsersGenerated +
        (([[StatsOp.AddUsers 10, StatsOp.AddMessages 3],
          [StatsOp.AddUsers 5]].flatten).map StatsOp.users).sum) ∧
    ((StatsSystem.init zeroStats [[StatsOp.AddUsers 10, StatsOp.AddMessages 3],
      [StatsOp.AddUsers 5]]).run
        [0, 1, 0, 1, 0, 1, 0, 1, 1, 0, 1, 0, 1, 0, 1, 0, 0, 0]).stats.UsersGenerated = 15 :=
  ⟨by decide, by decide,
    (stats_aggregator_no_lost_updates zeroStats (by decide)
      [[StatsOp.AddUsers 10, StatsOp.AddMessages 3], [StatsOp.AddUsers 5]]
      [0, 1, 0, 1, 0, 1, 0, 1, 1, 0, 1, 0, 1, 0, 1, 0, 0, 0] (by decide)).2.2.1,
    by decide⟩

/-! ## C16: MessageService.CreateMessage -/

/-- C16: MessageService.CreateMessage issues the Gateway call CreateMessage if
and only if the conversation ID is valid, the sender ID is valid, the content
is not empty and the check IsUserInConversation succeeded with the answer
true; then it is the second and last call and carries the fields of the
request.  In every other case an error is returned and no CreateMessage call
is issued, and when a required field is missing the error is returned before
any Gateway call. -/
theorem createMessage_call_iff (gw : ServiceGateway) (req : CreateMessageRequest) :
    ((∃ p, ServiceCall.CreateMessage p ∈ (MessageService.CreateMessage gw req).2) ↔
      (req.ConversationID.Valid = true ∧ req.SenderID.Valid = true ∧ req.Content ≠ "" ∧
        gw.IsUserInConversation req.ConversationID req.SenderID = .ok true)) ∧
    ((req.ConversationID.Valid = true ∧ req.SenderID.Valid = true ∧ req.Content ≠ "" ∧
        gw.IsUserInConversation req.ConversationID req.SenderID = .ok true) →
      (MessageService.CreateMessage gw req).2 =
        [ServiceCall.IsUserInConversation req.ConversationID req.SenderID,
         ServiceCall.CreateMessage
           { ConversationID := req.ConversationID, SenderID := req.SenderID,
             Content := req.Content,
             MessageType := if req.MessageType = "" then "text" else req.MessageType,
             ReplyToID := req.ReplyToID }]) ∧
    (¬ (req.ConversationID.Valid = true ∧ req.SenderID.Valid = true ∧ req.Content ≠ "" ∧
        gw.IsUserInConversation req.ConversationID req.SenderID = .ok true) →
      (∃ e, (MessageService.CreateMessage gw req).1 = .error e) ∧
      ∀ p, ServiceCall.CreateMessage p ∉ (MessageService.CreateMessage gw req).2) ∧
    ((req.ConversationID.Valid = false ∨ req.SenderID.Valid = false ∨ req.Content = "") →
      (∃ e, (MessageService.CreateMessage gw req).1 = .error e) ∧
      (MessageService.CreateMessage gw req).2 = []) := by
  cases hc : req.ConversationID.Valid with
  | false => simp [MessageService.CreateMessage, hc]
  | true =>
    cases hs : req.SenderID.Valid with
    | false => simp [MessageService.CreateMessage, hc, hs]
    | true =>
      by_cases hcontent : req.Content = ""
      · simp [MessageService.CreateMessage, hc, hs, hcontent]
      · cases hi : gw.IsUserInConversation req.ConversationID req.SenderID with
        | error e => simp [MessageService.CreateMessage, hc, hs, hcontent, hi]
        | ok b =>
          cases b with
          | false => simp [MessageService.CreateMessage, hc, hs, hcontent, hi]
          | true =>
            cases hm : gw.CreateMessage
                { ConversationID := req.ConversationID, SenderID := req.SenderID,
                  Content := req.Content,
                  MessageType := if req.MessageType = "" then "text" else req.MessageType,
                  ReplyToID := req.ReplyToID } with
            | error e => simp [MessageService.CreateMessage, hc, hs, hcontent, hi, hm]
            | ok m => simp [MessageService.CreateMessage, hc, hs, hcontent, hi, hm]

/-- A request with all required fields whose sender is a participant: the two
calls are issued and the response carries the default type "text". -/
theorem createMessage_example :
    MessageService.CreateMessage sampleServiceGateway sampleRequest =
      (.ok { ID := { Bytes := 7, Valid := true }, ConversationID := { Bytes := 1000, Valid := true },
             SenderID := { Bytes := 1, Valid := true }, Content := "Hey!", MessageType := "text",
             ReplyToID := { Bytes := 0, Valid := false }, CreatedAt := 0 },
        [ServiceCall.IsUserInConversation { Bytes := 1000, Valid := true }
           { Bytes := 1, Valid := true },
         ServiceCall.CreateMessage
           { ConversationID := { Bytes := 1000, Valid := true },
             SenderID := { Bytes := 1, Valid := true }, Content := "Hey!",
             MessageType := "text", ReplyToID := { Bytes := 0, Valid := false } }]) := by
  rfl

/-! ## C17: MessageService.AddReaction -/

/-- Rewriting the token of some rows does not change the pairs (message, user)
of a store. -/
theorem update_keeps_keys (store : List ReactionRow) (m u : UUID) (token : String) :
    (store.map (fun r =>
        if r.MessageID = m ∧ r.UserID = u then { r with Reaction := token } else r)).map
      (fun r => (r.MessageID, r.UserID)) = store.map (fun r => (r.MessageID, r.UserID)) := by
  rw [List.map_map]
  apply List.map_congr_left
  intro r _
  simp only [Function.comp]
  split <;> rfl

/-- C17: MessageService.AddReaction never duplicates a reaction.  For valid IDs
and a non-empty reaction, when HasUserReactedToMessage reports true exactly
one UpdateMessageReaction call and no AddMessageReaction call is issued, and
when it reports false exactly one AddMessageReaction call and no update; and
on a reaction store that has at most one reaction per pair (message, user),
the store still has at most one per pair afterwards, whichever of the Gateway
operations fail. -/
theorem addReaction_never_duplicates (σ : Type) (gw : ReactionGateway σ) (st : σ)
    (m u : UUID) (reaction : String) (store : List ReactionRow)
    (checkFails updateFails addFails : Bool)
    (hm : m.Valid = true) (hu : u.Valid = true) (hr : reaction ≠ "") :
    (gw.HasUserReactedToMessage st m u = .ok true →
      (MessageService.AddReaction gw st m u reaction).2.1 =
        [ReactionCall.HasUserReactedToMessage m u,
         ReactionCall.UpdateMessageReaction m u reaction]) ∧
    (gw.HasUserReactedToMessage st m u = .ok false →
      (MessageService.AddReaction gw st m u reaction).2.1 =
        [ReactionCall.HasUserReactedToMessage m u,
         ReactionCall.AddMessageReaction m u reaction]) ∧
    ((store.map (fun r => (r.MessageID, r.UserID))).Nodup →
      (((MessageService.AddReaction (storeReactionGateway checkFails updateFails addFails)
        store m u reaction).2.2).map (fun r => (r.MessageID, r.UserID))).Nodup) := by
  refine ⟨?_, ?_, ?_⟩
  · intro h
    cases h2 : gw.UpdateMessageReaction st m u reaction <;>
      simp [MessageService.AddReaction, hm, hu, hr, h, h2]
  · intro h
    cases h2 : gw.AddMessageReaction st m u reaction <;>
      simp [MessageService.AddReaction, hm, hu, hr, h, h2]
  · intro hnd
    cases checkFails with
    | true => simpa [MessageService.AddReaction, storeReactionGateway, hm, hu, hr] using hnd
    | false =>
      by_cases hex : ∃ x ∈ store, x.MessageID = m ∧ x.UserID = u
      · cases updateFails with
        | true =>
          simpa [MessageService.AddReaction, storeReactionGateway, hm, hu, hr, hex] using hnd
        | false =>
          have hk := update_keeps_keys store m u reaction
          have hstore : (MessageService.AddReaction (storeReactionGateway false false addFails)
              store m u reaction).2.2 = store.map (fun r =>
                if r.MessageID = m ∧ r.UserID = u then { r with Reaction := reaction } else r) := by
            simp [MessageService.AddReaction, storeReactionGateway, hm, hu, hr, hex]
          rw [hstore, hk]
          exact hnd
      · cases addFails with
        | true =>
          simpa [MessageService.AddReaction, storeReactionGateway, hm, hu, hr, hex] using hnd
        | false =>
          have hnot : (m, u) ∉ store.map (fun r => (r.MessageID, r.UserID)) := by
            intro hin
            obtain ⟨r, hrm, hre⟩ := List.mem_map.mp hin
            simp only [Prod.mk.injEq] at hre
            exact hex ⟨r, hrm, hre⟩
          have hstore : (MessageService.AddReaction
              (storeReactionGateway false updateFails false) store m u reaction).2.2 =
              store ++ [{ MessageID := m, UserID := u, Reaction := reaction }] := by
            simp [MessageService.AddReaction, storeReactionGateway, hm, hu, hr, hex]
          rw [hstore, List.map_append, List.nodup_append]
          refine ⟨hnd, by simp, ?_⟩
          intro a ha hb
          simp only [List.map_cons, List.map_nil, List.mem_singleton] at hb
          subst hb
          exact hnot ha

/-- Instance of C17: re-reacting on a store that holds one reaction of the pair
updates it in place. -/
theorem addReaction_never_duplicates_witness :
    ({ Bytes := 7, Valid := true } : UUID).Valid = true ∧
    ({ Bytes := 1, Valid := true } : UUID).Valid = true ∧ "🔥" ≠ "" ∧
    (MessageService.AddReaction (storeReactionGateway false false false)
        [{ MessageID := { Bytes := 7, Valid := true }, UserID := { Bytes := 1, Valid := true },
           Reaction := "👍" }]
        { Bytes := 7, Valid := true } { Bytes := 1, Valid := true } "🔥").2.2 =
      [{ MessageID := { Bytes := 7, Valid := true }, UserID := { Bytes := 1, Valid := true },
         Reaction := "🔥" }] ∧
    (((MessageService.AddReaction (storeReactionGateway false false false)
        [{ MessageID := { Bytes := 7, Valid := true }, UserID := { Bytes := 1, Valid := true },
           Reaction := "👍" }]
        { Bytes := 7, Valid := true } { Bytes := 1, Valid := true } "🔥").2.2).map
      (fun r => (r.MessageID, r.UserID))).Nodup :=
  ⟨rfl, rfl, by decide, by decide,
    (addReaction_never_duplicates (List ReactionRow) (storeReactionGateway false false false)
      [] { Bytes := 7, Valid := true } { Bytes := 1, Valid := true } "🔥"
      [{ MessageID := { Bytes := 7, Valid := true }, UserID := { Bytes := 1, Valid := true },
         Reaction := "👍" }]
      false false false rfl rfl (by decide)).2.2 (by decide)⟩

/-! ## C19: the members of a group -/

/-- C19: in the group phase of generateConversationsOptimized, for every user
list (also with fewer than 3 users) an iteration with the drawn size
d = rand.Intn(8) + 3, which lies in [3,11), selects the first
min(d, len(users)) elements of a permutation of users; when there is a first
member and the Gateway creates the conversation, the creator passed to
CreateConversation is the first member and one participant addition is
issued per member, in order.  Accordingly every group conversation created
in a run has min(d, len(users)) participant additions for some d in [3,11),
for the members of such a prefix, and its creator is the first of them. -/
theorem group_members_are_capped_selection (fuel : Nat) (gw : Gateway) (users : List User)
    (T : Int) (stats : PopulationStats) (g : Rand) (groupCount gc : Int) (s : ConvState)
    (hlt : gc < groupCount) :
    (3 ≤ (s.rng.Intn 8).1 + 3 ∧ (s.rng.Intn 8).1 + 3 < 11 ∧
      (shuffle users (s.rng.Intn 8).2).1.Perm users ∧
      ((shuffle users (s.rng.Intn 8).2).1.take
        (min ((s.rng.Intn 8).1 + 3) users.length)).length =
        min ((s.rng.Intn 8).1 + 3) users.length ∧
      (∀ first others conv,
        (shuffle users (s.rng.Intn 8).2).1.take (min ((s.rng.Intn 8).1 + 3) users.length) =
          first :: others →
        gw.CreateConversation s.createCalls
          { IsGroup := true,
            Title := some (groupNames.getD
              ((shuffle users (s.rng.Intn 8).2).2.Intn groupNames.length).1 ""),
            CreatedBy := { Valid := true, Bytes := first.ID.Bytes } } = some conv →
        groupLoop gw users groupCount (fuel + 1) gc s =
          groupLoop gw users groupCount fuel (gc + 1)
            { rng := ((shuffle users (s.rng.Intn 8).2).2.Intn groupNames.length).2,
              listCalls := s.listCalls,
              createCalls := s.createCalls + 1,
              stats := s.stats.AddConversations 1,
              conversations := s.conversations ++ [conv],
              created := s.created ++
                [{ request :=
                     { IsGroup := true,
                       Title := some (groupNames.getD
                         ((shuffle users (s.rng.Intn 8).2).2.Intn groupNames.length).1 ""),
                       CreatedBy := { Valid := true, Bytes := first.ID.Bytes } },
                   conv := conv,
                   adds := (first :: others).map (fun member =>
                     { ConversationID := conv.ID, UserID := member.ID,
                       Role := if member.ID = conv.CreatedBy then "admin" else "member" }) }] })) ∧
    (∀ r ∈ (generateConversationsOptimized fuel gw users T stats g).state.created,
      r.request.IsGroup = true →
      ∃ (shuffled : List User) (d : Nat) (first : User) (others : List User),
        shuffled.Perm users ∧ 3 ≤ d ∧ d < 11 ∧
        shuffled.take (min d users.length) = first :: others ∧
        r.adds.map (fun a => a.UserID) = (first :: others).map (fun m => m.ID) ∧
        r.adds.length = min d users.length ∧
        r.request.CreatedBy = { Valid := true, Bytes := first.ID.Bytes }) := by
  have hd : (s.rng.Intn 8).1 < 8 := Nat.mod_lt _ (by decide)
  have hperm := shuffle_perm users (s.rng.Intn 8).2
  have hmin : (if (s.rng.Intn 8).1 + 3 > users.length then users.length
      else (s.rng.Intn 8).1 + 3) = min ((s.rng.Intn 8).1 + 3) users.length := by
    rw [Nat.min_def]
    split <;> split <;> omega
  refine ⟨⟨by omega, by omega, hperm, ?_, ?_⟩, ?_⟩
  · rw [List.length_take, hperm.length_eq]
    omega
  · intro first others conv hgm hconv
    rw [← hmin] at hgm
    simp only [groupLoop, hlt, if_true, hgm, hconv]
  · obtain ⟨ones, groups, hc, _, _, _, _, h1, h2, _, _, _⟩ :=
      generateConversationsOptimized_trace fuel gw users T stats g
    intro r hr hg
    rw [hc] at hr
    rcases List.mem_append.mp hr with h | h
    · rw [(h1 r h).request_not_group] at hg
      exact absurd hg (by decide)
    · obtain ⟨shuffled, d, first, others, title, k, hp, hd1, hd2, ht, _, hreq, _, hadds⟩ := h2 r h
      refine ⟨shuffled, d, first, others, hp, hd1, hd2, ht, ?_, ?_, ?_⟩
      · rw [hadds, List.map_map]
        rfl
      · have hl := congrArg List.length ht
        rw [List.length_take, hp.length_eq] at hl
        rw [hadds, List.length_map, ← hl]
        omega
      · rw [hreq]

/-- Instance of C19: a pool of 5 users and the drawn size 10 give a group of
the 5 users. -/
theorem group_members_are_capped_selection_witness :
    (0 : Int) < 1 ∧
    ((⟨fun _ => 7, fun _ => 0, 0, 0⟩ : Rand).Intn
      8).1 + 3 = 10 ∧
    ((shuffle (sampleUsers 5) ((⟨fun _ => 7, fun _ => 0, 0, 0⟩ : Rand).Intn 8).2).1.take
      (min (((⟨fun _ => 7, fun _ => 0, 0, 0⟩ : Rand).Intn 8).1 + 3) (sampleUsers 5).length)).length =
      min (((⟨fun _ => 7, fun _ => 0, 0, 0⟩ : Rand).Intn 8).1 + 3) (sampleUsers 5).length ∧
    min (((⟨fun _ => 7, fun _ => 0, 0, 0⟩ : Rand).Intn 8).1 + 3) (sampleUsers 5).length = 5 :=
  ⟨by decide, by decide,
    (group_members_are_capped_selection 0 sampleGateway (sampleUsers 5) 0 zeroStats sampleRand 1 0
      { rng := ⟨fun _ => 7, fun _ => 0, 0, 0⟩,
        listCalls := 0, createCalls := 0, stats := zeroStats, conversations := [],
        created := [] }
      (by decide)).1.2.2.2.1,
    by decide⟩

/-! ## C20: the candidate search of a contact slot -/

/-- The candidate search from the state with `attempts` failed attempts: it
keeps the outcome stream, every candidate before the final attempt count was
rejected, and it ends either below 10 attempts with the candidate of that
draw, which is not used, after one more draw than rejected candidates, or at
10 attempts. -/
theorem findContact_spec (users : List User) (used : List UUID) :
    ∀ (fuel attempts : Nat) (contact : User) (g : Rand), fuel + attempts = 10 →
      (findContact users used fuel attempts contact g).2.2.ints = g.ints ∧
      attempts ≤ (findContact users used fuel attempts contact g).2.1 ∧
      (findContact users used fuel attempts contact g).2.1 ≤ 10 ∧
      (∀ j, j < (findContact users used fuel attempts contact g).2.1 - attempts →
        (users.getD (g.ints (g.intCalls + j) % users.length) default).ID ∈ used) ∧
      ((findContact users used fuel attempts contact g).2.1 < 10 →
        (findContact users used fuel attempts contact g).1 =
          users.getD (g.ints (g.intCalls +
            ((findContact users used fuel attempts contact g).2.1 - attempts)) % users.length)
            default ∧
        (findContact users used fuel attempts contact g).1.ID ∉ used ∧
        (findContact users used fuel attempts contact g).2.2.intCalls =
          g.intCalls + ((findContact users used fuel attempts contact g).2.1 - attempts) + 1) ∧
      (10 ≤ (findContact users used fuel attempts contact g).2.1 →
        (findContact users used fuel attempts contact g).2.2.intCalls =
          g.intCalls + (10 - attempts)) := by
  intro fuel
  induction fuel with
  | zero =>
    intro attempts contact g h
    have : attempts = 10 := by omega
    subst this
    simp [findContact]
  | succ n ih =>
    intro attempts contact g h
    have ha : attempts < 10 := by omega
    simp only [findContact, ha, if_true]
    by_cases hu : used.contains (users.getD (g.Intn users.length).1 default).ID = true
    · simp only [hu, Bool.not_true, Bool.false_eq_true, if_false]
      obtain ⟨h1, h2, h3, h4, h5, h6⟩ := ih (attempts + 1)
        (users.getD (g.Intn users.length).1 default) (g.Intn users.length).2 (by omega)
      have hcalls : (g.Intn users.length).2.intCalls = g.intCalls + 1 := rfl
      have hints : (g.Intn users.length).2.ints = g.ints := rfl
      rw [hcalls, hints] at h4 h5
      rw [hcalls] at h6
      refine ⟨by rw [h1, hints], by omega, h3, ?_, ?_, ?_⟩
      · intro j hj
        cases j with
        | zero =>
          have : (users.getD (g.Intn users.length).1 default).ID ∈ used := by simpa using hu
          simpa [Rand.Intn] using this
        | succ j =>
          have := h4 j (by omega)
          rw [show g.intCalls + 1 + j = g.intCalls + (j + 1) by omega] at this
          exact this
      · intro hlt
        obtain ⟨e1, e2, e3⟩ := h5 hlt
        refine ⟨?_, e2, ?_⟩
        · rw [e1]
          congr 3
          omega
        · rw [e3]
          omega
      · intro hge
        rw [h6 hge]
        omega
    · simp only [hu, Bool.not_false, if_true]
      refine ⟨rfl, le_refl _, by omega, ?_, ?_, ?_⟩
      · intro j hj
        omega
      · intro _
        refine ⟨?_, by simpa using hu, ?_⟩
        · simp [Rand.Intn]
        · simp [Rand.Intn]
      · intro hge
        omega
/-- The slot loop issues at most one AddContact call per slot. -/
theorem contactSlots_length (gw : Gateway) (users : List User) (user : User) :
    ∀ (n : Nat) (used : List UUID) (calls : List AddContactParams) (s : ContactState),
      (contactSlots gw users user n used calls s).1.length ≤ calls.length + n := by
  intro n
  induction n with
  | zero => intro used calls s; simp [contactSlots]
  | succ n ih =>
    intro used calls s
    rcases hfc : findContact users used 10 0 default s.rng with ⟨contact, attempts, g⟩
    simp only [contactSlots, hfc]
    by_cases ha : attempts ≥ 10
    · simp only [ha, if_true]
      have := ih used calls { s with rng := g }
      omega
    · simp only [ha, if_false]
      cases hok : gw.AddContact s.addContactCalls
          ⟨user.ID, contact.ID, contact.DisplayName⟩ with
      | false =>
        simp only [Bool.not_false, if_true]
        have := ih (contact.ID :: used) (calls ++ [⟨user.ID, contact.ID, contact.DisplayName⟩])
          { rng := g, addContactCalls := s.addContactCalls + 1, stats := s.stats }
        simp only [List.length_append, List.length_singleton] at this
        omega
      | true =>
        simp only [Bool.not_true, Bool.false_eq_true, if_false]
        have := ih (contact.ID :: used) (calls ++ [⟨user.ID, contact.ID, contact.DisplayName⟩])
          { rng := g, addContactCalls := s.addContactCalls + 1,
            stats := s.stats.AddContacts 1 }
        simp only [List.length_append, List.length_singleton] at this
        omega

/-- C20: in generateContactsOptimized, for each contact slot between 1 and 10
candidates are drawn.  If the search ends with 10 attempts, all 10 candidates
were rejected (their IDs are in usedContacts, which holds the owner and the
contacts chosen so far) and the slot is abandoned: no AddContact call is
issued and the loop goes on with the next slot.  Otherwise the candidates
drawn before were rejected, the last one drawn is not in usedContacts, and
exactly one AddContact call, for this candidate, is appended before the next
slot.  Hence the AddContact calls of a user are at most as many as the
user's drawn contact count. -/
theorem contact_slot_tries_ten_candidates (gw : Gateway) (users : List User) (user : User)
    (n : Nat) (used : List UUID) (calls : List AddContactParams) (s : ContactState) :
    (s.rng.intCalls + 1 ≤ (findContact users used 10 0 default s.rng).2.2.intCalls ∧
      (findContact users used 10 0 default s.rng).2.2.intCalls ≤ s.rng.intCalls + 10) ∧
    (10 ≤ (findContact users used 10 0 default s.rng).2.1 →
      (∀ j, j < 10 →
        (users.getD (s.rng.ints (s.rng.intCalls + j) % users.length) default).ID ∈ used) ∧
      contactSlots gw users user (n + 1) used calls s =
        contactSlots gw users user n used calls
          { s with rng := (findContact users used 10 0 default s.rng).2.2 }) ∧
    ((findContact users used 10 0 default s.rng).2.1 < 10 →
      (∀ j, j < (findContact users used 10 0 default s.rng).2.1 →
        (users.getD (s.rng.ints (s.rng.intCalls + j) % users.length) default).ID ∈ used) ∧
      (findContact users used 10 0 default s.rng).1 =
        users.getD (s.rng.ints (s.rng.intCalls +
          (findContact users used 10 0 default s.rng).2.1) % users.length) default ∧
      (findContact users used 10 0 default s.rng).1.ID ∉ used ∧
      contactSlots gw users user (n + 1) used calls s =
        contactSlots gw users user n
          ((findContact users used 10 0 default s.rng).1.ID :: used)
          (calls ++ [{ UserID := user.ID,
                       ContactID := (findContact users used 10 0 default s.rng).1.ID,
                       ContactName := (findContact users used 10 0 default s.rng).1.DisplayName }])
          { rng := (findContact users used 10 0 default s.rng).2.2,
            addContactCalls := s.addContactCalls + 1,
            stats := if gw.AddContact s.addContactCalls
                { UserID := user.ID,
                  ContactID := (findContact users used 10 0 default s.rng).1.ID,
                  ContactName := (findContact users used 10 0 default s.rng).1.DisplayName }
              then s.stats.AddContacts 1 else s.stats }) ∧
    (contactSlots gw users user n used calls s).1.length ≤ calls.length + n ∧
    (contactsForUser gw users user s).1.length ≤ (drawContactCount s.rng).1 := by
  obtain ⟨_, _, h3, h4, h5, h6⟩ := findContact_spec users used 10 0 default s.rng rfl
  simp only [Nat.sub_zero] at h4 h5 h6
  refine ⟨?_, ?_, ?_, contactSlots_length gw users user n used calls s, ?_⟩
  · by_cases hlt : (findContact users used 10 0 default s.rng).2.1 < 10
    · obtain ⟨_, _, e3⟩ := h5 hlt
      omega
    · have := h6 (by omega)
      omega
  · intro hge
    refine ⟨fun j hj => h4 j (by omega), ?_⟩
    rcases hfc : findContact users used 10 0 default s.rng with ⟨contact, attempts, g⟩
    rw [hfc] at hge
    simp only at hge
    simp only [contactSlots, hfc, ge_iff_le, hge, if_true]
  · intro hlt
    obtain ⟨e1, e2, _⟩ := h5 hlt
    refine ⟨h4, e1, e2, ?_⟩
    rcases hfc : findContact users used 10 0 default s.rng with ⟨contact, attempts, g⟩
    rw [hfc] at hlt
    simp only at hlt
    have hnot : ¬ attempts ≥ 10 := by omega
    simp only [contactSlots, hfc, hnot, if_false]
    cases hok : gw.AddContact s.addContactCalls ⟨user.ID, contact.ID, contact.DisplayName⟩ <;>
      simp
  · have := contactSlots_length gw users user (drawContactCount s.rng).1 [user.ID] []
      { s with rng := (drawContactCount s.rng).2 }
    simpa [contactsForUser] using this

/-- A float32 numerator with more than a binary digits is a multiple of
`2^(a-24)`. -/
theorem isFloat32_dvd (k a : Nat) (h : isFloat32 k = true) (ha : a ≤ bitLength k) :
    2 ^ (a - 24) ∣ k := by
  unfold isFloat32 at h
  have h1 : k % 2 ^ (bitLength k - 24) = 0 := by simpa using h
  exact dvd_trans (pow_dvd_pow 2 (by omega)) (Nat.dvd_of_mod_eq_zero h1)

/-- Every product of a 24-bit significand and a power of two is a float32
numerator. -/
theorem isFloat32_mul_pow (m e : Nat) (hm : m < 2 ^ 24) : isFloat32 (m * 2 ^ e) = true := by
  have h1 : m * 2 ^ e < 2 ^ (24 + e) := by
    rw [pow_add]
    exact Nat.mul_lt_mul_of_pos_right hm (Nat.two_pow_pos e)
  have h2 := bitLength_le_of_lt _ _ h1
  have h3 : 2 ^ (bitLength (m * 2 ^ e) - 24) ∣ m * 2 ^ e :=
    dvd_trans (pow_dvd_pow 2 (by omega)) (Dvd.intro_left m rfl)
  unfold isFloat32
  simpa using Nat.mod_eq_zero_of_dvd h3

/-- A float32 value lies below the float32 constant 0.1 exactly when it lies
below the real number 1/10. -/
theorem float32_lt_tenth (k : Nat) (h : isFloat32 k = true) :
    k < f32_0_1 ↔ 10 * k < 2 ^ 149 := by
  by_cases hL : 146 ≤ bitLength k
  · obtain ⟨j, rfl⟩ := isFloat32_dvd k 146 h hL
    have e1 : f32_0_1 = 2 ^ 122 * 13421773 := by unfold f32_0_1; ring
    have e2 : 10 * (2 ^ (146 - 24) * j) = 2 ^ 122 * (10 * j) := by
      norm_num; ring
    have e3 : (2 : Nat) ^ 149 = 2 ^ 122 * 134217728 := by norm_num
    have e4 : (2 : Nat) ^ (146 - 24) = 2 ^ 122 := by norm_num
    rw [e2, e3, e1, e4, Nat.mul_lt_mul_left (Nat.two_pow_pos 122),
      Nat.mul_lt_mul_left (Nat.two_pow_pos 122)]
    omega
  · have h1 : k < 2 ^ 145 :=
      lt_of_lt_of_le (lt_two_pow_bitLength k) (Nat.pow_le_pow_right (by decide) (by omega))
    unfold f32_0_1
    norm_num at h1 ⊢
    omega

/-- A float32 value lies below the float32 constant 0.3 exactly when it lies
below the real number 3/10. -/
theorem float32_lt_three_tenths (k : Nat) (h : isFloat32 k = true) :
    k < f32_0_3 ↔ 10 * k < 3 * 2 ^ 149 := by
  by_cases hL : 148 ≤ bitLength k
  · obtain ⟨j, rfl⟩ := isFloat32_dvd k 148 h hL
    have e1 : f32_0_3 = 2 ^ 124 * 10066330 := by unfold f32_0_3; ring
    have e2 : 10 * (2 ^ (148 - 24) * j) = 2 ^ 124 * (10 * j) := by
      norm_num; ring
    have e3 : 3 * (2 : Nat) ^ 149 = 2 ^ 124 * 100663296 := by norm_num
    have e4 : (2 : Nat) ^ (148 - 24) = 2 ^ 124 := by norm_num
    rw [e2, e3, e1, e4, Nat.mul_lt_mul_left (Nat.two_pow_pos 124),
      Nat.mul_lt_mul_left (Nat.two_pow_pos 124)]
    omega
  · have h1 : k < 2 ^ 147 :=
      lt_of_lt_of_le (lt_two_pow_bitLength k) (Nat.pow_le_pow_right (by decide) (by omega))
    unfold f32_0_3
    norm_num at h1 ⊢
    omega

/-- Comparison of a value `k / 2^149` with a fraction `a / 10`, over the
rationals, as a comparison of natural numbers. -/
theorem float32_value_lt (k a : Nat) :
    (k : ℚ) / 2 ^ 149 < (a : ℚ) / 10 ↔ 10 * k < a * 2 ^ 149 := by
  rw [div_lt_div_iff₀ (by positivity) (by norm_num)]
  constructor
  · intro h
    have h2 : ((10 * k : Nat) : ℚ) < ((a * 2 ^ 149 : Nat) : ℚ) := by
      push_cast; linarith
    exact_mod_cast h2
  · intro h
    have h2 : ((10 * k : Nat) : ℚ) < ((a * 2 ^ 149 : Nat) : ℚ) := by exact_mod_cast h
    push_cast at h2; linarith
/-- The contact count of a hub draw with integer outcome r. -/
theorem drawContactCount_hub (g : Rand) (h : (g.Float32).1 < f32_0_1) :
    (drawContactCount g).1 = (g.Float32).2.ints (g.Float32).2.intCalls % 50 + 30 := by
  simp only [drawContactCount, Rand.Intn]
  rw [if_pos h]

/-- The contact count of a moderate draw with integer outcome r. -/
theorem drawContactCount_moderate (g : Rand) (h1 : ¬ (g.Float32).1 < f32_0_1)
    (h3 : (g.Float32).1 < f32_0_3) :
    (drawContactCount g).1 = (g.Float32).2.ints (g.Float32).2.intCalls % 20 + 10 := by
  simp only [drawContactCount, Rand.Intn]
  rw [if_neg h1, if_pos h3]

/-- The contact count of a regular draw with integer outcome r. -/
theorem drawContactCount_regular (g : Rand) (h1 : ¬ (g.Float32).1 < f32_0_1)
    (h3 : ¬ (g.Float32).1 < f32_0_3) :
    (drawContactCount g).1 = (g.Float32).2.ints (g.Float32).2.intCalls % 10 + 3 := by
  simp only [drawContactCount, Rand.Intn]
  rw [if_neg h1, if_neg h3]

/-- The source whose Float32 outcomes are all `k / 2^149` and whose integer
outcomes are all r. -/
theorem drawContactCount_const (k r : Nat) (hk : k < 2 ^ 149) :
    (Rand.Float32 ⟨fun _ => r, fun _ => k, 0, 0⟩).1 = k ∧
    (drawContactCount ⟨fun _ => r, fun _ => k, 0, 0⟩).1 =
      if k < f32_0_1 then r % 50 + 30 else if k < f32_0_3 then r % 20 + 10 else r % 10 + 3 := by
  have hk2 : k % 2 ^ 149 = k := Nat.mod_eq_of_lt hk
  refine ⟨hk2, ?_⟩
  simp only [drawContactCount, Rand.Intn, Rand.Float32, hk2]
  split_ifs <;> rfl

/-- Claim C21: in generateContactsOptimized the tier draw p, a float32 of
`[0,1)`, and the integer draw give a desired contact count in `[30,80)` when
p < 1/10, in `[10,30)` when 1/10 <= p < 3/10 and in `[3,13)` when p >= 3/10;
and every integer of each range is the count of some pair of draws of that
tier. -/
theorem contact_count_tiers (g : Rand) (hp : isFloat32 (g.Float32).1 = true) :
    (0 ≤ ((g.Float32).1 : ℚ) / 2 ^ 149 ∧ ((g.Float32).1 : ℚ) / 2 ^ 149 < 1) ∧
    (((g.Float32).1 : ℚ) / 2 ^ 149 < 1 / 10 →
      30 ≤ (drawContactCount g).1 ∧ (drawContactCount g).1 < 80) ∧
    (1 / 10 ≤ ((g.Float32).1 : ℚ) / 2 ^ 149 → ((g.Float32).1 : ℚ) / 2 ^ 149 < 3 / 10 →
      10 ≤ (drawContactCount g).1 ∧ (drawContactCount g).1 < 30) ∧
    (3 / 10 ≤ ((g.Float32).1 : ℚ) / 2 ^ 149 →
      3 ≤ (drawContactCount g).1 ∧ (drawContactCount g).1 < 13) ∧
    (∀ n : Nat, 30 ≤ n → n < 80 → ∃ g2 : Rand, isFloat32 (g2.Float32).1 = true ∧
      ((g2.Float32).1 : ℚ) / 2 ^ 149 < 1 / 10 ∧ (drawContactCount g2).1 = n) ∧
    (∀ n : Nat, 10 ≤ n → n < 30 → ∃ g2 : Rand, isFloat32 (g2.Float32).1 = true ∧
      1 / 10 ≤ ((g2.Float32).1 : ℚ) / 2 ^ 149 ∧ ((g2.Float32).1 : ℚ) / 2 ^ 149 < 3 / 10 ∧
      (drawContactCount g2).1 = n) ∧
    (∀ n : Nat, 3 ≤ n → n < 13 → ∃ g2 : Rand, isFloat32 (g2.Float32).1 = true ∧
      3 / 10 ≤ ((g2.Float32).1 : ℚ) / 2 ^ 149 ∧ (drawContactCount g2).1 = n) := by
  have hlt : (g.Float32).1 < 2 ^ 149 := Nat.mod_lt _ (Nat.two_pow_pos 149)
  have q1 := float32_value_lt (g.Float32).1 1
  have q3 := float32_value_lt (g.Float32).1 3
  have t1 := float32_lt_tenth _ hp
  have t3 := float32_lt_three_tenths _ hp
  simp only [Nat.cast_one, Nat.cast_ofNat, one_mul] at q1 q3
  refine ⟨⟨by positivity, ?_⟩, ?_, ?_, ?_, ?_, ?_, ?_⟩
  · rw [div_lt_one (by positivity)]
    exact_mod_cast hlt
  · intro h
    rw [drawContactCount_hub g (t1.2 (q1.1 h))]
    omega
  · intro h1 h3
    rw [drawContactCount_moderate g (fun h => absurd (q1.2 (t1.1 h)) (not_lt.2 h1))
      (t3.2 (q3.1 h3))]
    omega
  · intro h3
    have n3 : ¬ (g.Float32).1 < f32_0_3 := fun h => absurd (q3.2 (t3.1 h)) (not_lt.2 h3)
    have n1 : ¬ (g.Float32).1 < f32_0_1 := fun h => n3 (lt_trans h (by decide))
    rw [drawContactCount_regular g n1 n3]
    omega
  · intro n h1 h2
    obtain ⟨e1, e2⟩ := drawContactCount_const 0 (n - 30) (by positivity)
    refine ⟨⟨fun _ => n - 30, fun _ => 0, 0, 0⟩, ?_, ?_, ?_⟩
    · rw [e1]; decide
    · rw [e1]; norm_num
    · rw [e2, if_pos (by decide), Nat.mod_eq_of_lt (by omega)]
      omega
  · intro n h1 h2
    obtain ⟨e1, e2⟩ := drawContactCount_const (2 ^ 147) (n - 10) (by norm_num)
    refine ⟨⟨fun _ => n - 10, fun _ => 2 ^ 147, 0, 0⟩, ?_, ?_, ?_, ?_⟩
    · rw [e1]; simpa using isFloat32_mul_pow 1 147 (by decide)
    · rw [e1]; norm_num
    · rw [e1]; norm_num
    · rw [e2, if_neg (by decide), if_pos (by decide), Nat.mod_eq_of_lt (by omega)]
      omega
  · intro n h1 h2
    obtain ⟨e1, e2⟩ := drawContactCount_const (2 ^ 148) (n - 3) (by norm_num)
    refine ⟨⟨fun _ => n - 3, fun _ => 2 ^ 148, 0, 0⟩, ?_, ?_, ?_⟩
    · rw [e1]; simpa using isFloat32_mul_pow 1 148 (by decide)
    · rw [e1]; norm_num
    · rw [e2, if_neg (by decide), if_neg (by decide), Nat.mod_eq_of_lt (by omega)]
      omega

/-- The tiers of C21 on the sample source, whose first tier draw is 0: a hub
with a count in the hub range. -/
theorem contact_count_tiers_witness :
    isFloat32 (sampleRand.Float32).1 = true ∧
    30 ≤ (drawContactCount sampleRand).1 ∧ (drawContactCount sampleRand).1 < 80 :=
  ⟨by decide, (contact_count_tiers sampleRand (by decide)).2.1
    (by norm_num [sampleRand, Rand.Float32])⟩

/-! ## C22: the message target and what generateMessagesBatch generates -/

/-- The batches that a completed run of the dispatcher loop sends depend neither
on messagesPerConv nor on the random source. -/
theorem dispatchLoop_batches_eq (B : Int) (total : Nat) (m1 m2 : Int) :
    ∀ (rest : List Conversation) (i : Nat) (batch : List Conversation)
      (sent : List (List Conversation)) (g1 g2 : Rand)
      (o1 o2 : List (List Conversation)) (r1 r2 : Rand),
      dispatchLoop m1 B total rest i batch sent g1 = .ok (o1, r1) →
      dispatchLoop m2 B total rest i batch sent g2 = .ok (o2, r2) → o1 = o2 := by
  intro rest
  induction rest with
  | nil =>
    intro i batch sent g1 g2 o1 o2 r1 r2 h1 h2
    simp only [dispatchLoop, Except.ok.injEq, Prod.mk.injEq] at h1 h2
    rw [← h1.1, ← h2.1]
  | cons conv rest ih =>
    intro i batch sent g1 g2 o1 o2 r1 r2 h1 h2
    by_cases hm1 : Int.tdiv m1 2 ≤ 0
    · simp [dispatchLoop, hm1] at h1
    by_cases hm2 : Int.tdiv m2 2 ≤ 0
    · simp [dispatchLoop, hm2] at h2
    simp only [dispatchLoop, hm1, hm2, if_false] at h1 h2
    by_cases hc : ((batch ++ [conv]).length : Int) ≥ B ∨ (i : Int) = (total : Int) - 1
    · simp only [hc, if_true] at h1 h2
      exact ih _ _ _ _ _ _ _ _ _ h1 h2
    · simp only [hc, if_false] at h1 h2
      exact ih _ _ _ _ _ _ _ _ _ h1 h2

/-- Two completed runs of the dispatcher on the same list and batch size send
the same batches, whatever the two targets and the two random sources. -/
theorem dispatchBatches_batches_eq (conversations : List Conversation) (T1 T2 B : Int)
    (g1 g2 r1 r2 : Rand) (o1 o2 : List (List Conversation))
    (h1 : dispatchBatches conversations T1 B g1 = .ok (o1, r1))
    (h2 : dispatchBatches conversations T2 B g2 = .ok (o2, r2)) : o1 = o2 := by
  unfold dispatchBatches at h1 h2
  cases hB : makeslicePanics sizeofConversation B with
  | true => simp [hB] at h1
  | false =>
    by_cases hl : conversations.length = 0
    · simp [hB, hl] at h1
    simp only [hB, hl, if_false, Bool.false_eq_true] at h1 h2
    exact dispatchLoop_batches_eq _ _ _ _ _ _ _ _ _ _ _ _ _ _ h1 h2

/-- A target of at least two messages per conversation gives rand.Intn a
positive argument. -/
theorem target_gives_positive_bound (n : Nat) (T : Int) (hn : 0 < n) (hT : 2 * (n : Int) ≤ T) :
    0 < Int.tdiv (Int.tdiv T (n : Int)) 2 := by
  have hn2 : (0 : Int) < (n : Int) := by exact_mod_cast hn
  have h0 : (0 : Int) ≤ T := by omega
  rw [Int.tdiv_eq_ediv h0 (le_of_lt hn2)]
  have h2 : (2 : Int) ≤ T / (n : Int) := by
    rw [Int.le_ediv_iff_mul_le hn2]; omega
  rw [Int.tdiv_eq_ediv (by omega) (by decide)]
  omega

/-- A target below two messages per conversation makes the dispatcher panic in
rand.Intn at the first conversation, for every non-empty list and every batch
size B >= 0 that make accepts. -/
theorem dispatchBatches_small_target (conversations : List Conversation) (T B : Int) (g : Rand)
    (hne : conversations ≠ []) (hB : 0 ≤ B) (hBm : sizeofConversation * B ≤ maxAlloc)
    (h0 : 0 ≤ T)
    (hT : T < 2 * (conversations.length : Int)) :
    dispatchBatches conversations T B g = .error "invalid argument to Intn" := by
  obtain ⟨conv, rest, rfl⟩ := List.exists_cons_of_ne_nil hne
  have hn2 : (0 : Int) < (((conv :: rest).length : Nat) : Int) := by simp
  have hm : Int.tdiv (Int.tdiv T (((conv :: rest).length : Nat) : Int)) 2 ≤ 0 := by
    rw [Int.tdiv_eq_ediv h0 (le_of_lt hn2)]
    have h2 : T / (((conv :: rest).length : Nat) : Int) < 2 := by
      rw [Int.ediv_lt_iff_lt_mul hn2]; omega
    have h3 : 0 ≤ T / (((conv :: rest).length : Nat) : Int) := Int.ediv_nonneg h0 (le_of_lt hn2)
    rw [Int.tdiv_eq_ediv h3 (by decide)]
    omega
  have hB2 := makeslicePanics_false sizeofConversation B hB hBm
  unfold dispatchBatches
  rw [hB2, if_neg (by simp), if_neg (by simp)]
  unfold dispatchLoop
  rw [if_pos hm]
/-- For a non-empty list, a batch size B >= 1 that make accepts and two targets
of at least two messages per
conversation the dispatcher completes on both and sends the same batches; and
when the workers of the two runs are handed the same random source (the
dispatcher draws from the source it shares with them, and how often depends on
the target), the two runs end the same way, return the same total, issue the
same CreateMessage calls with the same answers and leave the same statistics. -/
theorem generateMessagesBatch_target_irrelevant (gw : MessageGateway)
    (conversations : List Conversation) (T1 T2 B W : Int) (stats : PopulationStats)
    (ga gb : Rand) (hne : conversations ≠ []) (hB : 1 ≤ B)
    (hBm : sizeofConversation * B ≤ maxAlloc)
    (h1 : 2 * (conversations.length : Int) ≤ T1) (h2 : 2 * (conversations.length : Int) ≤ T2) :
    ∃ (batches : List (List Conversation)) (g1 g2 : Rand),
      dispatchBatches conversations T1 B ga = .ok (batches, g1) ∧
      dispatchBatches conversations T2 B gb = .ok (batches, g2) ∧
      batches.flatten = conversations ∧
      (g1 = g2 →
        (generateMessagesBatch gw conversations T1 B W stats ga).outcome =
          (generateMessagesBatch gw conversations T2 B W stats gb).outcome ∧
        (generateMessagesBatch gw conversations T1 B W stats ga).total =
          (generateMessagesBatch gw conversations T2 B W stats gb).total ∧
        (generateMessagesBatch gw conversations T1 B W stats ga).batches =
          (generateMessagesBatch gw conversations T2 B W stats gb).batches ∧
        (generateMessagesBatch gw conversations T1 B W stats ga).state.issued =
          (generateMessagesBatch gw conversations T2 B W stats gb).state.issued ∧
        (generateMessagesBatch gw conversations T1 B W stats ga).state.stats =
          (generateMessagesBatch gw conversations T2 B W stats gb).state.stats) := by
  have hlen : 0 < conversations.length := List.length_pos.mpr hne
  obtain ⟨o1, g1, d1, f1, _⟩ := dispatchBatches_chunks conversations T1 B ga hne hB hBm
    (target_gives_positive_bound _ T1 hlen h1)
  obtain ⟨o2, g2, d2, _, _⟩ := dispatchBatches_chunks conversations T2 B gb hne hB hBm
    (target_gives_positive_bound _ T2 hlen h2)
  have ho : o1 = o2 := dispatchBatches_batches_eq conversations T1 T2 B ga gb g1 g2 o1 o2 d1 d2
  subst ho
  refine ⟨o1, g1, g2, d1, d2, f1, ?_⟩
  intro hg
  subst hg
  unfold generateMessagesBatch
  simp only [d1, d2]
  cases hW : makechanPanics sizeofSlice W with
  | true => simp only [if_true, and_self]
  | false =>
    simp only [Bool.false_eq_true, if_false]
    by_cases hz : W = 0 ∧ o1 ≠ []
    · simp only [hz, and_self, if_true, ne_eq, not_false_eq_true]
    · simp only [hz, if_false, and_self]

set_option maxRecDepth 1000000 in
/-- The targets 100 and 200 on the one sample conversation: one batch, and the
same source after the dispatcher. -/
theorem generateMessagesBatch_target_irrelevant_witness :
    ∃ (batches : List (List Conversation)) (g1 g2 : Rand),
      dispatchBatches [sampleConversation] 100 10 sampleRand = .ok (batches, g1) ∧
      dispatchBatches [sampleConversation] 200 10 sampleRand = .ok (batches, g2) ∧
      batches.flatten = [sampleConversation] ∧
      (g1 = g2 →
        (generateMessagesBatch sampleMessageGateway [sampleConversation] 100 10 2 zeroStats
            sampleRand).outcome =
          (generateMessagesBatch sampleMessageGateway [sampleConversation] 200 10 2 zeroStats
            sampleRand).outcome ∧
        (generateMessagesBatch sampleMessageGateway [sampleConversation] 100 10 2 zeroStats
            sampleRand).total =
          (generateMessagesBatch sampleMessageGateway [sampleConversation] 200 10 2 zeroStats
            sampleRand).total ∧
        (generateMessagesBatch sampleMessageGateway [sampleConversation] 100 10 2 zeroStats
            sampleRand).batches =
          (generateMessagesBatch sampleMessageGateway [sampleConversation] 200 10 2 zeroStats
            sampleRand).batches ∧
        (generateMessagesBatch sampleMessageGateway [sampleConversation] 100 10 2 zeroStats
            sampleRand).state.issued =
          (generateMessagesBatch sampleMessageGateway [sampleConversation] 200 10 2 zeroStats
            sampleRand).state.issued ∧
        (generateMessagesBatch sampleMessageGateway [sampleConversation] 100 10 2 zeroStats
            sampleRand).state.stats =
          (generateMessagesBatch sampleMessageGateway [sampleConversation] 200 10 2 zeroStats
            sampleRand).state.stats) :=
  generateMessagesBatch_target_irrelevant sampleMessageGateway [sampleConversation] 100 200 10 2
    zeroStats sampleRand sampleRand (by decide) (by decide) (by decide) (by decide) (by decide)

/-- For a non-empty list, a batch size B >= 0 and a worker count W >= 0 that
make accepts and a
target T with 0 <= T < 2 * len(conversations), generateMessagesBatch panics in
rand.Intn before a batch is sent: nothing is dispatched and no message is
created. -/
theorem generateMessagesBatch_small_target (gw : MessageGateway)
    (conversations : List Conversation) (T B W : Int) (stats : PopulationStats) (g : Rand)
    (hne : conversations ≠ []) (hB : 0 ≤ B) (hBm : sizeofConversation * B ≤ maxAlloc)
    (hW : 0 ≤ W) (hWm : sizeofSlice * W ≤ maxAlloc - hchanSize) (h0 : 0 ≤ T)
    (hT : T < 2 * (conversations.length : Int)) :
    (generateMessagesBatch gw conversations T B W stats g).outcome =
      Outcome.panicked "invalid argument to Intn" ∧
    (generateMessagesBatch gw conversations T B W stats g).batches = [] ∧
    (generateMessagesBatch gw conversations T B W stats g).state.issued = [] ∧
    (generateMessagesBatch gw conversations T B W stats g).state.stats = stats := by
  have hW2 := makechanPanics_false sizeofSlice W hW hWm
  unfold generateMessagesBatch
  simp only [dispatchBatches_small_target conversations T B g hne hB hBm h0 hT, hW2,
    Bool.false_eq_true, if_false, and_self]

set_option maxRecDepth 1000000 in
/-- C22 (the code fails the claim): the message target has an observable effect.
On the one sample conversation with batch size 10 and 2 workers, from the same
random source, generateMessagesBatch with the target 0 or 1 panics in
rand.Intn(messagesPerConv/2), dispatching no batch and creating no message,
whereas with the target 100 it returns, having dispatched one batch and issued
20 CreateMessage calls. -/
theorem generateMessagesBatch_target_observable :
    (generateMessagesBatch sampleMessageGateway [sampleConversation] 0 10 2 zeroStats
        sampleRand).outcome = Outcome.panicked "invalid argument to Intn" ∧
    (generateMessagesBatch sampleMessageGateway [sampleConversation] 1 10 2 zeroStats
        sampleRand).outcome = Outcome.panicked "invalid argument to Intn" ∧
    (generateMessagesBatch sampleMessageGateway [sampleConversation] 1 10 2 zeroStats
        sampleRand).batches = [] ∧
    (generateMessagesBatch sampleMessageGateway [sampleConversation] 1 10 2 zeroStats
        sampleRand).state.issued.length = 0 ∧
    (generateMessagesBatch sampleMessageGateway [sampleConversation] 100 10 2 zeroStats
        sampleRand).outcome = Outcome.returned ∧
    (generateMessagesBatch sampleMessageGateway [sampleConversation] 100 10 2 zeroStats
        sampleRand).batches = [[sampleConversation]] ∧
    (generateMessagesBatch sampleMessageGateway [sampleConversation] 100 10 2 zeroStats
        sampleRand).total = 20 ∧
    (generateMessagesBatch sampleMessageGateway [sampleConversation] 100 10 2 zeroStats
        sampleRand).state.issued.length = 20 := by
  refine ⟨by decide, by decide, by decide, by decide, by decide, ?_, by decide, by decide⟩
  decide

/-! ## C23: the template branch of generateRealisticMessageContent -/

/-- Every template is literal text, the verb `%s`, and literal text, with no
`%` in either text. -/
theorem template_split (t : String) (ht : t ∈ templates) :
    ∃ pre post : List Char, t.data = pre ++ '%' :: 's' :: post ∧ '%' ∉ pre ∧ '%' ∉ post := by
  obtain ⟨_, h2, h3⟩ := templates_shape t ht
  have hdrop : t.data.dropWhile (fun c => c ≠ '%') =
      '%' :: 's' :: (t.data.dropWhile (fun c => c ≠ '%')).drop 2 := by
    have h := List.take_append_drop 2 (t.data.dropWhile (fun c => c ≠ '%'))
    rw [h2] at h
    exact h.symm
  have hpre : '%' ∉ t.data.takeWhile (fun c => c ≠ '%') := by
    intro hm
    have h := List.mem_takeWhile_imp hm
    simp at h
  refine ⟨_, _, ?_, hpre, h3⟩
  rw [← hdrop]
  exact (List.takeWhile_append_dropWhile _ _).symm

set_option maxRecDepth 1000000 in
/-- No filler contains a `%`. -/
theorem fillers_no_percent : ∀ f ∈ fillers, '%' ∉ f.data := by
  decide

/-- The byte length of a string is the sum of the UTF-8 sizes of its
characters. -/
theorem utf8ByteSize_eq_utf8Len (s : String) : s.utf8ByteSize = String.utf8Len s.data := by
  cases s
  rfl

/-- A pool element is the element at some index below the length of the pool. -/
theorem getD_of_mem (pool : List String) (s : String) (h : s ∈ pool) :
    ∃ i, i < pool.length ∧ pool.getD i "" = s := by
  obtain ⟨i, hi, he⟩ := List.getElem_of_mem h
  exact ⟨i, hi, by rw [List.getD_eq_getElem _ _ hi]; exact he⟩

/-- In the template branch the format is a template and the operand is a
filler. -/
theorem template_branch_draws (g : Rand) (h0 : (g.Intn 3).1 = 0) :
    ∃ t ∈ templates, ∃ f ∈ fillers, (generateRealisticMessageContent g).1 = sprintf t f := by
  simp only [generateRealisticMessageContent, h0, if_true]
  exact ⟨_, getD_mem_of_lt templates _ (Nat.mod_lt _ (by decide)), _,
    getD_mem_of_lt fillers _ (Nat.mod_lt _ (by decide)), rfl⟩

/-- Every pair of a template and a filler is drawn by some random source. -/
theorem template_branch_reaches (t f : String) (ht : t ∈ templates) (hf : f ∈ fillers) :
    ∃ g : Rand, (g.Intn 3).1 = 0 ∧ (generateRealisticMessageContent g).1 = sprintf t f := by
  obtain ⟨i, hi, hti⟩ := getD_of_mem templates t ht
  obtain ⟨j, hj, hfj⟩ := getD_of_mem fillers f hf
  refine ⟨⟨fun k => if k = 0 then 0 else if k = 1 then i else j, fun _ => 0, 0, 0⟩, rfl, ?_⟩
  simp only [generateRealisticMessageContent, Rand.Intn]
  simp only [Nat.zero_mod, if_true, zero_add, one_ne_zero, if_false, Nat.reduceAdd,
    OfNat.ofNat_ne_zero, OfNat.ofNat_ne_one, Nat.mod_eq_of_lt hi, Nat.mod_eq_of_lt hj, hti, hfj]

/-- Claim C23: in the template branch of generateRealisticMessageContent the
format is one of the 20 templates and the operand one of the fillers, and every
such pair occurs.  Every template is literal text, one verb `%s` and literal
text, with no other `%`, so the result of Sprintf is the template with the
filler in the place of the verb: it contains the filler, contains no `%`, and
its length in bytes is len(template) - 2 + len(filler). -/
theorem template_branch_substitutes (t f : String) (ht : t ∈ templates) (hf : f ∈ fillers) :
    templates.length = 20 ∧
    (∀ g : Rand, (g.Intn 3).1 = 0 → ∃ t2 ∈ templates, ∃ f2 ∈ fillers,
      (generateRealisticMessageContent g).1 = sprintf t2 f2) ∧
    (∃ g : Rand, (g.Intn 3).1 = 0 ∧ (generateRealisticMessageContent g).1 = sprintf t f) ∧
    ∃ (pre post : List Char) (r : String),
      t.data = pre ++ '%' :: 's' :: post ∧ '%' ∉ pre ∧ '%' ∉ post ∧
      sprintf t f = some r ∧ r.data = pre ++ f.data ++ post ∧
      f.data <:+: r.data ∧ '%' ∉ r.data ∧
      r.utf8ByteSize = t.utf8ByteSize - 2 + f.utf8ByteSize ∧
      r.length = t.length - 2 + f.length := by
  refine ⟨rfl, template_branch_draws, template_branch_reaches t f ht hf, ?_⟩
  obtain ⟨pre, post, hd, h1, h2⟩ := template_split t ht
  have hfp := fillers_no_percent f hf
  refine ⟨pre, post, String.mk (pre ++ f.data ++ post), hd, h1, h2, ?_, rfl, ?_, ?_, ?_, ?_⟩
  · simp only [sprintf]
    rw [hd, sprintfChars_one_verb _ _ f h1 h2]
    rfl
  · exact ⟨pre, post, rfl⟩
  · simp only [List.mem_append, not_or]
    exact ⟨⟨h1, hfp⟩, h2⟩
  · rw [utf8ByteSize_eq_utf8Len, utf8ByteSize_eq_utf8Len t, utf8ByteSize_eq_utf8Len f, hd]
    simp only [String.utf8Len_append, String.utf8Len_cons]
    have e1 : Char.utf8Size '%' = 1 := by decide
    have e2 : Char.utf8Size 's' = 1 := by decide
    rw [e1, e2]
    omega
  · simp only [String.length, hd, List.length_append, List.length_cons]
    omega

set_option maxRecDepth 1000000 in
/-- The pair of C23 made of the first template and the filler "tomorrow". -/
theorem template_branch_substitutes_witness :
    "Hey %s! How are you doing?" ∈ templates ∧ "tomorrow" ∈ fillers ∧
    ∃ (pre post : List Char) (r : String),
      "Hey %s! How are you doing?".data = pre ++ '%' :: 's' :: post ∧ '%' ∉ pre ∧ '%' ∉ post ∧
      sprintf "Hey %s! How are you doing?" "tomorrow" = some r ∧
      r.data = pre ++ "tomorrow".data ++ post ∧
      "tomorrow".data <:+: r.data ∧ '%' ∉ r.data ∧
      r.utf8ByteSize = "Hey %s! How are you doing?".utf8ByteSize - 2 + "tomorrow".utf8ByteSize ∧
      r.length = "Hey %s! How are you doing?".length - 2 + "tomorrow".length :=
  ⟨by decide, by decide,
    (template_branch_substitutes "Hey %s! How are you doing?" "tomorrow" (by decide)
      (by decide)).2.2.2⟩

end Populate
